import Mathlib

/-! ETFWebCrawler: pacing, retry, crawl lifecycle, registry, storage merging and the
date parser.

A shallow embedding of the fetch and crawl-orchestration core of the repository
(`src/utils/rateLimiter.js`, `src/services/requestService.js`,
`src/core/baseCrawler.js`, `src/core/crawlerManager.js`) and of the parts of
`src/crawlers/farsideCrawler.js`, `src/services/scheduleService.js`,
`src/services/storageService.js`, `src/utils/userAgentManager.js` and
`src/utils/dataParser.js` that the properties below are about.

Conventions of the embedding.

* Times are integer milliseconds (`Date.now()` values), kept in `Int` because the
  source subtracts them.
* `Math.random()` is a rational `num / den` with `num < den`; `Math.floor` of a
  product with an integer is then an integer floor division.
* A timer (`setTimeout`) resumes its caller no earlier than requested; the overshoot
  is an explicit natural number `lag` supplied by the environment.
* Collaborators outside the modelled code (the HTTP client, the URL parser, the
  storage service seen from the crawler, the data-source routines of a crawler
  subclass) are oracles: the environment of a call says what each of them answers.
* A thrown JavaScript value is an `Error` object carrying a message.
* Libraries outside the repository (`moment`, `user-agents`, `JSON.stringify`, the
  browser driver) are parameters of the functions that call them.
* A loop whose termination depends on its input takes a bound on its iterations and
  returns `none` when the bound is reached; the properties show the bound suffices.
-/

namespace ETFWebCrawler

/-! ## JavaScript `Map` with string keys, in insertion order -/

/-- `Map.prototype.get`: the value stored under `key`, if any. -/
def mapGet {α : Type} : List (String × α) → String → Option α
  | [], _ => none
  | (k, v) :: rest, key => if k = key then some v else mapGet rest key

/-- `Map.prototype.has`. -/
def mapHas {α : Type} (m : List (String × α)) (key : String) : Bool :=
  (mapGet m key).isSome

/-- `Map.prototype.set`: an existing key keeps its position and gets the new value,
a new key is appended. -/
def mapSet {α : Type} : List (String × α) → String → α → List (String × α)
  | [], key, v => [(key, v)]
  | (k, w) :: rest, key, v =>
      if k = key then (k, v) :: rest else (k, w) :: mapSet rest key v

/-- `Map.prototype.delete`. -/
def mapDelete {α : Type} : List (String × α) → String → List (String × α)
  | [], _ => []
  | (k, w) :: rest, key => if k = key then rest else (k, w) :: mapDelete rest key

/-! ## Errors -/

/-- A thrown `Error` object. -/
structure JsError where
  message : String
  deriving DecidableEq, Repr

/-! ## `src/utils/rateLimiter.js` -/

/-- One value of `Math.random()`: the rational `num / den`, in `[0, 1)`. -/
structure UnitSample where
  num : Nat
  den : Nat
  lt : num < den

/-- The class `RateLimiter`: `requestTimes` maps a domain to the time of its last
request; `minDelay` and `maxDelay` come from the configuration. -/
structure RateLimiter where
  requestTimes : List (String × Int)
  minDelay : Int
  maxDelay : Int
  deriving DecidableEq, Repr

/-- `getRandomDelay()`:
`Math.floor(Math.random() * (maxDelay - minDelay + 1)) + minDelay`. -/
def RateLimiter.getRandomDelay (rl : RateLimiter) (u : UnitSample) : Int :=
  ((u.num : Int) * (rl.maxDelay - rl.minDelay + 1)) / (u.den : Int) + rl.minDelay

/-- The synchronous prefix of `waitForRate(domain)` (lines 27-33): reads the clock
and the last request time of the domain, draws the delay and returns the time the
caller is going to sleep (`0` when the `if` is not taken). -/
def RateLimiter.waitTime (rl : RateLimiter) (domain : String) (now : Int)
    (u : UnitSample) : Int :=
  let lastRequestTime := (mapGet rl.requestTimes domain).getD 0
  let timeSinceLastRequest := now - lastRequestTime
  let delay := rl.getRandomDelay u
  if timeSinceLastRequest < delay then delay - timeSinceLastRequest else 0

/-- The last statement of `waitForRate` (line 37):
`this.requestTimes.set(domain, Date.now())`. -/
def RateLimiter.record (rl : RateLimiter) (domain : String) (t : Int) : RateLimiter :=
  { rl with requestTimes := mapSet rl.requestTimes domain t }

/-- The instant at which a `waitForRate` entered at `now` resumes and records. -/
def RateLimiter.releaseTime (rl : RateLimiter) (domain : String) (now : Int)
    (u : UnitSample) (lag : Nat) : Int :=
  now + rl.waitTime domain now u + lag

/-- `waitForRate(domain)` run with no other task in between: the limiter after the
call and the timestamp it recorded, which is the instant the caller is released. -/
def RateLimiter.waitForRate (rl : RateLimiter) (domain : String) (now : Int)
    (u : UnitSample) (lag : Nat) : RateLimiter × Int :=
  let t := rl.releaseTime domain now u lag
  (rl.record domain t, t)

/-- Two `waitForRate(domain)` calls whose synchronous prefixes both run before
either timer fires (both callers were admitted together): each reads the same
`requestTimes`, each sleeps, each records. Returns the limiter and the two release
instants. -/
def RateLimiter.waitForRateOverlapped (rl : RateLimiter) (domain : String)
    (nowA : Int) (uA : UnitSample) (lagA : Nat)
    (nowB : Int) (uB : UnitSample) (lagB : Nat) : RateLimiter × Int × Int :=
  let tA := rl.releaseTime domain nowA uA lagA
  let tB := rl.releaseTime domain nowB uB lagB
  (if tA ≤ tB then (rl.record domain tA).record domain tB
   else (rl.record domain tB).record domain tA, tA, tB)

/-- `reset(domain)`. -/
def RateLimiter.reset (rl : RateLimiter) (domain : String) : RateLimiter :=
  { rl with requestTimes := mapDelete rl.requestTimes domain }

/-- `clearAll()`. -/
def RateLimiter.clearAll (rl : RateLimiter) : RateLimiter :=
  { rl with requestTimes := [] }

/-! ## `src/services/requestService.js`: the direct fetch -/

/-- What the HTTP client resolves with on a 2xx answer. -/
structure HttpResponse where
  status : Nat
  data : String
  headers : List (String × String)
  configUrl : String
  deriving DecidableEq, Repr

/-- What the HTTP client rejects with: a message and, for a non-2xx answer, the
status (`error.response?.status`). -/
structure HttpError where
  message : String
  status : Option Nat
  deriving DecidableEq, Repr

/-- One HTTP attempt as the environment decides it: its outcome, the time the
client takes to settle, and the overshoot of the backoff timer armed after it. -/
structure Attempt where
  outcome : Except HttpError HttpResponse
  duration : Nat
  lag : Nat

/-- The record returned by `request`, `fetchAndParse` and `fetchWithPuppeteer`;
a field the source leaves out of the object literal is `none`, and `parsed` says
that the cheerio handle `$` is present. -/
structure FetchResult where
  success : Bool
  data : Option String
  status : Option Nat
  headers : Option (List (String × String))
  url : String
  error : Option String
  parsed : Bool
  deriving DecidableEq, Repr

/-- The fields of `RequestService` the fetch paths read or write. -/
structure RequestService where
  rateLimiter : RateLimiter
  retries : Int
  timeout : Int
  browserOpen : Bool
  deriving DecidableEq, Repr

/-- The running state of the retry loop of `request`. -/
structure LoopState where
  clock : Int
  starts : List Int
  backoffs : List Int
  lastError : Option HttpError
  deriving DecidableEq, Repr

/-- The object returned on a successful attempt (lines 149-155). -/
def successResult (r : HttpResponse) : FetchResult :=
  { success := true, data := some r.data, status := some r.status,
    headers := some r.headers, url := r.configUrl, error := none, parsed := false }

/-- The object returned when every attempt failed (lines 179-184). -/
def failureResult (e : HttpError) (url : String) : FetchResult :=
  { success := false, data := none, status := e.status, headers := none,
    url := url, error := some e.message, parsed := false }

/-- The loop `for (let attempt = 1; attempt <= this.retries; attempt++)` of
`request` (lines 130-170), from the iteration `attempt` on. The first argument
bounds the number of iterations left; `request` passes `retries`, which the loop
condition never lets it exceed. Returns the value of the `return` inside the loop,
or `none` when the loop ran out. -/
def attemptLoop (retries : Int) (net : Nat → Attempt) :
    Nat → Nat → LoopState → Option FetchResult × LoopState
  | 0, _, st => (none, st)
  | fuel + 1, attempt, st =>
    if (attempt : Int) ≤ retries then
      let a := net attempt
      let st1 : LoopState :=
        { st with starts := st.starts ++ [st.clock], clock := st.clock + a.duration }
      match a.outcome with
      | .ok r => (some (successResult r), st1)
      | .error e =>
        let st2 : LoopState := { st1 with lastError := some e }
        let st3 : LoopState :=
          if (attempt : Int) < retries then
            { st2 with clock := st2.clock + 1000 * attempt + a.lag,
                       backoffs := st2.backoffs ++ [1000 * (attempt : Int)] }
          else st2
        attemptLoop retries net fuel (attempt + 1) st3
    else (none, st)

/-- The environment of one fetch call: the clock when pacing starts, the random
draw, the overshoot of the pacing timer, and the HTTP attempts. -/
structure CallEnv where
  now : Int
  sample : UnitSample
  lag : Nat
  net : Nat → Attempt

/-- Everything observable of one `request` call. -/
structure RequestRun where
  outcome : Except JsError FetchResult
  service : RequestService
  released : Option Int
  starts : List Int
  backoffs : List Int
  finish : Int

/-- `request(url, options)` (lines 115-186) with a free dispatch slot.
`hostname` is `new URL(url).hostname`, which throws on a malformed url (`none`). -/
def RequestService.request (svc : RequestService) (hostname : String → Option String)
    (url : String) (env : CallEnv) : RequestRun :=
  match hostname url with
  | none =>
    { outcome := .error { message := "Invalid URL" }, service := svc,
      released := none, starts := [], backoffs := [], finish := env.now }
  | some domain =>
    let paced := svc.rateLimiter.waitForRate domain env.now env.sample env.lag
    let svc1 : RequestService := { svc with rateLimiter := paced.1 }
    let st0 : LoopState :=
      { clock := paced.2, starts := [], backoffs := [], lastError := none }
    let looped := attemptLoop svc.retries env.net svc.retries.toNat 1 st0
    match looped.1 with
    | some result =>
      { outcome := .ok result, service := svc1, released := some paced.2,
        starts := looped.2.starts, backoffs := looped.2.backoffs,
        finish := looped.2.clock }
    | none =>
      match looped.2.lastError with
      | some e =>
        { outcome := .ok (failureResult e url), service := svc1,
          released := some paced.2, starts := looped.2.starts,
          backoffs := looped.2.backoffs, finish := looped.2.clock }
      | none =>
        { outcome := .error
            { message := "Cannot read properties of undefined (reading 'message')" },
          service := svc1, released := some paced.2, starts := looped.2.starts,
          backoffs := looped.2.backoffs, finish := looped.2.clock }

/-! ## `src/services/requestService.js`: the rendered fetch -/

/-- What a page session yields when it reaches `page.content()`: the navigation
status, the snapshot and the final url. -/
structure RenderedPage where
  status : Nat
  content : String
  url : String
  deriving DecidableEq, Repr

/-- The environment of one rendered fetch: the pacing inputs, the outcome of
`puppeteer.launch` (consulted only when no browser is open), the time the page
set-up takes before `page.goto`, and the outcome of the page session (everything
from `newPage` to `page.content()`; an error is whatever that block throws).
Closing the page in the `finally` block is taken not to raise. -/
structure RenderEnv where
  now : Int
  sample : UnitSample
  lag : Nat
  launch : Except JsError Unit
  setup : Nat
  page : Except JsError RenderedPage

/-- Everything observable of one `fetchWithPuppeteer` call. -/
structure RenderRun where
  outcome : Except JsError FetchResult
  service : RequestService
  released : Option Int
  navStart : Option Int

/-- The object returned by the `catch` block of `fetchWithPuppeteer`. -/
def renderFailure (e : JsError) (url : String) : FetchResult :=
  { success := false, data := none, status := none, headers := none,
    url := url, error := some e.message, parsed := false }

/-- `fetchWithPuppeteer(url, options)` (lines 223-372) with a free dispatch slot:
pacing first, then the lazily launched browser, then the page session inside
`try`/`catch`. -/
def RequestService.fetchWithPuppeteer (svc : RequestService)
    (hostname : String → Option String) (url : String) (env : RenderEnv) : RenderRun :=
  match hostname url with
  | none =>
    { outcome := .error { message := "Invalid URL" }, service := svc,
      released := none, navStart := none }
  | some domain =>
    let paced := svc.rateLimiter.waitForRate domain env.now env.sample env.lag
    let svc1 : RequestService := { svc with rateLimiter := paced.1 }
    let launched : Except JsError RequestService :=
      if svc1.browserOpen then .ok svc1
      else match env.launch with
        | .ok _ => .ok { svc1 with browserOpen := true }
        | .error e => .error e
    match launched with
    | .error e =>
      { outcome := .ok (renderFailure e url), service := svc1,
        released := some paced.2, navStart := none }
    | .ok svc2 =>
      match env.page with
      | .ok p =>
        { outcome := .ok
            { success := true, data := some p.content, status := some p.status,
              headers := none, url := p.url, error := none, parsed := true },
          service := svc2, released := some paced.2,
          navStart := some (paced.2 + env.setup) }
      | .error e =>
        { outcome := .ok (renderFailure e url), service := svc2,
          released := some paced.2, navStart := some (paced.2 + env.setup) }

/-! ## Fetch calls issued one after another -/

/-- A fetch call through `RequestService`, with its environment. -/
inductive FetchCall
  | direct (url : String) (env : CallEnv)
  | rendered (url : String) (env : RenderEnv)

/-- The calls run one after another, each completing before the next one starts.
Returns the service and, per paced call in order, the domain and the instant
`waitForRate` released the call to issue its request. -/
def dispatchAll (hostname : String → Option String) :
    RequestService → List FetchCall → RequestService × List (String × Int)
  | svc, [] => (svc, [])
  | svc, FetchCall.direct url env :: rest =>
    let r := svc.request hostname url env
    let tail := dispatchAll hostname r.service rest
    match hostname url, r.released with
    | some d, some t => (tail.1, (d, t) :: tail.2)
    | _, _ => tail
  | svc, FetchCall.rendered url env :: rest =>
    let r := svc.fetchWithPuppeteer hostname url env
    let tail := dispatchAll hostname r.service rest
    match hostname url, r.released with
    | some d, some t => (tail.1, (d, t) :: tail.2)
    | _, _ => tail

/-- The release instants logged for `domain`, in order. -/
def releasesOf (domain : String) (log : List (String × Int)) : List Int :=
  (log.filter (fun e => e.1 = domain)).map Prod.snd

/-- Chronological instants any two of which are at least `gap` apart. -/
def Spaced (gap : Int) (ts : List Int) : Prop :=
  ts.Pairwise (fun a b => a + gap ≤ b)

instance (gap : Int) (ts : List Int) : Decidable (Spaced gap ts) := by
  unfold Spaced; infer_instance

/-! ## `src/core/baseCrawler.js` -/

/-- A scraped record; its shape is opaque to the core. -/
abbrev Record := String

/-- The field `stats` of a crawler. -/
structure Stats where
  totalRequests : Nat
  successfulRequests : Nat
  failedRequests : Nat
  totalRecords : Nat
  lastRun : Option Int
  startTime : Option Int
  endTime : Option Int
  deriving DecidableEq, Repr

/-- The fields of a `BaseCrawler` instance. `name` is `none` for a missing
(`undefined` or `null`) name; the two services are object identities. -/
structure BaseCrawler where
  name : Option String
  requestService : Option Nat
  storageService : Option Nat
  isRunning : Bool
  stats : Stats
  deriving DecidableEq, Repr

/-- A call the crawler makes to a collaborator during `run`. -/
inductive Invocation
  | hasHistoricalData (name : Option String)
  | crawlHistoricalData
  | crawlDailyData
  | saveData (name : Option String) (data : List Record) (dataType : String)
  deriving DecidableEq, Repr

/-- One line written through the logger: level, message and the `error` field. -/
structure LogEntry where
  level : String
  message : String
  error : Option String
  deriving DecidableEq, Repr

/-- What an acquisition routine of the subclass does when invoked: the success
flags of the pages it fetched through `fetchPage` or `fetchPageWithBrowser`, then
either a raised error or its return value, `some` array of records or `none` for a
value with no positive `length` (`null`, `undefined`, a plain object). -/
structure Routine where
  fetched : List Bool
  result : Except JsError (Option (List Record))

/-- The environment of one `run`: the answers of the storage service, the two
routines, and the values of `new Date()` at the start and at the end. -/
structure RunEnv where
  hasHistoricalData : Option String → Except JsError Bool
  saveData : Option String → List Record → String → Except JsError Bool
  historical : Routine
  daily : Routine
  startTime : Int
  endTime : Int
  lastRun : Int

/-- The crawler together with the calls made and the lines logged so far. -/
structure World where
  crawler : BaseCrawler
  calls : List Invocation
  log : List LogEntry
  deriving DecidableEq, Repr

/-- A computation of the crawler: from a world to a returned value or a raised
error, and the world it leaves. -/
def Eff (α : Type) : Type := World → Except JsError α × World

/-- Return a value. -/
def Eff.pure {α : Type} (a : α) : Eff α := fun w => (.ok a, w)

/-- Sequencing: a raised error skips the continuation. -/
def Eff.bind {α β : Type} (m : Eff α) (f : α → Eff β) : Eff β := fun w =>
  match m w with
  | (.ok a, w1) => f a w1
  | (.error e, w1) => (.error e, w1)

instance : Monad Eff where
  pure := Eff.pure
  bind := Eff.bind

/-- The statement `throw error`. -/
def Eff.throw {α : Type} (e : JsError) : Eff α := fun w => (.error e, w)

/-- The statement `try body catch (error) handler`. -/
def Eff.tryCatch {α : Type} (body : Eff α) (handler : JsError → Eff α) : Eff α :=
  fun w =>
    match body w with
    | (.ok a, w1) => (.ok a, w1)
    | (.error e, w1) => handler e w1

/-- The statement `try body finally cleanup`, for a `cleanup` that neither returns
nor is interrupted by a value of its own unless it raises. -/
def Eff.tryFinally {α : Type} (body : Eff α) (cleanup : Eff Unit) : Eff α :=
  fun w =>
    match body w with
    | (r, w1) =>
      match cleanup w1 with
      | (.ok _, w2) => (r, w2)
      | (.error e, w2) => (.error e, w2)

/-- A call to `this.logger`. -/
def logLine (level message : String) (error : Option String) : Eff Unit :=
  fun w => (.ok (), { w with log := w.log ++ [{ level := level, message := message,
                                                error := error }] })

/-- Note a call to a collaborator. -/
def noteCall (i : Invocation) : Eff Unit :=
  fun w => (.ok (), { w with calls := w.calls ++ [i] })

/-- Update the crawler object. -/
def modifyCrawler (f : BaseCrawler → BaseCrawler) : Eff Unit :=
  fun w => (.ok (), { w with crawler := f w.crawler })

/-- Read the crawler object. -/
def getCrawler : Eff BaseCrawler := fun w => (.ok w.crawler, w)

/-- `resetStats()` (lines 313-318). -/
def BaseCrawler.resetStats (c : BaseCrawler) : BaseCrawler :=
  { c with stats := { c.stats with totalRequests := 0, successfulRequests := 0,
                                   failedRequests := 0, totalRecords := 0 } }

/-- The admission of `run` (lines 94-96): take the run slot, stamp the start time,
reset the counters. -/
def BaseCrawler.enter (c : BaseCrawler) (startTime : Int) : BaseCrawler :=
  BaseCrawler.resetStats
    { c with isRunning := true, stats := { c.stats with startTime := some startTime } }

/-- The `finally` block of `run` (line 128). -/
def BaseCrawler.release (c : BaseCrawler) : BaseCrawler :=
  { c with isRunning := false }

/-- `stop()` (lines 348-353). -/
def BaseCrawler.stop (c : BaseCrawler) : BaseCrawler :=
  if c.isRunning then { c with isRunning := false } else c

/-- `cleanup()` (lines 358-363) of the base class: `stop()`, then the empty hook
`onCleanup`. -/
def BaseCrawler.cleanup (c : BaseCrawler) : BaseCrawler :=
  c.stop

/-- The counters after `this.stats.totalRecords += n`. -/
def BaseCrawler.addRecords (c : BaseCrawler) (n : Nat) : BaseCrawler :=
  { c with stats := { c.stats with totalRecords := c.stats.totalRecords + n } }

/-- The counters after one `fetchPage` or `fetchPageWithBrowser` whose outcome has
the given success flag (a raising request service counts as `false`). -/
def BaseCrawler.countFetch (c : BaseCrawler) (success : Bool) : BaseCrawler :=
  let c1 : BaseCrawler :=
    { c with stats := { c.stats with totalRequests := c.stats.totalRequests + 1 } }
  if success then
    { c1 with stats := { c1.stats with
        successfulRequests := c1.stats.successfulRequests + 1 } }
  else
    { c1 with stats := { c1.stats with failedRequests := c1.stats.failedRequests + 1 } }

/-- `fetchPage(url, options)` (lines 200-226), and `fetchPageWithBrowser`
(lines 234-260), which differs only in the service method called and in the log
texts: `served` is what that service method does, return a result or raise. -/
def BaseCrawler.fetchPage (c : BaseCrawler) (url : String)
    (served : Except JsError FetchResult) : FetchResult × BaseCrawler :=
  match served with
  | .ok result => (result, c.countFetch result.success)
  | .error e =>
    ({ success := false, data := none, status := none, headers := none, url := url,
       error := some e.message, parsed := false }, c.countFetch false)

/-- `fetchPageWithBrowser(url, options)` (lines 234-260). -/
def BaseCrawler.fetchPageWithBrowser (c : BaseCrawler) (url : String)
    (served : Except JsError FetchResult) : FetchResult × BaseCrawler :=
  match served with
  | .ok result => (result, c.countFetch result.success)
  | .error e =>
    ({ success := false, data := none, status := none, headers := none, url := url,
       error := some e.message, parsed := false }, c.countFetch false)

/-- Invoke an acquisition routine of the subclass. -/
def callRoutine (i : Invocation) (r : Routine) : Eff (Option (List Record)) := do
  noteCall i
  modifyCrawler (fun c => r.fetched.foldl BaseCrawler.countFetch c)
  match r.result with
  | .ok v => Eff.pure v
  | .error e => Eff.throw e

/-- `this.storageService.saveData(this.name, data, dataType)`. -/
def callSaveData (env : RunEnv) (data : List Record) (dataType : String) : Eff Bool := do
  let c ← getCrawler
  noteCall (Invocation.saveData c.name data dataType)
  match env.saveData c.name data dataType with
  | .ok b => Eff.pure b
  | .error e => Eff.throw e

/-- `this.storageService.hasHistoricalData(this.name)`. -/
def callHasHistoricalData (env : RunEnv) : Eff Bool := do
  let c ← getCrawler
  noteCall (Invocation.hasHistoricalData c.name)
  match env.hasHistoricalData c.name with
  | .ok b => Eff.pure b
  | .error e => Eff.throw e

/-- The body shared by `runHistoricalCrawl` and `runDailyCrawl` once the routine
has returned: persist a non-empty array and count its records, or warn. -/
def persistPhase (env : RunEnv) (value : Option (List Record)) (dataType : String)
    (savedMsg failedMsg emptyMsg : String) : Eff Unit :=
  match value with
  | some data =>
    if data.length > 0 then do
      let saved ← callSaveData env data dataType
      if saved then do
        modifyCrawler (fun c => c.addRecords data.length)
        logLine "info" savedMsg none
      else
        Eff.throw { message := failedMsg }
    else logLine "warn" emptyMsg none
  | none => logLine "warn" emptyMsg none

/-- `runHistoricalCrawl()` (lines 135-161). -/
def runHistoricalCrawl (env : RunEnv) : Eff Unit :=
  Eff.tryCatch
    (do
      let historicalData ← callRoutine Invocation.crawlHistoricalData env.historical
      persistPhase env historicalData "historical"
        "历史数据保存成功" "历史数据保存失败" "未获取到历史数据")
    (fun error => do
      logLine "error" "历史数据爬取失败" (some error.message)
      Eff.throw error)

/-- `runDailyCrawl()` (lines 166-192). -/
def runDailyCrawl (env : RunEnv) : Eff Unit :=
  Eff.tryCatch
    (do
      let dailyData ← callRoutine Invocation.crawlDailyData env.daily
      persistPhase env dailyData "daily"
        "每日数据保存成功" "每日数据保存失败" "未获取到每日数据")
    (fun error => do
      logLine "error" "每日数据爬取失败" (some error.message)
      Eff.throw error)

/-- The `try` block of `run` (lines 99-123). -/
def runBody (forceHistorical : Bool) (env : RunEnv) : Eff Bool := do
  logLine "info" "开始运行爬虫" none
  let hasHistoricalData ← callHasHistoricalData env
  if !hasHistoricalData || forceHistorical then do
    logLine "info" "开始爬取历史数据" none
    runHistoricalCrawl env
  else
    logLine "info" "历史数据已存在，跳过历史数据爬取" none
  logLine "info" "开始爬取每日数据" none
  runDailyCrawl env
  modifyCrawler (fun c =>
    { c with stats := { c.stats with endTime := some env.endTime,
                                     lastRun := some env.lastRun } })
  logLine "info" "爬虫运行完成" none
  Eff.pure true

/-- `run(forceHistorical)` (lines 88-130). -/
def run (forceHistorical : Bool) (env : RunEnv) : Eff Bool := fun w =>
  if w.crawler.isRunning then
    (do
      logLine "warn" "爬虫已在运行中" none
      Eff.pure false) w
  else
    (do
      modifyCrawler (fun c => c.enter env.startTime)
      Eff.tryFinally
        (Eff.tryCatch (runBody forceHistorical env)
          (fun error => do
            logLine "error" "爬虫运行失败" (some error.message)
            Eff.pure false))
        (modifyCrawler BaseCrawler.release)) w

/-! ## Interleavings of the public operations of one crawler

`run` suspends at each `await`; between its admission and its `finally` block other
operations on the same crawler may execute. The pieces that execute without
suspension are the steps below. -/

/-- An atomic piece of a public operation: the call of `run` (guard and admission,
lines 88-96), the return of a run in flight (its `finally` block, line 128),
`stop()` and `cleanup()`. -/
inductive LifecycleOp
  | runCall (startTime : Int)
  | runReturn
  | stop
  | cleanup
  deriving DecidableEq, Repr

/-- A crawler and the number of its runs that were admitted and have not returned
yet (the runs in their `Initializing`-or-later phase). -/
structure Lifecycle where
  crawler : BaseCrawler
  inFlight : Nat
  deriving DecidableEq, Repr

/-- One atomic piece executed on the crawler. A `runReturn` needs a run in flight. -/
def Lifecycle.step (s : Lifecycle) : LifecycleOp → Lifecycle
  | LifecycleOp.runCall t =>
    if s.crawler.isRunning then s
    else { crawler := s.crawler.enter t, inFlight := s.inFlight + 1 }
  | LifecycleOp.runReturn =>
    if s.inFlight = 0 then s
    else { crawler := s.crawler.release, inFlight := s.inFlight - 1 }
  | LifecycleOp.stop => { s with crawler := s.crawler.stop }
  | LifecycleOp.cleanup => { s with crawler := s.crawler.cleanup }

/-- A sequence of atomic pieces, in the order the event loop executes them. -/
def Lifecycle.exec (s : Lifecycle) (ops : List LifecycleOp) : Lifecycle :=
  ops.foldl Lifecycle.step s

/-- The interleavings in which no `stop()` or `cleanup()` occurs. -/
def LifecycleOp.isRunPiece : LifecycleOp → Bool
  | LifecycleOp.runCall _ => true
  | LifecycleOp.runReturn => true
  | LifecycleOp.stop => false
  | LifecycleOp.cleanup => false

/-! ## `src/core/crawlerManager.js` -/

/-- The fields of `CrawlerManager` that registration reads or writes; `crawlers` is
the `Map` from name to crawler, and `log` collects the lines the manager logs. -/
structure CrawlerManager where
  crawlers : List (String × BaseCrawler)
  requestService : Nat
  storageService : Nat
  isInitialized : Bool
  isRunning : Bool
  log : List LogEntry
  deriving DecidableEq, Repr

/-- The `catch` block of `registerCrawler` (lines 69-75). -/
def CrawlerManager.registerFailed (m : CrawlerManager) (error : JsError) :
    Bool × CrawlerManager :=
  (false, { m with log := m.log ++ [{ level := "error", message := "爬虫注册失败",
                                      error := some error.message }] })

/-- `registerCrawler(crawler)` (lines 51-76); `none` is a `null` or `undefined`
argument, and a name is falsy when it is missing or the empty string. -/
def CrawlerManager.registerCrawler (m : CrawlerManager) (crawler : Option BaseCrawler) :
    Bool × CrawlerManager :=
  match crawler with
  | none => m.registerFailed { message := "无效的爬虫实例" }
  | some c =>
    match c.name with
    | none => m.registerFailed { message := "无效的爬虫实例" }
    | some name =>
      if name = "" then m.registerFailed { message := "无效的爬虫实例" }
      else
        let warned : List LogEntry :=
          if mapHas m.crawlers name then
            m.log ++ [{ level := "warn", message := "爬虫已存在，将覆盖", error := none }]
          else m.log
        let injected : BaseCrawler :=
          { c with requestService := some m.requestService,
                   storageService := some m.storageService }
        (true, { m with crawlers := mapSet m.crawlers name injected,
                        log := warned ++ [{ level := "info", message := "爬虫注册成功",
                                            error := none }] })

/-- `getCrawler(crawlerName)` (lines 119-121). -/
def CrawlerManager.getCrawler (m : CrawlerManager) (crawlerName : String) :
    Option BaseCrawler :=
  mapGet m.crawlers crawlerName

/-- `getCrawlerNames()` (lines 127-129). -/
def CrawlerManager.getCrawlerNames (m : CrawlerManager) : List String :=
  m.crawlers.map Prod.fst

/-! ## Concrete inputs -/

/-- The url parser on the urls used below: one malformed string, every other url
on the host `farside.co.uk`. -/
def farsideHostname : String → Option String :=
  fun url => if url = "not a url" then none else some "farside.co.uk"

/-- A page of the crawled site. -/
def farsideUrl : String := "https://farside.co.uk/bitcoin-etf-flow-all-data/"

/-- A fresh service under the default configuration (`src/config/index.js`):
`minDelay = 1000`, `maxDelay = 3000`, `retries = 3`, `timeout = 30000`. -/
def defaultService : RequestService :=
  { rateLimiter := { requestTimes := [], minDelay := 1000, maxDelay := 3000 },
    retries := 3, timeout := 30000, browserOpen := false }

/-- A transport on which every attempt times out after 100 ms. -/
def failingNet : Nat → Attempt := fun _ =>
  { outcome := .error { message := "timeout of 30000ms exceeded", status := none },
    duration := 100, lag := 0 }

/-- A transport whose first attempt answers 503 and whose second attempt answers
200. -/
def secondSucceeds : Nat → Attempt := fun k =>
  if k = 2 then
    { outcome := .ok { status := 200, data := "<html></html>", headers := [],
                       configUrl := farsideUrl },
      duration := 100, lag := 0 }
  else
    { outcome := .error { message := "Request failed with status code 503",
                          status := some 503 },
      duration := 100, lag := 0 }

/-- The draw `Math.random() = 0`. -/
def zeroSample : UnitSample := { num := 0, den := 1, lt := by decide }

/-- A first call entered at time 10000 on the failing transport. -/
def firstCall : CallEnv :=
  { now := 10000, sample := zeroSample, lag := 0, net := failingNet }

/-- A second call entered at time 13300, the instant the first one returns. -/
def secondCall : CallEnv :=
  { now := 13300, sample := zeroSample, lag := 0, net := failingNet }

/-- A call entered at time 10000 on the transport whose second attempt succeeds. -/
def recoveringCall : CallEnv :=
  { now := 10000, sample := zeroSample, lag := 0, net := secondSucceeds }

/-- A limiter that recorded a request to `farside.co.uk` at time 9500. -/
def pacedLimiter : RateLimiter :=
  { requestTimes := [("farside.co.uk", 9500)], minDelay := 1000, maxDelay := 3000 }

/-- A rendered fetch entered at time 13300: the browser launches, the page set-up
takes 400 ms and the page session succeeds; the pacing timer fires 500 ms late. -/
def renderCall : RenderEnv :=
  { now := 13300, sample := zeroSample, lag := 500, launch := .ok (), setup := 400,
    page := .ok { status := 200, content := "<html></html>", url := farsideUrl } }

/-- A direct call entered at time 14000. -/
def lateCall : CallEnv :=
  { now := 14000, sample := zeroSample, lag := 0, net := secondSucceeds }

/-! ## Closed forms of the crawl phases -/

/-- The world in which a crawler starts an operation: nothing called, nothing
logged yet. -/
def World.fresh (c : BaseCrawler) : World := { crawler := c, calls := [], log := [] }

/-- The world after an acquisition routine ran. -/
def afterRoutine (i : Invocation) (r : Routine) (w : World) : World :=
  { w with calls := w.calls ++ [i],
           crawler := r.fetched.foldl BaseCrawler.countFetch w.crawler }

/-- One phase in closed form: the outcome and the world after the routine `r` was
invoked as `i` and its value persisted under `dataType`. -/
def phaseClosed (env : RunEnv) (i : Invocation) (r : Routine) (dataType : String)
    (savedMsg failedMsg emptyMsg caughtMsg : String) (w : World) :
    Except JsError Unit × World :=
  let w1 := afterRoutine i r w
  let caught (e : JsError) (w2 : World) : Except JsError Unit × World :=
    (.error e, { w2 with log := w2.log ++ [{ level := "error", message := caughtMsg,
                                             error := some e.message }] })
  let empty : Except JsError Unit × World :=
    (.ok (), { w1 with log := w1.log ++ [{ level := "warn", message := emptyMsg,
                                           error := none }] })
  match r.result with
  | .error e => caught e w1
  | .ok none => empty
  | .ok (some data) =>
    if data.length > 0 then
      let w2 : World :=
        { w1 with calls := w1.calls ++ [Invocation.saveData w1.crawler.name data dataType] }
      match env.saveData w1.crawler.name data dataType with
      | .error e => caught e w2
      | .ok false => caught { message := failedMsg } w2
      | .ok true =>
        (.ok (), { w2 with crawler := w2.crawler.addRecords data.length,
                           log := w2.log ++ [{ level := "info", message := savedMsg,
                                               error := none }] })
    else empty

/-- The historical phase in closed form. -/
def historicalClosed (env : RunEnv) (w : World) : Except JsError Unit × World :=
  phaseClosed env Invocation.crawlHistoricalData env.historical "historical"
    "历史数据保存成功" "历史数据保存失败" "未获取到历史数据" "历史数据爬取失败" w

/-- The incremental phase in closed form. -/
def dailyClosed (env : RunEnv) (w : World) : Except JsError Unit × World :=
  phaseClosed env Invocation.crawlDailyData env.daily "daily"
    "每日数据保存成功" "每日数据保存失败" "未获取到每日数据" "每日数据爬取失败" w

/-- Append a line to the log of a world. -/
def World.logged (w : World) (level message : String) : World :=
  { w with log := w.log ++ [{ level := level, message := message, error := none }] }

/-- The tail of the `try` block of `run` from the incremental phase on, in closed
form. -/
def finishClosed (env : RunEnv) (w : World) : Except JsError Bool × World :=
  match dailyClosed env (w.logged "info" "开始爬取每日数据") with
  | (.error e, w3) => (.error e, w3)
  | (.ok _, w3) =>
    (.ok true,
      World.logged
        { w3 with crawler :=
            { w3.crawler with stats :=
                { w3.crawler.stats with endTime := some env.endTime,
                                        lastRun := some env.lastRun } } }
        "info" "爬虫运行完成")

/-- The calls that are acquisition routines. -/
def Invocation.isRoutine : Invocation → Bool
  | Invocation.crawlHistoricalData => true
  | Invocation.crawlDailyData => true
  | _ => false

/-- The acquisition routines invoked so far, in order. -/
def routineCalls (w : World) : List Invocation := w.calls.filter Invocation.isRoutine

/-- The number of records a routine hands over: the length of the array it
returned, `0` when it raised or returned no array. -/
def Routine.records (r : Routine) : Nat :=
  match r.result with
  | .ok (some data) => data.length
  | _ => 0

/-! ## Concrete crawlers, environments and managers -/

/-- The counters of a freshly constructed crawler. -/
def emptyStats : Stats :=
  { totalRequests := 0, successfulRequests := 0, failedRequests := 0, totalRecords := 0,
    lastRun := none, startTime := none, endTime := none }

/-- A registered crawler at rest, with counters left by an earlier run. -/
def idleCrawler : BaseCrawler :=
  { name := some "FarsideCrawler", requestService := some 1, storageService := some 2,
    isRunning := false,
    stats := { totalRequests := 7, successfulRequests := 5, failedRequests := 2,
               totalRecords := 40, lastRun := some 5000, startTime := some 1000,
               endTime := some 5000 } }

/-- The same crawler while a run is active. -/
def busyCrawler : BaseCrawler := { idleCrawler with isRunning := true }

/-- Storage has no data yet and saves everything; both routines return records. -/
def healthyEnv : RunEnv :=
  { hasHistoricalData := fun _ => .ok false,
    saveData := fun _ _ _ => .ok true,
    historical := { fetched := [true, false], result := .ok (some ["r1", "r2", "r3"]) },
    daily := { fetched := [true], result := .ok (some ["r4"]) },
    startTime := 20000, endTime := 29000, lastRun := 29000 }

/-- As `healthyEnv`, but `saveData` answers `false` for historical data. -/
def failingSaveEnv : RunEnv :=
  { healthyEnv with
    saveData := fun _ _ dataType => .ok (decide (dataType ≠ "historical")) }

/-- As `healthyEnv`, but storage already has data and the incremental routine
raises. -/
def dailyRaisesEnv : RunEnv :=
  { healthyEnv with
    hasHistoricalData := fun _ => .ok true,
    daily := { fetched := [], result := .error { message := "table not found" } } }

/-- The four counters of a crawler: requests issued, succeeded, failed, and records
produced. -/
def BaseCrawler.counters (c : BaseCrawler) : Nat × Nat × Nat × Nat :=
  (c.stats.totalRequests, c.stats.successfulRequests, c.stats.failedRequests,
    c.stats.totalRecords)

/-- A crawler at rest with no run in flight. -/
def idleLifecycle : Lifecycle := { crawler := idleCrawler, inFlight := 0 }

/-- A second crawler object carrying the name of `idleCrawler`. -/
def rivalCrawler : BaseCrawler :=
  { name := some "FarsideCrawler", requestService := none, storageService := none,
    isRunning := false, stats := emptyStats }

/-- A crawler object with an empty name. -/
def namelessCrawler : BaseCrawler := { rivalCrawler with name := some "" }

/-- A manager with `idleCrawler` registered. -/
def farsideManager : CrawlerManager :=
  { crawlers := [("FarsideCrawler", idleCrawler)], requestService := 1,
    storageService := 2, isInitialized := true, isRunning := false, log := [] }

/-- A page answer with `success = true`. -/
def pageFetched : FetchResult :=
  { success := true, data := some "<html></html>", status := some 200, headers := none,
    url := farsideUrl, error := none, parsed := true }

/-! ## `src/core/crawlerManager.js`: running the registered crawlers -/

/-- What a registered crawler does when the manager runs it: what
`crawler.initialize()` and `crawler.run(forceHistorical)` do, each returning a
boolean or raising. -/
structure Conduct where
  init : Except JsError Bool
  run : Bool → Except JsError Bool

/-- `runCrawler(crawlerName, forceHistorical)` (lines 137-173): an unknown name gives
`false`; a crawler whose `initialize` returns `false` makes the body throw; whatever
is raised inside the `try` block is caught and turned into `false`. The log lines
are left out. -/
def CrawlerManager.runCrawler (m : CrawlerManager) (conduct : String → Conduct)
    (crawlerName : String) (forceHistorical : Bool) : Except JsError Bool :=
  let body : Except JsError Bool :=
    match mapGet m.crawlers crawlerName with
    | none => .ok false
    | some _ =>
      match (conduct crawlerName).init with
      | .error e => .error e
      | .ok false => .error { message := "爬虫初始化失败" }
      | .ok true => (conduct crawlerName).run forceHistorical
  match body with
  | .ok success => .ok success
  | .error _ => .ok false

/-- An entry of the `results` array; a property the object literal does not have is
`none`. -/
structure RunEntry where
  name : Option String
  success : Bool
  error : Option String
  deriving DecidableEq, Repr

/-- The entry a settled `runCrawler` call is turned into, in parallel mode by
`.then(success => (name, success)).catch(error => (name, false, error.message))`
(lines 207-209) and in serial mode by the `try`/`catch` around the call
(lines 226-236). -/
def namedEntry (name : String) (outcome : Except JsError Bool) : RunEntry :=
  match outcome with
  | .ok success => { name := some name, success := success, error := none }
  | .error e => { name := some name, success := false, error := some e.message }

/-- The entry pushed for one result of `Promise.allSettled` (lines 214-223): the
value of a fulfilled promise, or an entry without a name for a rejected one. -/
def settledEntry (settled : Except JsError RunEntry) : RunEntry :=
  match settled with
  | .ok value => value
  | .error reason => { name := none, success := false, error := some reason.message }

/-- The field `stats` of the object `runAllCrawlers` returns. -/
structure BatchStats where
  total : Nat
  success : Nat
  failed : Nat
  duration : Int
  deriving DecidableEq, Repr

/-- The object `runAllCrawlers` returns; a property the object literal does not have
is `none`. -/
structure BatchResult where
  success : Bool
  error : Option String
  results : Option (List RunEntry)
  stats : Option BatchStats
  deriving DecidableEq, Repr

/-- What happens to the crawlers during a batch: a `runCrawler` call is started, a
call has settled, and, in parallel mode, `Promise.allSettled` has resumed. -/
inductive BatchEvent
  | started (name : String)
  | finished (name : String)
  | allSettled
  deriving DecidableEq, Repr

/-- Everything observable of one `runAllCrawlers` call: the object returned, the
events in order, and the manager's `isRunning` flag when the call returns. -/
structure BatchRun where
  result : BatchResult
  events : List BatchEvent
  managerRunning : Bool
  deriving DecidableEq, Repr

/-- `runAllCrawlers(forceHistorical, parallel)` (lines 181-270); `startTime` and
`endTime` are the two values of `Date.now()`. In parallel mode the order in which
the calls settle is not recorded. -/
def CrawlerManager.runAllCrawlers (m : CrawlerManager) (conduct : String → Conduct)
    (forceHistorical parallel : Bool) (startTime endTime : Int) : BatchRun :=
  if !m.isInitialized then
    { result := { success := false, error := some "爬虫管理器未初始化", results := none,
                  stats := none },
      events := [], managerRunning := m.isRunning }
  else
    let crawlerNames := m.crawlers.map Prod.fst
    if crawlerNames.length = 0 then
      { result := { success := true, error := none, results := some [], stats := none },
        events := [], managerRunning := m.isRunning }
    else
      let results : List RunEntry :=
        if parallel then
          crawlerNames.map (fun name =>
            settledEntry (.ok (namedEntry name (m.runCrawler conduct name forceHistorical))))
        else
          crawlerNames.map (fun name =>
            namedEntry name (m.runCrawler conduct name forceHistorical))
      let events : List BatchEvent :=
        if parallel then
          crawlerNames.map BatchEvent.started ++ [BatchEvent.allSettled]
        else
          crawlerNames.flatMap (fun name =>
            [BatchEvent.started name, BatchEvent.finished name])
      let successCount := (results.filter (fun r => r.success)).length
      { result :=
          { success := true, error := none, results := some results,
            stats := some { total := crawlerNames.length, success := successCount,
                            failed := crawlerNames.length - successCount,
                            duration := endTime - startTime } },
        events := events, managerRunning := false }

/-- Whether a crawler completes a batch run: `initialize` and `run` both return
`true`. -/
def Conduct.succeeds (c : Conduct) (forceHistorical : Bool) : Bool :=
  match c.init, c.run forceHistorical with
  | .ok true, .ok true => true
  | _, _ => false

/-- A crawler that initializes and runs to success. -/
def soundConduct : Conduct := { init := .ok true, run := fun _ => .ok true }

/-- A crawler whose `run` raises. -/
def raisingConduct : Conduct :=
  { init := .ok true, run := fun _ => .error { message := "boom" } }

/-- The crawlers `A` and `B` of the batch below: `A` raises, `B` succeeds. -/
def pairConduct : String → Conduct :=
  fun name => if name = "A" then raisingConduct else soundConduct

/-- A crawler object named `name`. -/
def crawlerNamed (name : String) : BaseCrawler :=
  { name := some name, requestService := some 1, storageService := some 2,
    isRunning := false, stats := emptyStats }

/-- An initialized manager with the crawlers `A` and `B`, registered in this
order. -/
def pairManager : CrawlerManager :=
  { crawlers := [("A", crawlerNamed "A"), ("B", crawlerNamed "B")], requestService := 1,
    storageService := 2, isInitialized := true, isRunning := false, log := [] }

/-- The same manager before `initialize()` was called. -/
def rawManager : CrawlerManager := { pairManager with isInitialized := false }

/-- An initialized manager without crawlers. -/
def emptyManager : CrawlerManager := { pairManager with crawlers := [] }

/-! ## Tearing the manager down: `destroy()` and the services it owns -/

/-- The fields of `ScheduleService` that stopping and destroying touch: `tasks` maps
a task name to whether its cron task is started. -/
structure ScheduleService where
  tasks : List (String × Bool)
  isRunning : Bool
  deriving DecidableEq, Repr

/-- The fields of `UserAgentManager` (`src/utils/userAgentManager.js`). -/
structure UserAgentManager where
  rotateEnabled : Bool
  commonUserAgents : List String
  currentIndex : Nat
  deriving DecidableEq, Repr

/-- A manager together with the services its constructor creates; the user-agent
manager is the one held by the request service. -/
structure Deployment where
  manager : CrawlerManager
  requestService : RequestService
  userAgentManager : UserAgentManager
  scheduleService : ScheduleService
  deriving DecidableEq, Repr

/-- What the collaborators do during a teardown: `task.stop()` of the cron task of
a name, the `onCleanup()` hook of the crawler of a name (empty in the base class, a
subclass may override it), and `browser.close()`; each returns or raises. -/
structure TeardownEnv where
  stopTask : String → Except JsError Unit
  onCleanup : String → Except JsError Unit
  closeBrowser : Except JsError Unit

/-- The loop of `stopAll()` (lines 222-232 of `scheduleService.js`), also the loop of
`destroy()` (lines 349-358): `task.stop()` inside `try`/`catch`, so a task whose
`stop` raises stays as it is and the loop goes on. -/
def stopTasks (env : TeardownEnv) : List (String × Bool) → List (String × Bool)
  | [] => []
  | (name, started) :: rest =>
    (match env.stopTask name with
      | .ok _ => (name, false)
      | .error _ => (name, started)) :: stopTasks env rest

/-- `stopAll()` (lines 219-236 of `scheduleService.js`). -/
def ScheduleService.stopAll (s : ScheduleService) (env : TeardownEnv) : ScheduleService :=
  { tasks := stopTasks env s.tasks, isRunning := false }

/-- `destroy()` of the schedule service (lines 342-364): `stopAll()`, the second
stopping loop, `tasks.clear()`, `isRunning = false`. -/
def ScheduleService.destroy (s : ScheduleService) (env : TeardownEnv) : ScheduleService :=
  let stopped := s.stopAll env
  let again : ScheduleService := { stopped with tasks := stopTasks env stopped.tasks }
  { again with tasks := [], isRunning := false }

/-- `stopAllCrawlers()` (lines 397-408 of `crawlerManager.js`): `stop()` on every
crawler that is running, then `isRunning = false` on the manager. -/
def CrawlerManager.stopAllCrawlers (m : CrawlerManager) : CrawlerManager :=
  { m with crawlers := m.crawlers.map (fun p => (p.1, if p.2.isRunning then p.2.stop else p.2)),
           isRunning := false }

/-- The loop `for (const [name, crawler] of this.crawlers) await crawler.cleanup()`
(lines 424-426): `cleanup()` is `stop()` followed by the hook; the first hook that
raises ends the loop. Returns the crawler objects as the loop leaves them. -/
def cleanupAll (env : TeardownEnv) :
    List (String × BaseCrawler) → Except JsError Unit × List (String × BaseCrawler)
  | [] => (.ok (), [])
  | (name, crawler) :: rest =>
    match env.onCleanup name with
    | .error e => (.error e, (name, crawler.stop) :: rest)
    | .ok _ =>
      let tail := cleanupAll env rest
      (tail.1, (name, crawler.stop) :: tail.2)

/-- `reset()` of the user-agent manager (lines 81-83). -/
def UserAgentManager.reset (u : UserAgentManager) : UserAgentManager :=
  { u with currentIndex := 0 }

/-- `closeBrowser()` (lines 457-463 of `requestService.js`): with a browser open,
`browser.close()` is awaited and then `browser = null`; a raising `close` leaves the
browser set. -/
def RequestService.closeBrowser (svc : RequestService) (env : TeardownEnv) :
    Except JsError Unit × RequestService :=
  if svc.browserOpen then
    match env.closeBrowser with
    | .ok _ => (.ok (), { svc with browserOpen := false })
    | .error e => (.error e, svc)
  else (.ok (), svc)

/-- `reset()` of the request service (lines 479-482): `rateLimiter.clearAll()`. The
reset of the user-agent manager it also does is applied in `destroyServices`. -/
def RequestService.reset (svc : RequestService) : RequestService :=
  { svc with rateLimiter := svc.rateLimiter.clearAll }

/-- `destroy()` of the request service (lines 487-490): `closeBrowser()`, then
`reset()` of the limiter and of the user-agent manager. -/
def destroyServices (svc : RequestService) (u : UserAgentManager) (env : TeardownEnv) :
    Except JsError Unit × RequestService × UserAgentManager :=
  match svc.closeBrowser env with
  | (.error e, svc1) => (.error e, svc1, u)
  | (.ok _, svc1) => (.ok (), svc1.reset, u.reset)

/-- Everything observable of one `destroy()` of the manager: whether it returned or
raised, the state it leaves, and the crawler objects that were registered when it
was called, as it leaves them. -/
structure DestroyRun where
  outcome : Except JsError Unit
  state : Deployment
  crawlerObjects : List (String × BaseCrawler)

/-- `destroy()` of the manager (lines 413-434 of `crawlerManager.js`):
`stopAllCrawlers()`, `stopSchedule()`, `scheduleService.destroy()`, `cleanup()` of
every crawler, `crawlers.clear()`, `requestService.destroy()`,
`isInitialized = false`. Nothing is caught: an error raised by a cleanup hook or by
the browser ends the call where it is. The log lines are left out. -/
def Deployment.destroy (d : Deployment) (env : TeardownEnv) : DestroyRun :=
  let m1 := d.manager.stopAllCrawlers
  let s1 := (d.scheduleService.stopAll env).destroy env
  let cleaned := cleanupAll env m1.crawlers
  match cleaned.1 with
  | .error e =>
    { outcome := .error e,
      state := { d with manager := { m1 with crawlers := cleaned.2 }, scheduleService := s1 },
      crawlerObjects := cleaned.2 }
  | .ok _ =>
    let m2 : CrawlerManager := { m1 with crawlers := [] }
    match destroyServices d.requestService d.userAgentManager env with
    | (.error e, svc1, u1) =>
      { outcome := .error e,
        state := { manager := m2, requestService := svc1, userAgentManager := u1,
                   scheduleService := s1 },
        crawlerObjects := cleaned.2 }
    | (.ok _, svc1, u1) =>
      { outcome := .ok (),
        state := { manager := { m2 with isInitialized := false }, requestService := svc1,
                   userAgentManager := u1, scheduleService := s1 },
        crawlerObjects := cleaned.2 }

/-- The user-agent manager after a few rotations. -/
def rotatedAgents : UserAgentManager :=
  { rotateEnabled := true, commonUserAgents := ["agent-0", "agent-1"], currentIndex := 1 }

/-- A running system: the manager with `FarsideCrawler` in the middle of a run, a
request service with one pacing entry and the browser open, one started cron
task. -/
def liveDeployment : Deployment :=
  { manager := { farsideManager with crawlers := [("FarsideCrawler", busyCrawler)],
                                     isRunning := true },
    requestService := { rateLimiter := pacedLimiter, retries := 3, timeout := 30000,
                        browserOpen := true },
    userAgentManager := rotatedAgents,
    scheduleService := { tasks := [("daily_crawl_FarsideCrawler", true)], isRunning := true } }

/-- Collaborators that all return. -/
def calmTeardown : TeardownEnv :=
  { stopTask := fun _ => .ok (), onCleanup := fun _ => .ok (), closeBrowser := .ok () }

/-- Collaborators that all raise. -/
def roughTeardown : TeardownEnv :=
  { stopTask := fun _ => .error { message := "task gone" },
    onCleanup := fun _ => .error { message := "hook failed" },
    closeBrowser := .error { message := "Protocol error: Target closed" } }

/-- Only `browser.close()` raises. -/
def stuckBrowserTeardown : TeardownEnv :=
  { calmTeardown with closeBrowser := .error { message := "Protocol error: Target closed" } }

/-- The state a completed `destroy()` leaves. -/
def Deployment.torndown (d : Deployment) : Deployment :=
  { manager := { d.manager with crawlers := [], isRunning := false, isInitialized := false },
    requestService := { d.requestService with browserOpen := false,
                                              rateLimiter := d.requestService.rateLimiter.clearAll },
    userAgentManager := d.userAgentManager.reset,
    scheduleService := { tasks := [], isRunning := false } }

/-! ## `src/crawlers/farsideCrawler.js`: fetching one site -/

/-- An entry of `FarsideCrawler.sites`. -/
structure Site where
  name : String
  url : String
  tableName : String
  deriving DecidableEq, Repr

/-- A table as `parseETFTables` returns it. -/
structure EtfTable where
  index : Nat
  headers : List String
  rows : List (List String)
  deriving DecidableEq, Repr

/-- What parsing a fetched document yields: the tables and the page title. -/
structure ParsedPage where
  tableData : List EtfTable
  title : String
  deriving DecidableEq, Repr

/-- The two ways of fetching a site. -/
inductive FetchMode
  | rendered
  | direct
  deriving DecidableEq, Repr

/-- The environment of one site crawl: what `requestService.fetchWithPuppeteer` and
`requestService.fetchAndParse` do for the site's url (return a record or raise),
what parsing the document of each does (`parseETFTables` and the title lookup,
which return or raise), and the timestamp. -/
structure SiteEnv where
  rendered : Except JsError FetchResult
  renderedParse : Except JsError ParsedPage
  direct : Except JsError FetchResult
  directParse : Except JsError ParsedPage
  timestamp : String

/-- The object a site crawl returns; a property the object literal does not have is
`none`. -/
structure SiteResult where
  success : Bool
  url : String
  title : Option String
  tableData : Option (List EtfTable)
  timestamp : Option String
  error : Option String
  status : Option Nat
  deriving DecidableEq, Repr

/-- Everything observable of one site crawl: the object returned and the fetches
attempted, in order. -/
structure SiteRun where
  result : SiteResult
  attempts : List FetchMode
  deriving DecidableEq, Repr

/-- The success object of lines 192-198 and 229-235. -/
def siteSuccess (site : Site) (page : ParsedPage) (timestamp : String) : SiteResult :=
  { success := true, url := site.url, title := some page.title,
    tableData := some page.tableData, timestamp := some timestamp, error := none,
    status := none }

/-- `crawlSiteWithHttp(site)` (lines 214-244): the direct fetch; a failure record is
returned as it is, a raised error becomes a failure object. -/
def crawlSiteWithHttp (site : Site) (env : SiteEnv) : SiteRun :=
  let body : Except JsError SiteResult :=
    match env.direct with
    | .error e => .error e
    | .ok response =>
      if !response.success then
        .ok { success := false, url := response.url, title := none, tableData := none,
              timestamp := none, error := response.error, status := response.status }
      else
        match env.directParse with
        | .error e => .error e
        | .ok page => .ok (siteSuccess site page env.timestamp)
  { result :=
      (match body with
        | .ok result => result
        | .error e =>
          { success := false, url := site.url, title := none, tableData := none,
            timestamp := none, error := some e.message, status := none }),
    attempts := [FetchMode.direct] }

/-- `crawlSiteWithPuppeteer(site)` (lines 82-209): the rendered fetch comes first;
when it returns a failure record, or when anything in the `try` block raises, the
direct fetch of `crawlSiteWithHttp` is the fallback. -/
def crawlSiteWithPuppeteer (site : Site) (env : SiteEnv) : SiteRun :=
  let fallback : SiteRun :=
    { result := (crawlSiteWithHttp site env).result,
      attempts := FetchMode.rendered :: (crawlSiteWithHttp site env).attempts }
  match env.rendered with
  | .error _ => fallback
  | .ok response =>
    if !response.success then fallback
    else
      match env.renderedParse with
      | .error _ => fallback
      | .ok page =>
        { result := siteSuccess site page env.timestamp,
          attempts := [FetchMode.rendered] }

/-- Whether the rendered fetch gave a document that parsed. -/
def SiteEnv.renderedYields (env : SiteEnv) : Bool :=
  match env.rendered, env.renderedParse with
  | .ok response, .ok _ => response.success
  | _, _ => false

/-- The Bitcoin entry of `FarsideCrawler.sites`. -/
def bitcoinSite : Site :=
  { name := "Bitcoin ETF Flow", url := "https://farside.co.uk/bitcoin-etf-flow-all-data/",
    tableName := "bitcoin_etf_data" }

/-- A parsed page with one table. -/
def flowPage : ParsedPage :=
  { tableData := [{ index := 0, headers := ["Date", "IBIT", "Total"],
                    rows := [["11 Jan 2024", "111.7", "655.3"]] }],
    title := "Bitcoin ETF Flow" }

/-- Both modes work: either fetch returns the page. -/
def openSiteEnv : SiteEnv :=
  { rendered := .ok pageFetched, renderedParse := .ok flowPage,
    direct := .ok pageFetched, directParse := .ok flowPage,
    timestamp := "2024-01-12T08:00:00.000Z" }

/-! ## `src/crawlers/farsideCrawler.js`: the readiness polls run inside the page -/

/-- The page as a readiness poll sees it: the title, the number of `table`
elements, whether `#challenge-error-text` and `[name="cf-turnstile-response"]` are
present, and the document `page.content()` would return. -/
structure PageState where
  title : String
  tables : Nat
  challengeError : Bool
  turnstile : Bool
  content : String
  deriving DecidableEq, Repr

/-- Whether `needle` occurs in `hay` as a contiguous run of characters. -/
def includesChars : List Char → List Char → Bool
  | [], needle => needle.isEmpty
  | c :: rest, needle => needle.isPrefixOf (c :: rest) || includesChars rest needle

/-- `String.prototype.includes`. -/
def includes (hay needle : String) : Bool :=
  includesChars hay.toList needle.toList

/-- What one poll decides: resolve the promise, or arm the timer for the next
poll. -/
inductive PollStep
  | resolve
  | again
  deriving DecidableEq, Repr

/-- Everything observable of a readiness poll that resolved: the number of polls
performed and the time on the page clock, in ms since the script started, at which
the last one resolved. -/
structure PollRun where
  polls : Nat
  resolvedAt : Nat
  deriving DecidableEq, Repr

/-- The test of lines 97: the title of a challenge page. -/
def isChallengeTitle (title : String) : Bool :=
  includes title "请稍候" || includes title "Just a moment" || includes title "Checking"

/-- One call of `checkReady` (lines 94-116) at `elapsed = Date.now() - startTime`,
with `maxWait = 15000`. -/
def checkReadyStep (elapsed : Nat) (p : PageState) : PollStep :=
  if isChallengeTitle p.title && decide (elapsed < 15000) then PollStep.again
  else if p.tables > 0 then PollStep.resolve
  else if elapsed < 15000 then PollStep.again
  else PollStep.resolve

/-- The chain of `checkReady` calls from poll `index` at time `elapsed` on: each
`again` arms `setTimeout(checkReady, 1000)`, whose overshoot is `lags (index + 1)`.
The first argument bounds the number of polls left. -/
def checkReadyLoop (states : Nat → PageState) (lags : Nat → Nat) :
    Nat → Nat → Nat → Option PollRun
  | 0, _, _ => none
  | fuel + 1, index, elapsed =>
    match checkReadyStep elapsed (states index) with
    | PollStep.resolve => some { polls := index + 1, resolvedAt := elapsed }
    | PollStep.again =>
      checkReadyLoop states lags fuel (index + 1) (elapsed + 1000 + lags (index + 1))

/-- The Bitcoin readiness script (lines 88-121): the first poll is armed with
`setTimeout(checkReady, 2000)`; poll `i` sees the page state `states i`. Fourteen
polls are always enough, as the properties below show. -/
def bitcoinPoll (states : Nat → PageState) (lags : Nat → Nat) : Option PollRun :=
  checkReadyLoop states lags 14 0 (2000 + lags 0)

/-- The time of poll `i` of the Bitcoin script if it takes place: 2000 ms for the
first poll, 1000 ms between polls, plus the overshoot of each timer. -/
def bitcoinPollTime (lags : Nat → Nat) : Nat → Nat
  | 0 => 2000 + lags 0
  | i + 1 => bitcoinPollTime lags i + 1000 + lags (i + 1)

/-- One call of `checkPageStatus` (lines 134-174) after `checkCount++`, with
`maxChecks = 120`. -/
def checkPageStatusStep (checkCount : Nat) (p : PageState) : PollStep :=
  if includes p.title "ETF" && !includes p.title "稍候" then PollStep.resolve
  else if p.tables > 0 then PollStep.resolve
  else if !(p.challengeError || p.turnstile) then PollStep.resolve
  else if checkCount ≥ 120 then PollStep.resolve
  else PollStep.again

/-- The chain of `checkPageStatus` calls, entered with the value `checkCount` has
before the increment; poll `i` (counted from 0) sees `states i`. The first argument
bounds the number of polls left. -/
def checkPageStatusLoop (states : Nat → PageState) (lags : Nat → Nat) :
    Nat → Nat → Nat → Option PollRun
  | 0, _, _ => none
  | fuel + 1, count, elapsed =>
    match checkPageStatusStep (count + 1) (states count) with
    | PollStep.resolve => some { polls := count + 1, resolvedAt := elapsed }
    | PollStep.again =>
      checkPageStatusLoop states lags fuel (count + 1) (elapsed + 1000 + lags (count + 1))

/-- The Ethereum readiness script (lines 127-179): the first poll is armed with
`setTimeout(checkPageStatus, 3000)`. -/
def ethereumPoll (states : Nat → PageState) (lags : Nat → Nat) : Option PollRun :=
  checkPageStatusLoop states lags 120 0 (3000 + lags 0)

/-- The readiness condition of the Bitcoin variant: the title is not a challenge
title and at least one table is present. -/
def bitcoinReady (p : PageState) : Bool :=
  !isChallengeTitle p.title && decide (p.tables > 0)

/-- The readiness condition of the Ethereum variant: the title contains `ETF` and
not the challenge word, or a table is present, or no challenge element is
present. -/
def ethereumReady (p : PageState) : Bool :=
  (includes p.title "ETF" && !includes p.title "稍候") || decide (p.tables > 0)
    || !(p.challengeError || p.turnstile)

/-- The part of `fetchWithPuppeteer` from the navigation to the snapshot
(lines 319-337) when a readiness script is passed as `options.evaluate` and no
selector is waited for: `page.goto` returns the status or raises, `page.evaluate`
awaits the script (`none`: the script never resolves and the call is given up),
and `page.content()` returns the document of the page state at the resolving
poll. -/
def pageSession (goto : Except JsError Nat) (script : Option PollRun)
    (states : Nat → PageState) (finalUrl : String) : Except JsError RenderedPage :=
  match goto with
  | .error e => .error e
  | .ok status =>
    match script with
    | none => .error { message := "Runtime.callFunctionOn timed out" }
    | some run =>
      .ok { status := status, content := (states (run.polls - 1)).content, url := finalUrl }

/-- A page still showing the challenge. -/
def challengePage : PageState :=
  { title := "Just a moment...", tables := 0, challengeError := false, turnstile := true,
    content := "<html>challenge</html>" }

/-- The page once the data table is there. -/
def dataPage : PageState :=
  { title := "Bitcoin ETF Flow", tables := 1, challengeError := false, turnstile := false,
    content := "<html><table></table></html>" }

/-- The challenge clears before the third poll. -/
def clearingStates : Nat → PageState :=
  fun i => if i < 2 then challengePage else dataPage

/-- The challenge never clears. -/
def stuckStates : Nat → PageState := fun _ => challengePage

/-- Timers that fire on time. -/
def punctual : Nat → Nat := fun _ => 0

/-- A rendered fetch with a launched browser whose page session runs the Bitcoin
script on the page that never clears. -/
def stuckRenderCall : RenderEnv :=
  { now := 13300, sample := zeroSample, lag := 0, launch := .ok (), setup := 400,
    page := pageSession (.ok 200) (bitcoinPoll stuckStates punctual) stuckStates farsideUrl }

/-! ## `src/services/requestService.js`: the dispatch slots -/

/-- The function held in `this.concurrentLimit`: the limiter `pLimit(concurrency)`
of the `p-limit` module, or the fallback `(fn) => fn()` that `initializePLimit`
installs in its `catch` block. -/
inductive Limiter
  | pLimit (concurrency : Nat)
  | passThrough
  deriving DecidableEq, Repr

/-- `initializePLimit()` (lines 58-67): `loaded` is what `import('p-limit')` does
and `concurrentLimit` the configured `request.concurrentLimit`. Whatever the `try`
block raises, a module that fails to load or a limit below 1 that the module
refuses, leads to the fallback. -/
def initializePLimit (loaded : Except JsError Unit) (concurrentLimit : Int) : Limiter :=
  match loaded with
  | .error _ => Limiter.passThrough
  | .ok _ =>
    if 1 ≤ concurrentLimit then Limiter.pLimit concurrentLimit.toNat
    else Limiter.passThrough

/-- Modelled from the spec: the `p-limit` module is not part of the sources; its
limiter is the bounded slot pool of the spec, which admits a call when fewer than
`concurrency` bodies are in flight and queues it otherwise. -/
def pLimitAdmits (concurrency active : Nat) : Bool :=
  decide (active < concurrency)

/-- Whether the function held in `this.concurrentLimit` runs the body of a call at
once, with `active` bodies in flight: the limiter of the module decides by its slots;
the fallback `(fn) => fn()` of the sources (line 65) always does. -/
def Limiter.admits (l : Limiter) (active : Nat) : Bool :=
  match l with
  | Limiter.pLimit concurrency => pLimitAdmits concurrency active
  | Limiter.passThrough => true

/-- The dispatcher of a `RequestService`: the limiter in use, the number of fetch
bodies admitted and not yet completed, and the number of calls waiting for a
slot. -/
structure Dispatcher where
  limiter : Limiter
  active : Nat
  queued : Nat
  deriving DecidableEq, Repr

/-- What happens at the dispatcher: a fetch call (`request` or `fetchWithPuppeteer`)
reaches `this.concurrentLimit(...)`, or a fetch body in flight completes. -/
inductive DispatchEvent
  | call
  | complete
  deriving DecidableEq, Repr

/-- One event at the dispatcher. A call is admitted or queued; a completion frees a
slot, which the limiter hands to a queued call if there is one. -/
def Dispatcher.step (s : Dispatcher) : DispatchEvent → Dispatcher
  | DispatchEvent.call =>
    if s.limiter.admits s.active then { s with active := s.active + 1 }
    else { s with queued := s.queued + 1 }
  | DispatchEvent.complete =>
    if s.active = 0 then s
    else if decide (0 < s.queued) && s.limiter.admits (s.active - 1) then
      { s with queued := s.queued - 1 }
    else { s with active := s.active - 1 }

/-- A sequence of events, in order. -/
def Dispatcher.exec (s : Dispatcher) (events : List DispatchEvent) : Dispatcher :=
  events.foldl Dispatcher.step s

/-- A fresh dispatcher with the limiter `initializePLimit` installed. -/
def Dispatcher.fresh (loaded : Except JsError Unit) (concurrentLimit : Int) : Dispatcher :=
  { limiter := initializePLimit loaded concurrentLimit, active := 0, queued := 0 }

/-- The module cannot be imported. -/
def moduleMissing : Except JsError Unit :=
  .error { message := "Cannot find module p-limit" }

/-! ## `src/services/requestService.js`: the page of a rendered fetch -/

/-- What each call on the browser and on the page does during one rendered fetch, in
the order `fetchWithPuppeteer` makes them: return or raise. `prepare` stands for the
calls between `newPage` and `goto` (the five `evaluateOnNewDocument`, `setUserAgent`,
`setViewport`, `setExtraHTTPHeaders`, `setRequestInterception`), `goto` returns the
status and the url of the response, `waitForSelector` and `evaluate` are `none` when
the option is not given, `load` is `cheerio.load` and `close` is the `page.close()`
of the `finally` block. -/
structure PageScript where
  initBrowser : Except JsError Unit
  newPage : Except JsError Unit
  prepare : Except JsError Unit
  goto : Except JsError (Nat × String)
  waitForSelector : Option (Except JsError Unit)
  evaluate : Option (Except JsError Unit)
  content : Except JsError String
  load : Except JsError Unit
  close : Except JsError Unit

/-- What happens to page contexts: `browser.newPage()` returned one, `page.close()`
was called on one. -/
inductive PageEvent
  | created
  | closed
  deriving DecidableEq, Repr

/-- Everything observable of the body of one rendered fetch: what it returns or
raises, the page events in order, and whether the browser is open afterwards. -/
structure PageRun where
  outcome : Except JsError FetchResult
  events : List PageEvent
  browserOpen : Bool

/-- An optional step of the page session. -/
def optionalStep : Option (Except JsError Unit) → Except JsError Unit
  | none => .ok ()
  | some step => step

/-- The statements of the `try` block of `fetchWithPuppeteer` that follow
`page = await this.browser.newPage()` (lines 247-354). -/
def PageScript.session (s : PageScript) : Except JsError FetchResult := do
  s.prepare
  let response ← s.goto
  optionalStep s.waitForSelector
  optionalStep s.evaluate
  let content ← s.content
  s.load
  pure { success := true, data := some content, status := some response.1,
         headers := none, url := response.2, error := none, parsed := true }

/-- The callback `fetchWithPuppeteer` hands to the dispatcher, after pacing
(lines 238-371): `try` with the lazily launched browser, `newPage` and the page
session; `catch` turning whatever was raised into a failure record; `finally`
closing the page if `page` was assigned. An error raised by `page.close()` replaces
the value being returned. -/
def RequestService.fetchWithPuppeteerBody (browserOpen : Bool) (url : String)
    (s : PageScript) : PageRun :=
  let launched : Except JsError Unit := if browserOpen then .ok () else s.initBrowser
  match launched with
  | .error e => { outcome := .ok (renderFailure e url), events := [], browserOpen := false }
  | .ok _ =>
    match s.newPage with
    | .error e => { outcome := .ok (renderFailure e url), events := [], browserOpen := true }
    | .ok _ =>
      let returned : FetchResult :=
        match s.session with
        | .ok result => result
        | .error e => renderFailure e url
      match s.close with
      | .ok _ =>
        { outcome := .ok returned, events := [PageEvent.created, PageEvent.closed],
          browserOpen := true }
      | .error e =>
        { outcome := .error e, events := [PageEvent.created, PageEvent.closed],
          browserOpen := true }

/-- Whether `browser.newPage()` is reached and returns a page. -/
def PageScript.createsPage (s : PageScript) (browserOpen : Bool) : Bool :=
  match (if browserOpen then Except.ok () else s.initBrowser), s.newPage with
  | .ok _, .ok _ => true
  | _, _ => false

/-- The page session in the coarser form the pacing model uses: everything from
`newPage` to `page.content()` and `cheerio.load`. -/
def PageScript.page (s : PageScript) : Except JsError RenderedPage := do
  s.newPage
  s.prepare
  let response ← s.goto
  optionalStep s.waitForSelector
  optionalStep s.evaluate
  let content ← s.content
  s.load
  pure { status := response.1, content := content, url := response.2 }

/-- The page contexts open after the events, starting from `n` open ones; closing
with none open is kept visible as a negative count. -/
def openPages (n : Int) : List PageEvent → Int
  | [] => n
  | PageEvent.created :: rest => openPages (n + 1) rest
  | PageEvent.closed :: rest => openPages (n - 1) rest

/-- Rendered fetches run to completion one after another on one browser: the page
events of all of them, in order. -/
def pageEventsOf : Bool → List (String × PageScript) → List PageEvent
  | _, [] => []
  | browserOpen, (url, s) :: rest =>
    let r := RequestService.fetchWithPuppeteerBody browserOpen url s
    r.events ++ pageEventsOf r.browserOpen rest

/-- A page session in which every call returns. -/
def smoothScript : PageScript :=
  { initBrowser := .ok (), newPage := .ok (), prepare := .ok (),
    goto := .ok (200, "https://farside.co.uk/bitcoin-etf-flow-all-data/"),
    waitForSelector := none, evaluate := some (.ok ()), content := .ok "<html></html>",
    load := .ok (), close := .ok () }

/-- Navigation times out. -/
def navigationTimeout : PageScript :=
  { smoothScript with goto := .error { message := "Navigation timeout of 30000 ms exceeded" } }

/-- The selector never appears. -/
def selectorTimeout : PageScript :=
  { smoothScript with
      waitForSelector := some (.error { message := "Waiting for selector failed" }) }

/-- The readiness script raises. -/
def scriptError : PageScript :=
  { smoothScript with evaluate := some (.error { message := "Evaluation failed" }) }

/-- The browser gives no page. -/
def noPage : PageScript :=
  { smoothScript with newPage := .error { message := "Target closed" } }

/-! ## `src/core/baseCrawler.js`: the fetch helpers, statement by statement -/

/-- `fetchAndParse(url, options)` (lines 193-216): the direct fetch, then
`cheerio.load` on the document of a success record. What `request` raises is not
caught here; what `cheerio.load` raises becomes a failure record. -/
def RequestService.fetchAndParse (svc : RequestService) (hostname : String → Option String)
    (url : String) (env : CallEnv) (load : Option String → Except JsError Unit) :
    Except JsError FetchResult :=
  match (svc.request hostname url env).outcome with
  | .error e => .error e
  | .ok result =>
    if !result.success then .ok result
    else
      match load result.data with
      | .ok _ => .ok { result with parsed := true }
      | .error error =>
        .ok { success := false, data := none, status := none, headers := none, url := url,
              error := some ("HTML解析失败: " ++ error.message), parsed := false }

/-- The object literal of the `catch` blocks of `fetchPage` and
`fetchPageWithBrowser`. -/
def fetchFailure (error : JsError) (url : String) : FetchResult :=
  { success := false, data := none, status := none, headers := none, url := url,
    error := some error.message, parsed := false }

/-- Awaiting a call of the request service: its record, or what it raises. -/
def awaitService (served : Except JsError FetchResult) : Eff FetchResult :=
  match served with
  | .ok result => Eff.pure result
  | .error e => Eff.throw e

/-- `fetchPage(url, options)` (lines 200-226): count the request, then inside `try`
await `requestService.fetchAndParse` (`served`), count the success or the failure and
return the record; the `catch` block counts a failure and returns a failure
record. -/
def fetchPage (url : String) (served : Except JsError FetchResult) : Eff FetchResult := do
  modifyCrawler (fun c =>
    { c with stats := { c.stats with totalRequests := c.stats.totalRequests + 1 } })
  Eff.tryCatch
    (do
      logLine "debug" "请求页面" none
      let result ← awaitService served
      if result.success then do
        modifyCrawler (fun c =>
          { c with stats := { c.stats with
              successfulRequests := c.stats.successfulRequests + 1 } })
        logLine "debug" "页面请求成功" none
      else do
        modifyCrawler (fun c =>
          { c with stats := { c.stats with failedRequests := c.stats.failedRequests + 1 } })
        logLine "warn" "页面请求失败" result.error
      Eff.pure result)
    (fun error => do
      modifyCrawler (fun c =>
        { c with stats := { c.stats with failedRequests := c.stats.failedRequests + 1 } })
      logLine "error" "页面请求异常" (some error.message)
      Eff.pure (fetchFailure error url))

/-- `fetchPageWithBrowser(url, options)` (lines 234-260): as `fetchPage`, awaiting
`requestService.fetchWithPuppeteer` (`served`). -/
def fetchPageWithBrowser (url : String) (served : Except JsError FetchResult) :
    Eff FetchResult := do
  modifyCrawler (fun c =>
    { c with stats := { c.stats with totalRequests := c.stats.totalRequests + 1 } })
  Eff.tryCatch
    (do
      logLine "debug" "使用浏览器请求页面" none
      let result ← awaitService served
      if result.success then do
        modifyCrawler (fun c =>
          { c with stats := { c.stats with
              successfulRequests := c.stats.successfulRequests + 1 } })
        logLine "debug" "浏览器页面请求成功" none
      else do
        modifyCrawler (fun c =>
          { c with stats := { c.stats with failedRequests := c.stats.failedRequests + 1 } })
        logLine "warn" "浏览器页面请求失败" result.error
      Eff.pure result)
    (fun error => do
      modifyCrawler (fun c =>
        { c with stats := { c.stats with failedRequests := c.stats.failedRequests + 1 } })
      logLine "error" "浏览器页面请求异常" (some error.message)
      Eff.pure (fetchFailure error url))

/-- A call on the crawler that touches the request counters, with what the request
service does for it. -/
inductive StatsOp
  | fetchPage (url : String) (served : Except JsError FetchResult)
  | fetchPageWithBrowser (url : String) (served : Except JsError FetchResult)
  | resetStats

/-- The world after the call has completed. -/
def StatsOp.apply (w : World) : StatsOp → World
  | StatsOp.fetchPage url served => (ETFWebCrawler.fetchPage url served w).2
  | StatsOp.fetchPageWithBrowser url served => (ETFWebCrawler.fetchPageWithBrowser url served w).2
  | StatsOp.resetStats => { w with crawler := w.crawler.resetStats }

/-- The calls completed one after another. -/
def execStats (w : World) (ops : List StatsOp) : World :=
  ops.foldl StatsOp.apply w

/-- The request counters add up. -/
def Stats.balanced (s : Stats) : Prop :=
  s.successfulRequests + s.failedRequests = s.totalRequests

instance (s : Stats) : Decidable s.balanced := by
  unfold Stats.balanced; infer_instance

/-- A url that `new URL` rejects. -/
def malformedUrl : String := "not a url"

/-- A document loader that always returns. -/
def loadsFine : Option String → Except JsError Unit := fun _ => .ok ()

/-- A request service that raises. -/
def servedRaise : Except JsError FetchResult := .error { message := "socket hang up" }

/-- A request service that returns a failure record. -/
def servedFailure : Except JsError FetchResult :=
  .ok { success := false, data := none, status := some 503, headers := none,
        url := farsideUrl, error := some "Request failed with status code 503",
        parsed := false }

/-! ## `src/utils/userAgentManager.js`: choosing an identity -/

/-- The list `commonUserAgents` the constructor builds (lines 13-19). -/
def predefinedUserAgents : List String :=
  ["Mozilla/5.0 (Windows NT 10.0; Win64; x64) AppleWebKit/537.36 (KHTML, like Gecko) Chrome/91.0.4472.124 Safari/537.36",
   "Mozilla/5.0 (Macintosh; Intel Mac OS X 10_15_7) AppleWebKit/537.36 (KHTML, like Gecko) Chrome/91.0.4472.124 Safari/537.36",
   "Mozilla/5.0 (Windows NT 10.0; Win64; x64; rv:89.0) Gecko/20100101 Firefox/89.0",
   "Mozilla/5.0 (Macintosh; Intel Mac OS X 10_15_7) AppleWebKit/605.1.15 (KHTML, like Gecko) Version/14.1.1 Safari/605.1.15",
   "Mozilla/5.0 (Windows NT 10.0; Win64; x64) AppleWebKit/537.36 (KHTML, like Gecko) Chrome/91.0.4472.124 Safari/537.36 Edg/91.0.864.59"]

/-- The manager the constructor builds (lines 8-22); `rotateEnabled` is the
configuration value `antiBot.rotateUserAgent`. -/
def UserAgentManager.create (rotateEnabled : Bool) : UserAgentManager :=
  { rotateEnabled := rotateEnabled, commonUserAgents := predefinedUserAgents,
    currentIndex := 0 }

/-- `getCommonUserAgent()` (lines 46-54): the first entry in static mode, else the
entry at `currentIndex`, which then advances cyclically. The value is `none` where
the array access gives `undefined`. -/
def UserAgentManager.getCommonUserAgent (u : UserAgentManager) :
    Option String × UserAgentManager :=
  if !u.rotateEnabled then (u.commonUserAgents[0]?, u)
  else
    (u.commonUserAgents[u.currentIndex]?,
     { u with currentIndex := (u.currentIndex + 1) % u.commonUserAgents.length })

/-- `getRandomUserAgent()` (lines 28-40); `generated` is what
`this.userAgent.toString()` of the `user-agents` generator does: return a string or
raise. -/
def UserAgentManager.getRandomUserAgent (u : UserAgentManager)
    (generated : Except JsError String) : Option String × UserAgentManager :=
  if !u.rotateEnabled then (u.commonUserAgents[0]?, u)
  else
    match generated with
    | .ok userAgent => (some userAgent, u)
    | .error _ => u.getCommonUserAgent

/-- The state of a manager that the constructor built and the methods have been
called on: a pool of non-empty strings and an index inside it. -/
def UserAgentManager.wellFormed (u : UserAgentManager) : Prop :=
  (∀ s ∈ u.commonUserAgents, s ≠ "") ∧ u.currentIndex < u.commonUserAgents.length

instance (u : UserAgentManager) : Decidable u.wellFormed := by
  unfold UserAgentManager.wellFormed; infer_instance

/-- A generator that raises. -/
def brokenGenerator : Except JsError String :=
  .error { message := "Cannot read properties of undefined (reading 'userAgent')" }

/-- A generator that returns an identity. -/
def workingGenerator : Except JsError String :=
  .ok "Mozilla/5.0 (X11; Linux x86_64) AppleWebKit/537.36 (KHTML, like Gecko) Chrome/120.0.0.0 Safari/537.36"

/-! ## `src/services/storageService.js`: merging records -/

/-- The callback of the `filter` in `deduplicateData` (lines 305-313), run over the
items in order: `seen` holds the keys added so far, `stringify` is
`JSON.stringify`. -/
def dedupFilter {α : Type} (stringify : α → String) : List String → List α → List α
  | _, [] => []
  | seen, item :: rest =>
    if stringify item ∈ seen then dedupFilter stringify seen rest
    else item :: dedupFilter stringify (stringify item :: seen) rest

/-- `deduplicateData(data)` (lines 303-314). -/
def deduplicateData {α : Type} (stringify : α → String) (data : List α) : List α :=
  dedupFilter stringify [] data

/-- `mergeData(existingData, newData)` (lines 293-296). -/
def mergeData {α : Type} (stringify : α → String) (existingData newData : List α) : List α :=
  deduplicateData stringify (existingData ++ newData)

/-- A serialisation for records that are strings: the text between brackets. -/
def quoteRecord (r : Record) : String := "[" ++ r ++ "]"

/-! ## `src/crawlers/farsideCrawler.js`: `crawl()` and the contract routines -/

/-- The environment of one `crawl()`: the site crawl of each site key, and what
`storageService.saveData(site.tableName, data.tableData, "daily")` does, return a
boolean or raise. -/
structure CrawlEnv where
  site : String → SiteEnv
  save : String → Option (List EtfTable) → Except JsError Bool

/-- Everything observable of one `crawl()`: the object returned, as its properties
in insertion order, and the `saveData` calls made, with table name and data. -/
structure CrawlRun where
  results : List (String × SiteResult)
  saved : List (String × Option (List EtfTable))
  deriving DecidableEq, Repr

/-- One iteration of the loop of `crawl()` (lines 35-73): the site crawl, then for a
success record the save under the site's table name and the log line that reads
`data.tableData.length`; whatever is raised inside `try` replaces the property by a
failure object. Returns the property value and the `saveData` calls. -/
def crawlOne (key : String) (site : Site) (env : CrawlEnv) :
    SiteResult × List (String × Option (List EtfTable)) :=
  let data := (crawlSiteWithPuppeteer site (env.site key)).result
  let failure (message : String) : SiteResult :=
    { success := false, url := site.url, title := none, tableData := none,
      timestamp := none, error := some message, status := none }
  if data.success then
    match env.save site.tableName data.tableData with
    | .error e => (failure e.message, [(site.tableName, data.tableData)])
    | .ok _ =>
      match data.tableData with
      | some _ => (data, [(site.tableName, data.tableData)])
      | none =>
        (failure "Cannot read properties of undefined (reading 'length')",
         [(site.tableName, data.tableData)])
  else (data, [])

/-- The loop of `crawl()` over the entries of `this.sites` (lines 35-74): each
iteration sets the property of its site key. -/
def crawlLoop (env : CrawlEnv) : CrawlRun → List (String × Site) → CrawlRun
  | acc, [] => acc
  | acc, (key, site) :: rest =>
    crawlLoop env
      { results := mapSet acc.results key (crawlOne key site env).1,
        saved := acc.saved ++ (crawlOne key site env).2 } rest

/-- `crawl()` (lines 30-77): the loop, starting from the empty object. -/
def FarsideCrawler.crawl (sites : List (String × Site)) (env : CrawlEnv) : CrawlRun :=
  crawlLoop env { results := [], saved := [] } sites

/-- A value an acquisition routine can return: an array of records, a plain object
given by the names of its own properties, or `null` or `undefined`. -/
inductive Acquired
  | array (records : List Record)
  | object (properties : List String)
  | nothing
  deriving DecidableEq, Repr

/-- What the test `data && data.length > 0` of the lifecycle (lines 80 and 111) lets
through: the records of an array; `null`, `undefined` and a plain object without a
property `length` have no `length` for the test to compare. For an object with a
property named `length` the test depends on the value of that property, which the
model does not carry; the answer given for it is the empty array. -/
def Acquired.asRecords : Acquired → Option (List Record)
  | Acquired.array records => some records
  | Acquired.object properties => if "length" ∈ properties then some [] else none
  | Acquired.nothing => none

/-- The field `sites` the constructor of `FarsideCrawler` sets (lines 13-24). -/
def farsideSites : List (String × Site) :=
  [("bitcoin", bitcoinSite),
   ("ethereum", { name := "Ethereum ETF Flow",
                  url := "https://farside.co.uk/ethereum-etf-flow-all-data/",
                  tableName := "ethereum_etf_data" })]

/-- `crawlHistoricalData()` (lines 332-335): the value of `crawl()`. -/
def FarsideCrawler.crawlHistoricalData (env : CrawlEnv) : Acquired :=
  Acquired.object ((FarsideCrawler.crawl farsideSites env).results.map Prod.fst)

/-- `crawlDailyData()` (lines 340-344): the value of `crawl()`. -/
def FarsideCrawler.crawlDailyData (env : CrawlEnv) : Acquired :=
  Acquired.object ((FarsideCrawler.crawl farsideSites env).results.map Prod.fst)

/-- The two routines as the lifecycle of `BaseCrawler` meets them: `crawl()` fetches
through the request service, not through `fetchPage`, so no request is counted. -/
def FarsideCrawler.historicalRoutine (env : CrawlEnv) : Routine :=
  { fetched := [], result := .ok (FarsideCrawler.crawlHistoricalData env).asRecords }

/-- The incremental routine as the lifecycle meets it. -/
def FarsideCrawler.dailyRoutine (env : CrawlEnv) : Routine :=
  { fetched := [], result := .ok (FarsideCrawler.crawlDailyData env).asRecords }

/-- Both sites can be fetched and storage saves everything. -/
def openCrawlEnv : CrawlEnv :=
  { site := fun _ => openSiteEnv, save := fun _ _ => .ok true }

/-- A run of the registered `FarsideCrawler` on a storage without data, with both
sites open. -/
def farsideRunEnv : RunEnv :=
  { healthyEnv with
    historical := FarsideCrawler.historicalRoutine openCrawlEnv,
    daily := FarsideCrawler.dailyRoutine openCrawlEnv }

/-- Whether the call is a `saveData` of the lifecycle. -/
def Invocation.isSave : Invocation → Bool
  | Invocation.saveData _ _ _ => true
  | _ => false

/-! ## JavaScript values -/

/-- A value that is not an array the model looks into: the primitives (numbers are
integers or `NaN`), and `object` for any object, identified by a number; an array
nested inside an array is such an object. -/
inductive JsAtom
  | undefined
  | null
  | boolean (b : Bool)
  | number (n : Int)
  | nan
  | string (s : String)
  | object (id : Nat)
  deriving DecidableEq, Repr

/-- A value: an atom, or an array of atoms. -/
inductive JsValue
  | atom (a : JsAtom)
  | array (items : List JsAtom)
  deriving DecidableEq, Repr

/-- `Boolean(a)`: `false` for `undefined`, `null`, `false`, `0`, `NaN` and the empty
string. -/
def JsAtom.truthy : JsAtom → Bool
  | JsAtom.undefined => false
  | JsAtom.null => false
  | JsAtom.boolean b => b
  | JsAtom.number n => n != 0
  | JsAtom.nan => false
  | JsAtom.string s => s != ""
  | JsAtom.object _ => true

/-- What `Array.prototype.flat()` puts in place of an element: the items of an
array, the element itself otherwise. -/
def JsValue.flat : JsValue → List JsAtom
  | JsValue.atom a => [a]
  | JsValue.array items => items

/-! ## `src/core/baseCrawler.js`: `processBatch` -/

/-- How the promise of one `processFunction(url)` settles. -/
inductive Settled
  | fulfilled (value : JsValue)
  | rejected (reason : JsError)
  deriving DecidableEq, Repr

/-- The value pushed for a settled promise (lines 284-290): that of a fulfilled
one. -/
def Settled.value : Settled → Option JsValue
  | Settled.fulfilled value => some value
  | Settled.rejected _ => none

/-- The message logged for a settled promise: that of a rejected one. -/
def Settled.failure : Settled → Option String
  | Settled.fulfilled _ => none
  | Settled.rejected reason => some reason.message

/-- The state of the loop of `processBatch`: the array `results`, and what has
happened so far, the urls `processFunction` was called with, the batches, the number
of calls `delay(1000)` and the messages logged for rejected promises. -/
structure BatchLoop where
  results : List JsValue
  invoked : List String
  batches : List (List String)
  delays : Nat
  failures : List String
  deriving DecidableEq, Repr

/-- The loop `for (let i = 0; i < urls.length; i += batchSize)` of `processBatch`
(lines 272-296), from the index `i` on. The first argument bounds the number of
iterations left; the value is `none` when the bound is reached with the loop
condition still true. -/
def processBatchLoop (urls : List String) (processFunction : String → Settled)
    (batchSize : Nat) : Nat → Nat → BatchLoop → Option BatchLoop
  | 0, i, acc => if i < urls.length then none else some acc
  | fuel + 1, i, acc =>
    if i < urls.length then
      let batch := (urls.drop i).take batchSize
      let batchResults := batch.map processFunction
      let acc1 : BatchLoop :=
        { results := acc.results ++ batchResults.filterMap Settled.value,
          invoked := acc.invoked ++ batch,
          batches := acc.batches ++ [batch],
          delays := acc.delays,
          failures := acc.failures ++ batchResults.filterMap Settled.failure }
      let acc2 : BatchLoop :=
        if i + batchSize < urls.length then { acc1 with delays := acc1.delays + 1 } else acc1
      processBatchLoop urls processFunction batchSize fuel (i + batchSize) acc2
    else some acc

/-- Everything observable of one `processBatch` call: the array returned and what
happened during the loop. -/
structure ProcessRun where
  returned : List JsAtom
  invoked : List String
  batches : List (List String)
  delays : Nat
  failures : List String
  deriving DecidableEq, Repr

/-- `processBatch(urls, processFunction, batchSize)` (lines 269-299): the loop, then
`results.flat().filter(Boolean)`. A loop of `urls.length` iterations is allowed for;
the value is `none` for a loop that does not end within them. -/
def processBatch (urls : List String) (processFunction : String → Settled)
    (batchSize : Nat) : Option ProcessRun :=
  (processBatchLoop urls processFunction batchSize urls.length 0
      { results := [], invoked := [], batches := [], delays := 0, failures := [] }).map
    (fun acc =>
      { returned := (acc.results.flatMap JsValue.flat).filter JsAtom.truthy,
        invoked := acc.invoked, batches := acc.batches, delays := acc.delays,
        failures := acc.failures })

/-- Seven urls. -/
def sevenUrls : List String := ["u1", "u2", "u3", "u4", "u5", "u6", "u7"]

/-- A process function: `u2` rejects, `u3` gives an array with a falsy item, `u5`
gives `null`, every other url gives its own name. -/
def sampleProcess : String → Settled := fun url =>
  if url = "u2" then Settled.rejected { message := "boom" }
  else if url = "u3" then
    Settled.fulfilled (JsValue.array [JsAtom.string "a", JsAtom.number 0, JsAtom.object 1])
  else if url = "u5" then Settled.fulfilled (JsValue.atom JsAtom.null)
  else Settled.fulfilled (JsValue.atom (JsAtom.string url))

/-! ## `src/utils/dataParser.js` -/

/-- A valid `moment`: its instant (`valueOf()`, in milliseconds) and its rendering by
`format("YYYY-MM-DD")`. -/
structure Moment where
  valueOf : Int
  formatted : String
  deriving DecidableEq, Repr

/-- The part of the `moment` library the parser calls: `strict text format` is
`moment(text, format, true)` and `auto text` is `moment(text)`, each `none` for an
invalid moment; `diffDays a b` is `a.diff(b, "days")`. -/
structure Calendar where
  strict : String → String → Option Moment
  auto : String → Option Moment
  diffDays : Moment → Moment → Int

/-- The characters `String.prototype.trim` removes and `\s` matches: white space and
line terminators. -/
def isTrimmed (c : Char) : Bool :=
  c.toNat ∈ [0x09, 0x0A, 0x0B, 0x0C, 0x0D, 0x20, 0xA0, 0x1680, 0x2028, 0x2029, 0x202F,
             0x205F, 0x3000, 0xFEFF]
    || (0x2000 ≤ c.toNat && c.toNat ≤ 0x200A)

/-- `String.prototype.trim`. -/
def trim (s : String) : String :=
  String.mk ((s.toList.dropWhile isTrimmed).reverse.dropWhile isTrimmed).reverse

/-- `String.prototype.toLowerCase`, on the letters `A` to `Z`. The other characters
are left as they are: the results are only compared with the keywords `total`, `sum`,
`date` and the like, whose letters no other character lowers to. -/
def toLowerCase (s : String) : String :=
  String.mk (s.toList.map (fun c => if 'A' ≤ c ∧ c ≤ 'Z' then Char.ofNat (c.toNat + 32) else c))

/-- `row[index]` on a table row: the item of an array (or `undefined` past its end),
the character of a string, `undefined` on the other primitives and on an object
without such a property, and a `TypeError` on `null` and `undefined`. -/
def JsValue.index (row : JsValue) (index : Nat) : Except JsError JsAtom :=
  match row with
  | JsValue.array items =>
    match items[index]? with
    | some item => .ok item
    | none => .ok JsAtom.undefined
  | JsValue.atom JsAtom.null =>
    .error { message := "Cannot read properties of null (reading '" ++ toString index ++ "')" }
  | JsValue.atom JsAtom.undefined =>
    .error { message :=
      "Cannot read properties of undefined (reading '" ++ toString index ++ "')" }
  | JsValue.atom (JsAtom.string s) =>
    match s.toList[index]? with
    | some c => .ok (JsAtom.string c.toString)
    | none => .ok JsAtom.undefined
  | JsValue.atom _ => .ok JsAtom.undefined

/-- The loop of `findRowByKeyword` (lines 95-110), from the row of index `i` on. -/
def findRowByKeywordLoop (keywords : List String) (columnIndex : Nat) :
    List JsValue → Nat → Int
  | [], _ => -1
  | row :: rest, i =>
    match row with
    | JsValue.array items =>
      match items[columnIndex]? with
      | some (JsAtom.string cellValue) =>
        if cellValue ≠ "" ∧ toLowerCase (trim cellValue) ∈ keywords.map toLowerCase then i
        else findRowByKeywordLoop keywords columnIndex rest (i + 1)
      | _ => findRowByKeywordLoop keywords columnIndex rest (i + 1)
    | JsValue.atom _ => findRowByKeywordLoop keywords columnIndex rest (i + 1)

/-- `findRowByKeyword(tableRows, keywords, columnIndex)` (lines 94-111): the index of
the first row whose cell is one of the keywords, `-1` when there is none. -/
def findRowByKeyword (tableRows : List JsValue) (keywords : List String)
    (columnIndex : Nat) : Int :=
  findRowByKeywordLoop keywords columnIndex tableRows 0

/-- The words matched, whatever the case of their letters, by the first six patterns
of `isNonDateContent`. -/
def nonDateWords : List String :=
  ["date", "日期", "total", "总计", "合计", "average", "平均", "minimum", "最小", "最小值",
   "maximum", "最大", "最大值", "sum", "求和"]

/-- `isNonDateContent(str)` on a string (lines 119-132): the trimmed text is one of
the words, a run of dashes, or empty. -/
def isNonDateText (str : String) : Bool :=
  toLowerCase (trim str) ∈ nonDateWords
    || ((trim str).toList ≠ [] && (trim str).toList.all (fun c => c = '-'))
    || (trim str).toList.all isTrimmed

/-- `isNonDateContent(str)` (lines 119-132) on any value: `str.trim()` raises a
`TypeError` on everything but a string. -/
def isNonDateContent (str : JsAtom) : Except JsError Bool :=
  match str with
  | JsAtom.string s => .ok (isNonDateText s)
  | JsAtom.null => .error { message := "Cannot read properties of null (reading 'trim')" }
  | JsAtom.undefined =>
    .error { message := "Cannot read properties of undefined (reading 'trim')" }
  | _ => .error { message := "str.trim is not a function" }

/-- The array `dateFormats` of `parseDate` (lines 142-151). -/
def dateFormats : List String :=
  ["DD MMM YYYY", "D MMM YYYY", "YYYY-MM-DD", "YYYY/MM/DD", "DD/MM/YYYY", "MM/DD/YYYY",
   "DD-MM-YYYY", "YYYY年MM月DD日"]

/-- `parseDate(dateStr)` on a string (lines 139-163): `null` for the empty string,
else the first format that parses strictly, else the automatic parse. -/
def parseDate (cal : Calendar) (dateStr : String) : Option Moment :=
  if dateStr = "" then none
  else
    match dateFormats.findSome? (fun format => cal.strict (trim dateStr) format) with
    | some parsed => some parsed
    | none => cal.auto (trim dateStr)

/-- The object `findLatestDate` returns. -/
structure LatestDate where
  dateString : String
  row : JsValue
  index : Nat
  parsedDate : Moment
  formattedDate : String
  method : String
  deriving DecidableEq, Repr

/-- The test both strategies of `findLatestDate` apply to a date cell (lines 26-28 and
52-64): a non-empty string that is not non-date content and parses to a valid
date. -/
def dateOfCell (cal : Calendar) (cell : JsAtom) : Option (String × Moment) :=
  match cell with
  | JsAtom.string dateStr =>
    if dateStr ≠ "" ∧ isNonDateText dateStr = false then
      (parseDate cal dateStr).map (fun parsed => (dateStr, parsed))
    else none
  | _ => none

/-- The loop of the second strategy (lines 46-70), from the row of index `i - 1`
down. -/
def reverseScan (cal : Calendar) (tableRows : List JsValue) (dateColumnIndex : Nat) :
    Nat → Option LatestDate
  | 0 => none
  | i + 1 =>
    match tableRows[i]? with
    | some (JsValue.array items) =>
      match items[dateColumnIndex]? with
      | some cell =>
        match dateOfCell cal cell with
        | some (dateStr, parsed) =>
          some { dateString := dateStr, row := JsValue.array items, index := i,
                 parsedDate := parsed, formattedDate := parsed.formatted,
                 method := "reverse_scan" }
        | none => reverseScan cal tableRows dateColumnIndex i
      | none => reverseScan cal tableRows dateColumnIndex i
    | _ => reverseScan cal tableRows dateColumnIndex i

/-- The first strategy of `findLatestDate` (lines 20-38): the row before the first
`Total` row, when there is one and its date cell holds a valid date. Reading the cell
raises when that row is `null` or `undefined`. -/
def beforeTotal (cal : Calendar) (tableRows : List JsValue) (dateColumnIndex : Nat) :
    Except JsError (Option LatestDate) :=
  let totalRowIndex := findRowByKeyword tableRows ["Total", "总计", "Sum"] dateColumnIndex
  if totalRowIndex > 0 then
    let latestRow : JsValue :=
      match tableRows[(totalRowIndex - 1).toNat]? with
      | some row => row
      | none => JsValue.atom JsAtom.undefined
    match latestRow.index dateColumnIndex with
    | .error e => .error e
    | .ok cell =>
      match dateOfCell cal cell with
      | some (dateStr, parsed) =>
        .ok (some { dateString := dateStr, row := latestRow,
                    index := (totalRowIndex - 1).toNat, parsedDate := parsed,
                    formattedDate := parsed.formatted, method := "before_total" })
      | none => .ok none
  else .ok none

/-- `findLatestDate(tableRows, dateColumnIndex)` (lines 14-85) on an array of rows:
the first strategy, then the scan from the last row back. -/
def findLatestDate (cal : Calendar) (tableRows : List JsValue) (dateColumnIndex : Nat) :
    Except JsError (Option LatestDate) :=
  if tableRows.length = 0 then .ok none
  else
    match beforeTotal cal tableRows dateColumnIndex with
    | .error e => .error e
    | .ok (some found) => .ok (some found)
    | .ok none => .ok (reverseScan cal tableRows dateColumnIndex tableRows.length)

/-- An element of the array `extractTimeSeries` returns. -/
structure SeriesEntry where
  dateString : String
  parsedDate : Moment
  formattedDate : String
  row : JsValue
  index : Nat
  deriving DecidableEq, Repr

/-- The loop of `extractTimeSeries` (lines 178-199), from the row of index `i` on:
rows that are not arrays or too short are skipped; `isNonDateContent` is called on
the date cell as it is, and raises on a cell that is not a string. -/
def extractLoop (cal : Calendar) (dateColumnIndex : Nat) :
    List JsValue → Nat → Except JsError (List SeriesEntry)
  | [], _ => .ok []
  | row :: rest, i =>
    match row with
    | JsValue.array items =>
      match items[dateColumnIndex]? with
      | none => extractLoop cal dateColumnIndex rest (i + 1)
      | some dateStr =>
        match isNonDateContent dateStr with
        | .error e => .error e
        | .ok true => extractLoop cal dateColumnIndex rest (i + 1)
        | .ok false =>
          match dateStr with
          | JsAtom.string s =>
            match parseDate cal s with
            | some parsed =>
              (extractLoop cal dateColumnIndex rest (i + 1)).map
                (fun series =>
                  { dateString := s, parsedDate := parsed, formattedDate := parsed.formatted,
                    row := row, index := i } :: series)
            | none => extractLoop cal dateColumnIndex rest (i + 1)
          | _ => extractLoop cal dateColumnIndex rest (i + 1)
    | JsValue.atom _ => extractLoop cal dateColumnIndex rest (i + 1)

/-- `extractTimeSeries(tableRows, dateColumnIndex)` (lines 171-205) on an array of
rows: the dated rows, sorted by instant (the sort is stable). -/
def extractTimeSeries (cal : Calendar) (tableRows : List JsValue) (dateColumnIndex : Nat) :
    Except JsError (List SeriesEntry) :=
  (extractLoop cal dateColumnIndex tableRows 0).map
    (List.insertionSort (fun a b => a.parsedDate.valueOf ≤ b.parsedDate.valueOf))

/-- An end of the range `getDateRange` returns. -/
structure RangeEnd where
  dateString : String
  formattedDate : String
  parsedDate : Moment
  deriving DecidableEq, Repr

/-- The object `getDateRange` returns. -/
structure DateRange where
  earliest : RangeEnd
  latest : RangeEnd
  totalDays : Nat
  daysBetween : Int
  deriving DecidableEq, Repr

/-- `getDateRange(tableRows, dateColumnIndex)` (lines 213-237). -/
def getDateRange (cal : Calendar) (tableRows : List JsValue) (dateColumnIndex : Nat) :
    Except JsError (Option DateRange) :=
  match extractTimeSeries cal tableRows dateColumnIndex with
  | .error e => .error e
  | .ok timeSeries =>
    match timeSeries.head?, timeSeries.getLast? with
    | some earliest, some latest =>
      .ok (some
        { earliest := { dateString := earliest.dateString,
                        formattedDate := earliest.formattedDate,
                        parsedDate := earliest.parsedDate },
          latest := { dateString := latest.dateString,
                      formattedDate := latest.formattedDate,
                      parsedDate := latest.parsedDate },
          totalDays := timeSeries.length,
          daysBetween := cal.diffDays latest.parsedDate earliest.parsedDate + 1 })
    | _, _ => .ok none

/-- An element of `gaps`. -/
structure Gap where
  fromDate : String
  toDate : String
  daysMissing : Int
  deriving DecidableEq, Repr

/-- An element of `duplicates`. -/
structure Duplicate where
  date : String
  indices : Nat × Nat
  deriving DecidableEq, Repr

/-- The report `validateDataIntegrity` returns. -/
structure IntegrityReport where
  isValid : Bool
  totalRecords : Nat
  gaps : List Gap
  duplicates : List Duplicate
  issues : List String
  deriving DecidableEq, Repr

/-- The loop of `validateDataIntegrity` over neighbouring entries (lines 259-279):
the duplicates and the gaps found. -/
def scanNeighbours (cal : Calendar) : List SeriesEntry → List Duplicate × List Gap
  | prev :: curr :: rest =>
    let tail := scanNeighbours cal (curr :: rest)
    let duplicates :=
      if prev.formattedDate = curr.formattedDate then
        { date := curr.formattedDate, indices := (prev.index, curr.index) } :: tail.1
      else tail.1
    let daysDiff := cal.diffDays curr.parsedDate prev.parsedDate
    let gaps :=
      if daysDiff > 4 then
        { fromDate := prev.formattedDate, toDate := curr.formattedDate,
          daysMissing := daysDiff - 1 } :: tail.2
      else tail.2
    (duplicates, gaps)
  | _ => ([], [])

/-- `validateDataIntegrity(tableRows, dateColumnIndex)` (lines 245-292). -/
def validateDataIntegrity (cal : Calendar) (tableRows : List JsValue)
    (dateColumnIndex : Nat) : Except JsError IntegrityReport :=
  match extractTimeSeries cal tableRows dateColumnIndex with
  | .error e => .error e
  | .ok timeSeries =>
    if timeSeries.length < 2 then
      .ok { isValid := timeSeries.length = 1, totalRecords := timeSeries.length, gaps := [],
            duplicates := [],
            issues := if timeSeries.length = 0 then ["无有效日期数据"] else [] }
    else
      let found := scanNeighbours cal timeSeries
      let issues : List String :=
        (if found.2.length > 0 then ["发现" ++ toString found.2.length ++ "个数据间隔"] else [])
          ++ (if found.1.length > 0 then ["发现" ++ toString found.1.length ++ "个重复日期"]
              else [])
      .ok { isValid := issues.length = 0, totalRecords := timeSeries.length,
            gaps := found.2, duplicates := found.1, issues := issues }

/-- A calendar that knows the first days of January 2024 in the format
`D MMM YYYY`, counted in days of 86400000 ms. -/
def januaryCalendar : Calendar :=
  { strict := fun text format =>
      if format = "D MMM YYYY" then
        if text = "1 Jan 2024" then some { valueOf := 1704067200000, formatted := "2024-01-01" }
        else if text = "2 Jan 2024" then
          some { valueOf := 1704153600000, formatted := "2024-01-02" }
        else if text = "3 Jan 2024" then
          some { valueOf := 1704240000000, formatted := "2024-01-03" }
        else none
      else none,
    auto := fun _ => none,
    diffDays := fun a b => (a.valueOf - b.valueOf).tdiv 86400000 }

/-- A table row of text cells. -/
def textRow (cells : List String) : JsValue :=
  JsValue.array (cells.map JsAtom.string)

/-- The table of `test/testDataParser.js` (lines 90-98). -/
def mockData : List JsValue :=
  [textRow ["Date", "IBIT", "FBTC", "Total"],
   textRow ["1 Jan 2024", "100", "200", "300"],
   textRow ["2 Jan 2024", "150", "250", "400"],
   textRow ["3 Jan 2024", "120", "230", "350"],
   textRow ["Total", "370", "680", "1050"],
   textRow ["Minimum", "100", "200", "300"],
   textRow ["Maximum", "150", "250", "400"]]

/-- A table with the newest day first. -/
def newestFirst : List JsValue :=
  [textRow ["Date", "IBIT"],
   textRow ["3 Jan 2024", "120"],
   textRow ["2 Jan 2024", "150"],
   textRow ["1 Jan 2024", "100"],
   textRow ["Total", "370"]]

/-- A table whose row before the `Total` row is `null`. -/
def nullBeforeTotal : List JsValue :=
  [textRow ["1 Jan 2024", "100"], JsValue.atom JsAtom.null, textRow ["Total", "100"]]

/-- A table with a date cell that is `null`. -/
def nullDateCell : List JsValue :=
  [textRow ["1 Jan 2024", "100"], JsValue.array [JsAtom.null, JsAtom.string "150"]]

/-- A table with a date cell that is a number. -/
def numberDateCell : List JsValue :=
  [JsValue.array [JsAtom.number 20240101, JsAtom.string "150"]]

/-- `Array.isArray(row)`. -/
def JsValue.isArray : JsValue → Bool
  | JsValue.array _ => true
  | JsValue.atom _ => false

/-- The date a row carries: that of its date cell, for a row that is an array long
enough. -/
def dateOfRow (cal : Calendar) (dateColumnIndex : Nat) (row : JsValue) :
    Option (String × Moment) :=
  match row with
  | JsValue.array items =>
    match items[dateColumnIndex]? with
    | some cell => dateOfCell cal cell
    | none => none
  | JsValue.atom _ => none

/-! # Properties -/

/-! ## Pacing -/

/-- Reading a key just written yields the written value. -/
theorem mapGet_mapSet_self {α : Type} (m : List (String × α)) (k : String) (v : α) :
    mapGet (mapSet m k v) k = some v := by
  induction m with
  | nil => simp [mapSet, mapGet]
  | cons p rest ih =>
    obtain ⟨k1, w⟩ := p
    by_cases h : k1 = k
    · simp [mapSet, mapGet, h]
    · simp [mapSet, mapGet, h, ih]

/-- Writing one key leaves every other key as it was. -/
theorem mapGet_mapSet_other {α : Type} (m : List (String × α)) (k k2 : String) (v : α)
    (hne : k ≠ k2) : mapGet (mapSet m k v) k2 = mapGet m k2 := by
  induction m with
  | nil => simp [mapSet, mapGet, hne]
  | cons p rest ih =>
    obtain ⟨k1, w⟩ := p
    by_cases h : k1 = k
    · subst h
      simp [mapSet, mapGet, hne]
    · by_cases h2 : k1 = k2
      · subst h2
        simp [mapSet, mapGet, h]
      · simp [mapSet, mapGet, h, h2, ih]

/-- With `minDelay ≤ maxDelay` the drawn delay is at least `minDelay`. -/
theorem getRandomDelay_ge (rl : RateLimiter) (u : UnitSample)
    (h : rl.minDelay ≤ rl.maxDelay) : rl.minDelay ≤ rl.getRandomDelay u := by
  unfold RateLimiter.getRandomDelay
  have h1 : (0 : Int) ≤ (u.num : Int) * (rl.maxDelay - rl.minDelay + 1) := by
    apply mul_nonneg
    · exact Int.ofNat_nonneg _
    · omega
  have h2 : (0 : Int) ≤ (u.num : Int) * (rl.maxDelay - rl.minDelay + 1) / (u.den : Int) :=
    Int.ediv_nonneg h1 (Int.ofNat_nonneg _)
  omega

/-- A call is released at least `minDelay` after the timestamp it read, whatever
the clock shows when it enters. -/
theorem releaseTime_ge (rl : RateLimiter) (domain : String) (now : Int) (u : UnitSample)
    (lag : Nat) (h : rl.minDelay ≤ rl.maxDelay) :
    (mapGet rl.requestTimes domain).getD 0 + rl.minDelay
      ≤ rl.releaseTime domain now u lag := by
  have hd := getRandomDelay_ge rl u h
  unfold RateLimiter.releaseTime RateLimiter.waitTime
  simp only []
  split <;> omega

/-- A direct fetch of a well-formed url records its release instant and nothing else
in the limiter. -/
theorem request_service_paced (svc : RequestService) (hostname : String → Option String)
    (url : String) (env : CallEnv) (d : String) (hd : hostname url = some d) :
    (svc.request hostname url env).service.rateLimiter
        = svc.rateLimiter.record d (svc.rateLimiter.releaseTime d env.now env.sample env.lag)
      ∧ (svc.request hostname url env).released
        = some (svc.rateLimiter.releaseTime d env.now env.sample env.lag) := by
  unfold RequestService.request
  simp only [hd, RateLimiter.waitForRate]
  split
  · exact ⟨rfl, rfl⟩
  · split <;> exact ⟨rfl, rfl⟩

/-- A direct fetch of a malformed url leaves the service untouched. -/
theorem request_service_unpaced (svc : RequestService) (hostname : String → Option String)
    (url : String) (env : CallEnv) (hd : hostname url = none) :
    (svc.request hostname url env).service = svc
      ∧ (svc.request hostname url env).released = none := by
  unfold RequestService.request
  simp [hd]

/-- A rendered fetch of a well-formed url records its release instant and nothing
else in the limiter. -/
theorem render_service_paced (svc : RequestService) (hostname : String → Option String)
    (url : String) (env : RenderEnv) (d : String) (hd : hostname url = some d) :
    (svc.fetchWithPuppeteer hostname url env).service.rateLimiter
        = svc.rateLimiter.record d (svc.rateLimiter.releaseTime d env.now env.sample env.lag)
      ∧ (svc.fetchWithPuppeteer hostname url env).released
        = some (svc.rateLimiter.releaseTime d env.now env.sample env.lag) := by
  unfold RequestService.fetchWithPuppeteer
  simp only [hd, RateLimiter.waitForRate]
  split
  · exact ⟨rfl, rfl⟩
  · rename_i svc2 hl
    have hrl : svc2.rateLimiter
        = svc.rateLimiter.record d
            (svc.rateLimiter.releaseTime d env.now env.sample env.lag) := by
      split at hl
      · cases hl; rfl
      · split at hl
        · cases hl; rfl
        · cases hl
    split <;> exact ⟨hrl, rfl⟩

/-- A rendered fetch of a malformed url leaves the service untouched. -/
theorem render_service_unpaced (svc : RequestService) (hostname : String → Option String)
    (url : String) (env : RenderEnv) (hd : hostname url = none) :
    (svc.fetchWithPuppeteer hostname url env).service = svc
      ∧ (svc.fetchWithPuppeteer hostname url env).released = none := by
  unfold RequestService.fetchWithPuppeteer
  simp [hd]


/-- Recording a timestamp keeps the configured window. -/
theorem record_minDelay (rl : RateLimiter) (d : String) (t : Int) :
    (rl.record d t).minDelay = rl.minDelay ∧ (rl.record d t).maxDelay = rl.maxDelay :=
  ⟨rfl, rfl⟩

/-- A spaced list stays spaced when an instant a full gap earlier is put in front. -/
theorem spaced_cons_of_le (gap a b : Int) (rest : List Int) (hgap : 0 ≤ gap)
    (hab : a + gap ≤ b) (h : Spaced gap (b :: rest)) : Spaced gap (a :: b :: rest) := by
  unfold Spaced at *
  rw [List.pairwise_cons] at h ⊢
  refine ⟨?_, List.pairwise_cons.mpr h⟩
  intro c hc
  rcases List.mem_cons.mp hc with hcb | hcr
  · rw [hcb]; exact hab
  · have := h.1 c hcr
    omega

/-- The timestamp recorded before a sequence of calls, followed by the release
instants of the sequence for the domain, is spaced by `minDelay`. -/
theorem dispatchAll_chain (hostname : String → Option String) (domain : String)
    (calls : List FetchCall) :
    ∀ svc : RequestService, 0 ≤ svc.rateLimiter.minDelay →
      svc.rateLimiter.minDelay ≤ svc.rateLimiter.maxDelay →
      Spaced svc.rateLimiter.minDelay
        ((mapGet svc.rateLimiter.requestTimes domain).getD 0
          :: releasesOf domain (dispatchAll hostname svc calls).2) := by
  induction calls with
  | nil =>
    intro svc _ _
    simp [dispatchAll, releasesOf, Spaced]
  | cons call rest ih =>
    intro svc h0 h1
    -- one call, whichever its kind: the service it leaves and what it logged
    have key : ∀ (svc1 : RequestService) (released : Option Int) (url : String)
        (now : Int) (u : UnitSample) (lag : Nat),
        (∀ d, hostname url = some d →
            svc1.rateLimiter
              = svc.rateLimiter.record d (svc.rateLimiter.releaseTime d now u lag)
            ∧ released = some (svc.rateLimiter.releaseTime d now u lag)) →
        (hostname url = none → svc1 = svc ∧ released = none) →
        Spaced svc.rateLimiter.minDelay
          ((mapGet svc.rateLimiter.requestTimes domain).getD 0
            :: releasesOf domain
                (match hostname url, released with
                  | some d, some t =>
                    ((dispatchAll hostname svc1 rest).1,
                      (d, t) :: (dispatchAll hostname svc1 rest).2)
                  | _, _ => dispatchAll hostname svc1 rest).2) := by
      intro svc1 released url now u lag hp hu
      cases hh : hostname url with
      | none =>
        obtain ⟨e1, e2⟩ := hu hh
        subst e1 e2
        simpa using ih svc1 h0 h1
      | some d =>
        obtain ⟨e1, e2⟩ := hp d hh
        subst e2
        simp only []
        have hm : svc1.rateLimiter.minDelay = svc.rateLimiter.minDelay := by rw [e1]; rfl
        have hM : svc1.rateLimiter.maxDelay = svc.rateLimiter.maxDelay := by rw [e1]; rfl
        have ih1 := ih svc1 (by rw [hm]; exact h0) (by rw [hm, hM]; exact h1)
        rw [hm] at ih1
        by_cases hdd : d = domain
        · subst hdd
          have hget : (mapGet svc1.rateLimiter.requestTimes d).getD 0
              = svc.rateLimiter.releaseTime d now u lag := by
            rw [e1]; simp [RateLimiter.record, mapGet_mapSet_self]
          rw [hget] at ih1
          have hrel := releaseTime_ge svc.rateLimiter d now u lag h1
          have hlog : releasesOf d ((d, svc.rateLimiter.releaseTime d now u lag)
                :: (dispatchAll hostname svc1 rest).2)
              = svc.rateLimiter.releaseTime d now u lag
                :: releasesOf d (dispatchAll hostname svc1 rest).2 := by
            simp [releasesOf]
          rw [hlog]
          exact spaced_cons_of_le _ _ _ _ h0 hrel ih1
        · have hget : (mapGet svc1.rateLimiter.requestTimes domain).getD 0
              = (mapGet svc.rateLimiter.requestTimes domain).getD 0 := by
            rw [e1]; simp [RateLimiter.record, mapGet_mapSet_other _ _ _ _ hdd]
          rw [hget] at ih1
          have hlog : releasesOf domain ((d, svc.rateLimiter.releaseTime d now u lag)
                :: (dispatchAll hostname svc1 rest).2)
              = releasesOf domain (dispatchAll hostname svc1 rest).2 := by
            simp [releasesOf, hdd]
          rw [hlog]
          exact ih1
    cases call with
    | direct url env =>
      simp only [dispatchAll]
      exact key _ _ url env.now env.sample env.lag
        (fun d hd => request_service_paced svc hostname url env d hd)
        (fun hd => request_service_unpaced svc hostname url env hd)
    | rendered url env =>
      simp only [dispatchAll]
      exact key _ _ url env.now env.sample env.lag
        (fun d hd => render_service_paced svc hostname url env d hd)
        (fun hd => render_service_unpaced svc hostname url env hd)

/-- The loop only appends to the list of attempt starts. -/
theorem attemptLoop_starts_prefix (retries : Int) (net : Nat → Attempt) (fuel : Nat) :
    ∀ (attempt : Nat) (st : LoopState),
      st.starts <+: (attemptLoop retries net fuel attempt st).2.starts := by
  induction fuel with
  | zero => intro attempt st; simp [attemptLoop]
  | succ fuel ih =>
    intro attempt st
    unfold attemptLoop
    split
    · simp only []
      split
      · simp
      · refine List.IsPrefix.trans ?_ (ih _ _)
        split <;> simp
    · simp

/-- An iteration that the loop condition admits starts an attempt at the current
clock. -/
theorem attemptLoop_first_start (retries : Int) (net : Nat → Attempt) (fuel attempt : Nat)
    (st : LoopState) (h : (attempt : Int) ≤ retries) :
    (st.starts ++ [st.clock]) <+: (attemptLoop retries net (fuel + 1) attempt st).2.starts := by
  unfold attemptLoop
  simp only [h, if_true]
  split
  · simp
  · by_cases hlt : (attempt : Int) < retries
    · simp only [hlt, if_true]
      exact attemptLoop_starts_prefix retries net fuel (attempt + 1)
        { clock := _, starts := st.starts ++ [st.clock], backoffs := _, lastError := _ }
    · simp only [hlt, if_false]
      exact attemptLoop_starts_prefix retries net fuel (attempt + 1)
        { clock := _, starts := st.starts ++ [st.clock], backoffs := _, lastError := _ }

/-- A direct fetch of a well-formed url with at least one attempt allowed starts its
first HTTP attempt at the instant `waitForRate` released it. -/
theorem request_first_attempt_at_release (svc : RequestService)
    (hostname : String → Option String) (url : String) (env : CallEnv) (d : String)
    (hd : hostname url = some d) (hR : 1 ≤ svc.retries) :
    (svc.request hostname url env).starts.head?
      = (svc.request hostname url env).released := by
  obtain ⟨_, hrel⟩ := request_service_paced svc hostname url env d hd
  have hstarts : (svc.request hostname url env).starts
      = (attemptLoop svc.retries env.net svc.retries.toNat 1
          { clock := (svc.rateLimiter.waitForRate d env.now env.sample env.lag).2,
            starts := [], backoffs := [], lastError := none }).2.starts := by
    simp only [RequestService.request, hd]
    split
    · rfl
    · split <;> rfl
  rw [hstarts, hrel]
  obtain ⟨n, hn⟩ : ∃ n, svc.retries.toNat = n + 1 :=
    ⟨svc.retries.toNat - 1, by
      have := Int.toNat_of_nonneg (show (0 : Int) ≤ svc.retries by omega)
      omega⟩
  rw [hn]
  have h1 : ((1 : Nat) : Int) ≤ svc.retries := by simpa using hR
  obtain ⟨t, ht⟩ := attemptLoop_first_start svc.retries env.net n 1
    { clock := (svc.rateLimiter.waitForRate d env.now env.sample env.lag).2,
      starts := [], backoffs := [], lastError := none } h1
  rw [← ht]
  simp [RateLimiter.waitForRate]

/-- C1 (amended). For every domain and every sequence of fetch calls through
`RequestService`, direct or rendered, that run one after another, with
`0 ≤ minDelay ≤ maxDelay`: the instants at which `waitForRate` releases the calls to
that domain (the timestamps it records) are pairwise at least `minDelay` apart, and
each is at least `minDelay` after the timestamp recorded for the domain before the
sequence; a direct fetch of a well-formed url with `retries ≥ 1` starts its first
HTTP attempt at the instant it is released. -/
theorem sequential_releases_spaced (hostname : String → Option String)
    (svc : RequestService) (calls : List FetchCall) (domain : String)
    (h0 : 0 ≤ svc.rateLimiter.minDelay)
    (h1 : svc.rateLimiter.minDelay ≤ svc.rateLimiter.maxDelay) :
    Spaced svc.rateLimiter.minDelay
        (releasesOf domain (dispatchAll hostname svc calls).2)
      ∧ (∀ t ∈ releasesOf domain (dispatchAll hostname svc calls).2,
          (mapGet svc.rateLimiter.requestTimes domain).getD 0
            + svc.rateLimiter.minDelay ≤ t)
      ∧ ∀ (url : String) (env : CallEnv) (d : String),
          hostname url = some d → 1 ≤ svc.retries →
          (svc.request hostname url env).starts.head?
            = (svc.request hostname url env).released := by
  have h := dispatchAll_chain hostname domain calls svc h0 h1
  unfold Spaced at h ⊢
  rw [List.pairwise_cons] at h
  exact ⟨h.2, h.1, fun url env d hd hR =>
    request_first_attempt_at_release svc hostname url env d hd hR⟩

/-- Witness for C1 (amended): three calls in a row under the default configuration,
a direct fetch, a rendered fetch and a direct fetch, all to `farside.co.uk`. -/
theorem sequential_releases_spaced_witness :
    (0 : Int) ≤ defaultService.rateLimiter.minDelay
      ∧ defaultService.rateLimiter.minDelay ≤ defaultService.rateLimiter.maxDelay
      ∧ releasesOf "farside.co.uk"
          (dispatchAll farsideHostname defaultService
            [FetchCall.direct farsideUrl firstCall,
             FetchCall.rendered farsideUrl renderCall,
             FetchCall.direct farsideUrl lateCall]).2 = [10000, 13800, 14800]
      ∧ Spaced defaultService.rateLimiter.minDelay
          (releasesOf "farside.co.uk"
            (dispatchAll farsideHostname defaultService
              [FetchCall.direct farsideUrl firstCall,
               FetchCall.rendered farsideUrl renderCall,
               FetchCall.direct farsideUrl lateCall]).2) :=
  ⟨by decide, by decide, by decide,
    (sequential_releases_spaced farsideHostname defaultService
      [FetchCall.direct farsideUrl firstCall,
       FetchCall.rendered farsideUrl renderCall,
       FetchCall.direct farsideUrl lateCall] "farside.co.uk"
      (by decide) (by decide)).1⟩

/-- C1 (counterexample). Under the default configuration (`minDelay = 1000`) two
direct fetches to one domain run one after another on a failing transport: the
third attempt of the first fetch starts at 13200 and the first attempt of the
second fetch at 13300, 100 ms apart. And two calls admitted together, both reading
the timestamp 9500 at time 10000, are both released at 10500, 0 ms apart. -/
theorem retries_and_overlap_break_pacing :
    (secondCall.now = (defaultService.request farsideHostname farsideUrl firstCall).finish
      ∧ (defaultService.request farsideHostname farsideUrl firstCall).starts
          = [10000, 11100, 13200]
      ∧ ((defaultService.request farsideHostname farsideUrl firstCall).service.request
            farsideHostname farsideUrl secondCall).starts = [13300, 14400, 16500]
      ∧ ¬ Spaced defaultService.rateLimiter.minDelay
          ((defaultService.request farsideHostname farsideUrl firstCall).starts
            ++ ((defaultService.request farsideHostname farsideUrl firstCall).service.request
                  farsideHostname farsideUrl secondCall).starts))
    ∧ ((pacedLimiter.waitForRateOverlapped "farside.co.uk"
          10000 zeroSample 0 10000 zeroSample 0).2 = (10500, 10500)
      ∧ ¬ Spaced pacedLimiter.minDelay [10500, 10500]) := by
  decide

/-! ## Retry -/

/-- The loop starts at most as many attempts as iterations are left. -/
theorem attemptLoop_starts_le (retries : Int) (net : Nat → Attempt) (fuel : Nat) :
    ∀ (attempt : Nat) (st : LoopState),
      (attemptLoop retries net fuel attempt st).2.starts.length
        ≤ st.starts.length + fuel := by
  induction fuel with
  | zero => intro attempt st; simp [attemptLoop]
  | succ fuel ih =>
    intro attempt st
    unfold attemptLoop
    split
    · simp only []
      split
      · simp
      · refine le_trans (ih _ _) ?_
        split <;> simp <;> omega
    · simp

/-- On a transport that fails every remaining attempt the loop runs out after
starting all of them, holding the error of the last one. -/
theorem attemptLoop_all_fail (retries : Int) (net : Nat → Attempt) (fuel : Nat) :
    ∀ (attempt : Nat) (st : LoopState),
      (attempt : Int) + fuel = retries + 1 →
      (∀ k : Nat, attempt ≤ k → (k : Int) ≤ retries → ∃ e, (net k).outcome = .error e) →
      (attemptLoop retries net fuel attempt st).1 = none
        ∧ (attemptLoop retries net fuel attempt st).2.starts.length
            = st.starts.length + fuel
        ∧ (0 < fuel → ∃ e, (net retries.toNat).outcome = .error e
            ∧ (attemptLoop retries net fuel attempt st).2.lastError = some e) := by
  induction fuel with
  | zero => intro attempt st _ _; simp [attemptLoop]
  | succ fuel ih =>
    intro attempt st hsum hfail
    have hle : (attempt : Int) ≤ retries := by push_cast at hsum; omega
    obtain ⟨e, he⟩ := hfail attempt (le_refl _) hle
    unfold attemptLoop
    simp only [hle, if_true, he]
    have hrec := ih (attempt + 1)
      (if (attempt : Int) < retries then
        { clock := st.clock + (net attempt).duration + 1000 * attempt + (net attempt).lag,
          starts := st.starts ++ [st.clock],
          backoffs := st.backoffs ++ [1000 * (attempt : Int)],
          lastError := some e }
       else
        { clock := st.clock + (net attempt).duration,
          starts := st.starts ++ [st.clock],
          backoffs := st.backoffs,
          lastError := some e })
      (by push_cast at hsum ⊢; omega)
      (fun k hk hkr => hfail k (by omega) hkr)
    obtain ⟨h1, h2, h3⟩ := hrec
    refine ⟨h1, ?_, ?_⟩
    · rw [h2]; split <;> simp <;> omega
    · intro _
      by_cases hf : 0 < fuel
      · exact h3 hf
      · have hf0 : fuel = 0 := by omega
        subst hf0
        have hat : retries.toNat = attempt := by push_cast at hsum; omega
        refine ⟨e, by rw [hat]; exact he, ?_⟩
        simp only [attemptLoop]
        split <;> rfl

/-- When attempt `k` is the first remaining one to succeed, the loop returns its
answer after starting the attempts up to `k`. -/
theorem attemptLoop_first_success (retries : Int) (net : Nat → Attempt) (fuel : Nat) :
    ∀ (attempt : Nat) (st : LoopState) (k : Nat) (resp : HttpResponse),
      (attempt : Int) + fuel = retries + 1 →
      attempt ≤ k → (k : Int) ≤ retries →
      (∀ j : Nat, attempt ≤ j → j < k → ∃ e, (net j).outcome = .error e) →
      (net k).outcome = .ok resp →
      (attemptLoop retries net fuel attempt st).1 = some (successResult resp)
        ∧ (attemptLoop retries net fuel attempt st).2.starts.length
            = st.starts.length + (k + 1 - attempt) := by
  induction fuel with
  | zero =>
    intro attempt st k resp hsum hk hkr _ _
    exfalso; push_cast at hsum; omega
  | succ fuel ih =>
    intro attempt st k resp hsum hk hkr hfail hok
    have hle : (attempt : Int) ≤ retries := by omega
    unfold attemptLoop
    simp only [hle, if_true]
    by_cases hka : k = attempt
    · subst hka
      simp [hok]
    · obtain ⟨e, he⟩ := hfail attempt (le_refl _) (by omega)
      simp only [he]
      have hrec := ih (attempt + 1)
        (if (attempt : Int) < retries then
          { clock := st.clock + (net attempt).duration + 1000 * attempt + (net attempt).lag,
            starts := st.starts ++ [st.clock],
            backoffs := st.backoffs ++ [1000 * (attempt : Int)],
            lastError := some e }
         else
          { clock := st.clock + (net attempt).duration,
            starts := st.starts ++ [st.clock],
            backoffs := st.backoffs,
            lastError := some e }) k resp
        (by push_cast at hsum ⊢; omega) (by omega) hkr
        (fun j hj hjk => hfail j (by omega) hjk) hok
      obtain ⟨h1, h2⟩ := hrec
      refine ⟨h1, ?_⟩
      rw [h2]; split <;> simp <;> omega


/-- C2. For every direct fetch `request(url)` with retry limit `R ≥ 1`: at most `R`
HTTP attempts are made; for a url the parser accepts, when every attempt fails
exactly `R` attempts are made and the call returns a result with `success = false`,
and when attempt `k` is the first to succeed exactly `k` attempts are made and the
call returns a result with `success = true` holding that attempt's data, status
and headers. -/
theorem request_attempt_count (svc : RequestService) (hostname : String → Option String)
    (url : String) (env : CallEnv) (hR : 1 ≤ svc.retries) :
    ((svc.request hostname url env).starts.length : Int) ≤ svc.retries
    ∧ (∀ d, hostname url = some d →
        (∀ k : Nat, 1 ≤ k → (k : Int) ≤ svc.retries →
          ∃ e, (env.net k).outcome = .error e) →
        ((svc.request hostname url env).starts.length : Int) = svc.retries
        ∧ ∃ r, (svc.request hostname url env).outcome = .ok r ∧ r.success = false)
    ∧ (∀ d (k : Nat) (resp : HttpResponse), hostname url = some d →
        1 ≤ k → (k : Int) ≤ svc.retries →
        (∀ j : Nat, 1 ≤ j → j < k → ∃ e, (env.net j).outcome = .error e) →
        (env.net k).outcome = .ok resp →
        (svc.request hostname url env).starts.length = k
        ∧ ∃ r, (svc.request hostname url env).outcome = .ok r ∧ r.success = true
            ∧ r.data = some resp.data ∧ r.status = some resp.status
            ∧ r.headers = some resp.headers) := by
  have hfuel : ((1 : Nat) : Int) + (svc.retries.toNat : Nat) = svc.retries + 1 := by
    have := Int.toNat_of_nonneg (show (0 : Int) ≤ svc.retries by omega)
    push_cast; omega
  refine ⟨?_, ?_, ?_⟩
  · cases hd : hostname url with
    | none =>
      simp only [RequestService.request, hd]
      simp; omega
    | some d =>
      have hb := attemptLoop_starts_le svc.retries env.net svc.retries.toNat 1
        { clock := (svc.rateLimiter.waitForRate d env.now env.sample env.lag).2,
          starts := [], backoffs := [], lastError := none }
      have hlen : (svc.request hostname url env).starts
          = (attemptLoop svc.retries env.net svc.retries.toNat 1
              { clock := (svc.rateLimiter.waitForRate d env.now env.sample env.lag).2,
                starts := [], backoffs := [], lastError := none }).2.starts := by
        simp only [RequestService.request, hd]
        split
        · rfl
        · split <;> rfl
      rw [hlen]
      simp only [List.length_nil, zero_add] at hb
      have := Int.toNat_of_nonneg (show (0 : Int) ≤ svc.retries by omega)
      omega
  · intro d hd hfail
    obtain ⟨h1, h2, h3⟩ := attemptLoop_all_fail svc.retries env.net svc.retries.toNat 1
      { clock := (svc.rateLimiter.waitForRate d env.now env.sample env.lag).2,
        starts := [], backoffs := [], lastError := none } hfuel
      (fun k hk hkr => hfail k hk hkr)
    have hpos : 0 < svc.retries.toNat := by
      have := Int.toNat_of_nonneg (show (0 : Int) ≤ svc.retries by omega)
      omega
    obtain ⟨e, _, he⟩ := h3 hpos
    simp only [RequestService.request, hd, h1, he]
    refine ⟨?_, _, rfl, rfl⟩
    rw [h2]
    have := Int.toNat_of_nonneg (show (0 : Int) ≤ svc.retries by omega)
    simp only [List.length_nil, zero_add]
    omega
  · intro d k resp hd hk hkr hfail hok
    obtain ⟨h1, h2⟩ := attemptLoop_first_success svc.retries env.net svc.retries.toNat 1
      { clock := (svc.rateLimiter.waitForRate d env.now env.sample env.lag).2,
        starts := [], backoffs := [], lastError := none } k resp hfuel hk hkr
      (fun j hj hjk => hfail j hj hjk) hok
    simp only [RequestService.request, hd, h1]
    refine ⟨?_, _, rfl, rfl, rfl, rfl, rfl⟩
    rw [h2]
    simp

/-- Witness for C2: with `R = 3`, the failing transport makes exactly 3 attempts
and yields a failure, and the transport whose second attempt answers 200 makes
exactly 2 attempts and yields that answer. -/
theorem request_attempt_count_witness :
    (1 : Int) ≤ defaultService.retries
      ∧ (((defaultService.request farsideHostname farsideUrl firstCall).starts.length : Int)
            = defaultService.retries
          ∧ ∃ r, (defaultService.request farsideHostname farsideUrl firstCall).outcome = .ok r
              ∧ r.success = false)
      ∧ (defaultService.request farsideHostname farsideUrl recoveringCall).starts.length = 2 :=
  ⟨by decide,
    (request_attempt_count defaultService farsideHostname farsideUrl firstCall
      (by decide)).2.1 "farside.co.uk" (by decide) (fun _ _ _ => ⟨_, rfl⟩),
    ((request_attempt_count defaultService farsideHostname farsideUrl recoveringCall
      (by decide)).2.2 "farside.co.uk" 2
        { status := 200, data := "<html></html>", headers := [], configUrl := farsideUrl }
        (by decide) (by decide) (by decide)
        (fun j h1 h2 => by
          have hj : j = 1 := by omega
          subst hj
          exact ⟨_, rfl⟩)
        rfl).1⟩

/-! ## Crawl lifecycle -/

/-- Invoking a routine, in closed form. -/
theorem callRoutine_eq (i : Invocation) (r : Routine) (w : World) :
    callRoutine i r w =
      ((match r.result with
        | .ok v => .ok v
        | .error e => .error e),
       { w with calls := w.calls ++ [i],
                crawler := r.fetched.foldl BaseCrawler.countFetch w.crawler }) := by
  unfold callRoutine
  cases h : r.result <;>
    simp [h, bind, Eff.bind, noteCall, modifyCrawler, Eff.pure, Eff.throw]

/-- An admitted `run`, in terms of its `try` block. -/
theorem run_admitted_eq (force : Bool) (env : RunEnv) (w : World)
    (h : w.crawler.isRunning = false) :
    run force env w =
      match runBody force env { w with crawler := w.crawler.enter env.startTime } with
      | (.ok b, w1) => (.ok b, { w1 with crawler := w1.crawler.release })
      | (.error e, w1) =>
        (.ok false,
          { w1 with crawler := w1.crawler.release,
                    log := w1.log ++ [{ level := "error", message := "爬虫运行失败",
                                        error := some e.message }] }) := by
  unfold run
  simp only [h, Bool.false_eq_true, if_false]
  simp only [bind, Eff.bind, modifyCrawler, Eff.tryFinally, Eff.tryCatch]
  rcases hbody : runBody force env
    { crawler := w.crawler.enter env.startTime, calls := w.calls, log := w.log }
    with ⟨e | b, w1⟩
  · simp [logLine, Eff.pure]
  · simp

/-- An admitted `run` returns a boolean with the slot released. -/
theorem run_releases (force : Bool) (env : RunEnv) (w : World)
    (h : w.crawler.isRunning = false) :
    (run force env w).2.crawler.isRunning = false
      ∧ ∃ b, (run force env w).1 = .ok b := by
  rw [run_admitted_eq force env w h]
  split <;> simp [BaseCrawler.release]

/-- The body of `runHistoricalCrawl` and of `runDailyCrawl` equals its closed form. -/
theorem phase_eq (env : RunEnv) (i : Invocation) (r : Routine) (dataType : String)
    (savedMsg failedMsg emptyMsg caughtMsg : String) (w : World) :
    Eff.tryCatch
        (do
          let value ← callRoutine i r
          persistPhase env value dataType savedMsg failedMsg emptyMsg)
        (fun error => do
          logLine "error" caughtMsg (some error.message)
          Eff.throw error) w
      = phaseClosed env i r dataType savedMsg failedMsg emptyMsg caughtMsg w := by
  unfold phaseClosed Eff.tryCatch
  simp only [bind, Eff.bind, callRoutine_eq, afterRoutine]
  rcases hr : r.result with e | (_ | data)
  · simp [logLine, Eff.throw]
  · simp [persistPhase, logLine]
  · by_cases hlen : data.length > 0
    · simp only [persistPhase, hlen, if_true, bind, Eff.bind, callSaveData, getCrawler,
        noteCall]
      rcases hs : env.saveData (List.foldl BaseCrawler.countFetch w.crawler r.fetched).name
        data dataType with e | (_ | _)
      · simp [logLine, Eff.throw]
      · simp [logLine, Eff.throw, Eff.pure]
      · simp [logLine, Eff.pure, modifyCrawler, Eff.bind]
    · simp [persistPhase, hlen, logLine]

/-- Closed form of `runHistoricalCrawl`. -/
theorem runHistoricalCrawl_eq (env : RunEnv) (w : World) :
    runHistoricalCrawl env w = historicalClosed env w := by
  unfold runHistoricalCrawl historicalClosed
  exact phase_eq env _ _ _ _ _ _ _ w

/-- Closed form of `runDailyCrawl`. -/
theorem runDailyCrawl_eq (env : RunEnv) (w : World) :
    runDailyCrawl env w = dailyClosed env w := by
  unfold runDailyCrawl dailyClosed
  exact phase_eq env _ _ _ _ _ _ _ w

/-- Closed form of the `try` block of `run`. -/
theorem runBody_eq (force : Bool) (env : RunEnv) (w : World) :
    runBody force env w =
      let w1 : World :=
        { w.logged "info" "开始运行爬虫" with
          calls := w.calls ++ [Invocation.hasHistoricalData w.crawler.name] }
      match env.hasHistoricalData w.crawler.name with
      | .error e => (.error e, w1)
      | .ok b =>
        if !b || force then
          match historicalClosed env (w1.logged "info" "开始爬取历史数据") with
          | (.error e, w2) => (.error e, w2)
          | (.ok _, w2) => finishClosed env w2
        else finishClosed env (w1.logged "info" "历史数据已存在，跳过历史数据爬取") := by
  unfold runBody finishClosed
  rcases hh : env.hasHistoricalData w.crawler.name with e | b
  · simp [bind, Eff.bind, logLine, callHasHistoricalData, getCrawler, noteCall,
      World.logged, hh, Eff.throw]
  · by_cases hc : (!b || force) = true
    · simp only [bind, Eff.bind, logLine, callHasHistoricalData, getCrawler, noteCall,
        World.logged, runHistoricalCrawl_eq, runDailyCrawl_eq, hh, Eff.pure, hc, if_true,
        modifyCrawler]
      rcases historicalClosed env _ with ⟨e | u, w2⟩
      · rfl
      · simp only []
        rcases dailyClosed env _ with ⟨e | u, w3⟩ <;> rfl
    · simp only [bind, Eff.bind, logLine, callHasHistoricalData, getCrawler, noteCall,
        World.logged, runHistoricalCrawl_eq, runDailyCrawl_eq, hh, Eff.pure, hc,
        Bool.false_eq_true, if_false, modifyCrawler]
      rcases dailyClosed env _ with ⟨e | u, w3⟩ <;> rfl

/-- Counting fetches changes neither the run flag, nor the name, nor the records. -/
theorem foldl_countFetch_frame (flags : List Bool) :
    ∀ c : BaseCrawler,
      (flags.foldl BaseCrawler.countFetch c).isRunning = c.isRunning
      ∧ (flags.foldl BaseCrawler.countFetch c).name = c.name
      ∧ (flags.foldl BaseCrawler.countFetch c).stats.totalRecords = c.stats.totalRecords := by
  induction flags with
  | nil => intro c; simp
  | cons b rest ih =>
    intro c
    simp only [List.foldl_cons]
    obtain ⟨h1, h2, h3⟩ := ih (c.countFetch b)
    rw [h1, h2, h3]
    cases b <;> simp [BaseCrawler.countFetch]

/-- What a phase leaves behind: the flag and the name as they were, one more
routine invoked, and the records of the routine added exactly when the phase
completed. -/
theorem phaseClosed_facts (env : RunEnv) (i : Invocation) (r : Routine) (dataType : String)
    (savedMsg failedMsg emptyMsg caughtMsg : String) (w : World)
    (hi : i.isRoutine = true) :
    (phaseClosed env i r dataType savedMsg failedMsg emptyMsg caughtMsg w).2.crawler.isRunning
        = w.crawler.isRunning
    ∧ (phaseClosed env i r dataType savedMsg failedMsg emptyMsg caughtMsg w).2.crawler.name
        = w.crawler.name
    ∧ routineCalls (phaseClosed env i r dataType savedMsg failedMsg emptyMsg caughtMsg w).2
        = routineCalls w ++ [i]
    ∧ (∀ u, (phaseClosed env i r dataType savedMsg failedMsg emptyMsg caughtMsg w).1 = .ok u →
        (phaseClosed env i r dataType savedMsg failedMsg emptyMsg caughtMsg
            w).2.crawler.stats.totalRecords
          = w.crawler.stats.totalRecords + r.records)
    ∧ (∀ e, (phaseClosed env i r dataType savedMsg failedMsg emptyMsg caughtMsg w).1 = .error e →
        (phaseClosed env i r dataType savedMsg failedMsg emptyMsg caughtMsg
            w).2.crawler.stats.totalRecords
          = w.crawler.stats.totalRecords) := by
  obtain ⟨f1, f2, f3⟩ := foldl_countFetch_frame r.fetched w.crawler
  have hsave : ∀ n d t, Invocation.isRoutine (Invocation.saveData n d t) = false :=
    fun _ _ _ => rfl
  unfold phaseClosed Routine.records routineCalls afterRoutine
  rcases hr : r.result with e | (_ | data)
  · simp [f1, f2, f3, hi]
  · simp [f1, f2, f3, hi]
  · by_cases hlen : data.length > 0
    · simp only [hlen, if_true]
      rcases hs : env.saveData (List.foldl BaseCrawler.countFetch w.crawler r.fetched).name
        data dataType with e | (_ | _)
      · simp [f1, f2, f3, hi, hsave, List.filter_cons]
      · simp [f1, f2, f3, hi, hsave, List.filter_cons]
      · simp [f1, f2, f3, hi, hsave, BaseCrawler.addRecords, List.filter_cons]
    · have : data.length = 0 := by omega
      simp [hlen, f1, f2, f3, hi, this]

/-- Logging invokes no routine. -/
theorem routineCalls_logged (w : World) (level message : String) :
    routineCalls (w.logged level message) = routineCalls w := rfl

/-- The tail of `run` invokes the incremental routine and, when it completes, adds
its records. -/
theorem finishClosed_facts (env : RunEnv) (w : World) :
    routineCalls (finishClosed env w).2 = routineCalls w ++ [Invocation.crawlDailyData]
    ∧ (∀ b, (finishClosed env w).1 = .ok b →
        b = true
        ∧ (finishClosed env w).2.crawler.stats.totalRecords
            = w.crawler.stats.totalRecords + env.daily.records) := by
  obtain ⟨_, _, g3, g4, _⟩ := phaseClosed_facts env Invocation.crawlDailyData env.daily
    "daily" "每日数据保存成功" "每日数据保存失败" "未获取到每日数据" "每日数据爬取失败"
    (w.logged "info" "开始爬取每日数据") rfl
  unfold finishClosed dailyClosed
  rcases hD : phaseClosed env Invocation.crawlDailyData env.daily
    "daily" "每日数据保存成功" "每日数据保存失败" "未获取到每日数据" "每日数据爬取失败"
    (w.logged "info" "开始爬取每日数据") with ⟨e | u, w3⟩
  · rw [hD] at g3
    simp only [routineCalls_logged] at g3
    exact ⟨g3, fun b hb => by cases hb⟩
  · rw [hD] at g3 g4
    simp only [routineCalls_logged] at g3
    refine ⟨g3, fun b hb => ?_⟩
    have := g4 u rfl
    simp only [World.logged] at this ⊢
    cases hb
    exact ⟨rfl, this⟩

/-- What an admitted run did, for a storage check that returned `b`: which routines
it invoked, and the record count of a run that returned `true`. -/
theorem run_summary (force : Bool) (env : RunEnv) (c : BaseCrawler) (b : Bool)
    (h : c.isRunning = false) (hb : env.hasHistoricalData c.name = .ok b) :
    ((!b || force) = true →
        (routineCalls (run force env (World.fresh c)).2
            = [Invocation.crawlHistoricalData, Invocation.crawlDailyData]
          ∨ (routineCalls (run force env (World.fresh c)).2 = [Invocation.crawlHistoricalData]
              ∧ (run force env (World.fresh c)).1 = .ok false)))
    ∧ ((!b || force) = false →
        routineCalls (run force env (World.fresh c)).2 = [Invocation.crawlDailyData])
    ∧ ((run force env (World.fresh c)).1 = .ok true →
        (run force env (World.fresh c)).2.crawler.stats.totalRecords
          = (if (!b || force) = true then env.historical.records else 0)
            + env.daily.records) := by
  have hfresh : (World.fresh c).crawler.isRunning = false := h
  rw [run_admitted_eq force env _ hfresh, runBody_eq]
  have hname : (c.enter env.startTime).name = c.name := rfl
  simp only [World.fresh, hname, hb]
  by_cases hc : (!b || force) = true
  · simp only [hc, if_true]
    obtain ⟨_, _, g3, g4, _⟩ := phaseClosed_facts env Invocation.crawlHistoricalData
      env.historical "historical" "历史数据保存成功" "历史数据保存失败" "未获取到历史数据"
      "历史数据爬取失败"
      (World.logged
        { World.logged { crawler := c.enter env.startTime, calls := [], log := [] }
            "info" "开始运行爬虫" with
          calls := [] ++ [Invocation.hasHistoricalData c.name] }
        "info" "开始爬取历史数据") rfl
    unfold historicalClosed
    rcases hH : phaseClosed env Invocation.crawlHistoricalData
      env.historical "historical" "历史数据保存成功" "历史数据保存失败" "未获取到历史数据"
      "历史数据爬取失败" _ with ⟨e | u, w2⟩
    · rw [hH] at g3
      simp only [routineCalls, World.logged, List.nil_append, List.filter_cons,
        Invocation.isRoutine, List.filter_nil] at g3
      simp [routineCalls, g3]
    · rw [hH] at g3 g4
      obtain ⟨k1, k2⟩ := finishClosed_facts env w2
      have g4u := g4 u rfl
      simp only [routineCalls, World.logged, List.nil_append, List.filter_cons,
        Invocation.isRoutine, List.filter_nil] at g3
      simp only [World.logged, BaseCrawler.enter, BaseCrawler.resetStats] at g4u
      rcases hF : finishClosed env w2 with ⟨e | b2, w3⟩
      · rw [hF] at k1
        simp only [routineCalls] at k1 g3
        simp [routineCalls, k1, g3, hF]
      · rw [hF] at k1 k2
        obtain ⟨k3, k4⟩ := k2 b2 rfl
        simp only [routineCalls] at k1 g3
        subst k3
        have k5 : w3.crawler.stats.totalRecords
            = w2.crawler.stats.totalRecords + env.daily.records := k4
        simp [routineCalls, k1, g3, BaseCrawler.release, hF]
        omega
  · simp only [hc, if_false, Bool.false_eq_true]
    obtain ⟨k1, k2⟩ := finishClosed_facts env
      (World.logged
        { World.logged { crawler := c.enter env.startTime, calls := [], log := [] }
            "info" "开始运行爬虫" with
          calls := [] ++ [Invocation.hasHistoricalData c.name] }
        "info" "历史数据已存在，跳过历史数据爬取")
    rcases hF : finishClosed env _ with ⟨e | b2, w3⟩
    · rw [hF] at k1
      simp only [routineCalls, World.logged, List.nil_append, List.filter_cons,
        Invocation.isRoutine, List.filter_nil] at k1
      simp [routineCalls, k1, hF]
    · rw [hF] at k1 k2
      obtain ⟨k3, k4⟩ := k2 b2 rfl
      simp only [routineCalls, World.logged, List.nil_append, List.filter_cons,
        Invocation.isRoutine, List.filter_nil] at k1
      simp only [World.logged, BaseCrawler.enter, BaseCrawler.resetStats] at k4
      subst k3
      simp [routineCalls, k1, BaseCrawler.release, k4, hF]

/-- A routine was called exactly when it is among the routines invoked. -/
theorem mem_calls_routine (w : World) (i : Invocation) (hi : i.isRoutine = true) :
    i ∈ w.calls ↔ i ∈ routineCalls w := by
  simp [routineCalls, List.mem_filter, hi]

/-- C3 (amended). For every run that is admitted (`isRunning` false at the call)
and whose storage check `hasHistoricalData(name)` returns `b`: `crawlHistoricalData`
is invoked if and only if `b` is false or `forceHistorical` is true; when `b` is
true and `forceHistorical` is false the only routine invoked is `crawlDailyData`;
and in every run that returns `true` the routines invoked are, in this order,
the historical one (if the condition holds) and then the incremental one. -/
theorem historical_phase_iff (force : Bool) (env : RunEnv) (c : BaseCrawler) (b : Bool)
    (h : c.isRunning = false) (hb : env.hasHistoricalData c.name = .ok b) :
    (Invocation.crawlHistoricalData ∈ (run force env (World.fresh c)).2.calls
        ↔ (b = false ∨ force = true))
    ∧ (b = true → force = false →
        routineCalls (run force env (World.fresh c)).2 = [Invocation.crawlDailyData])
    ∧ ((run force env (World.fresh c)).1 = .ok true →
        routineCalls (run force env (World.fresh c)).2
          = if b = false ∨ force = true then
              [Invocation.crawlHistoricalData, Invocation.crawlDailyData]
            else [Invocation.crawlDailyData]) := by
  obtain ⟨s1, s2, _⟩ := run_summary force env c b h hb
  have hcond : ((!b || force) = true) ↔ (b = false ∨ force = true) := by
    cases b <;> cases force <;> simp
  rw [mem_calls_routine _ Invocation.crawlHistoricalData rfl]
  refine ⟨?_, ?_, ?_⟩
  · by_cases hc : (!b || force) = true
    · have hyes := hcond.mp hc
      rcases s1 hc with e | ⟨e, _⟩ <;> simp [e, hyes]
    · have hno : ¬ (b = false ∨ force = true) := fun hx => hc (hcond.mpr hx)
      have e := s2 (by simpa using hc)
      simp [e, hno]
  · intro hb1 hf
    subst hb1 hf
    exact s2 rfl
  · intro hok
    by_cases hc : (!b || force) = true
    · have hyes := hcond.mp hc
      rcases s1 hc with e | ⟨_, e⟩
      · simp [e, hyes]
      · rw [hok] at e; cases e
    · have hno : ¬ (b = false ∨ force = true) := fun hx => hc (hcond.mpr hx)
      have e := s2 (by simpa using hc)
      simp [e, hno]

/-- Witness for C3 (amended): an idle crawler whose storage already has data, run
with `forceHistorical = true`. -/
theorem historical_phase_iff_witness :
    idleCrawler.isRunning = false
      ∧ dailyRaisesEnv.hasHistoricalData idleCrawler.name = .ok true
      ∧ (Invocation.crawlHistoricalData
            ∈ (run true dailyRaisesEnv (World.fresh idleCrawler)).2.calls
          ↔ (true = false ∨ true = true)) :=
  ⟨rfl, rfl, (historical_phase_iff true dailyRaisesEnv idleCrawler true rfl rfl).1⟩

/-- C3 (counterexample). A crawler with a run active is called with
`forceHistorical = true` while storage has no historical data: the right-hand side
of the claimed equivalence holds, yet `run` makes no call at all, so
`crawlHistoricalData` is not invoked. -/
theorem busy_run_skips_historical :
    busyCrawler.isRunning = true
      ∧ healthyEnv.hasHistoricalData busyCrawler.name = .ok false
      ∧ (run true healthyEnv (World.fresh busyCrawler)).2.calls = []
      ∧ ¬ (Invocation.crawlHistoricalData
              ∈ (run true healthyEnv (World.fresh busyCrawler)).2.calls
            ↔ (false = false ∨ true = true)) :=
  ⟨rfl, rfl, rfl, by decide⟩

/-- The guard of `run`: a call on a running crawler only logs a warning. -/
theorem run_rejected_eq (force : Bool) (env : RunEnv) (w : World)
    (h : w.crawler.isRunning = true) :
    run force env w = (.ok false,
      { w with log := w.log ++ [{ level := "warn", message := "爬虫已在运行中",
                                  error := none }] }) := by
  simp [run, h, logLine, Eff.pure, bind, Eff.bind]

/-- C4. For every crawler state with `isRunning = true`, `run()` returns `false` at
once and changes nothing: the crawler object is the same afterwards (so the
counters, `startTime` and `isRunning = true` are untouched) and no call was made to
storage or to an acquisition routine; the only effect is the logged warning. -/
theorem run_rejected_when_running (force : Bool) (env : RunEnv) (w : World)
    (h : w.crawler.isRunning = true) :
    (run force env w).1 = .ok false
      ∧ (run force env w).2.crawler = w.crawler
      ∧ (run force env w).2.calls = w.calls
      ∧ (run force env w).2.log
          = w.log ++ [{ level := "warn", message := "爬虫已在运行中", error := none }] := by
  rw [run_rejected_eq force env w h]
  exact ⟨rfl, rfl, rfl, rfl⟩

/-- Witness for C4: the crawler with a run active, called with the healthy
environment. -/
theorem run_rejected_when_running_witness :
    (World.fresh busyCrawler).crawler.isRunning = true
      ∧ (run true healthyEnv (World.fresh busyCrawler)).1 = .ok false
      ∧ (run true healthyEnv (World.fresh busyCrawler)).2.crawler = busyCrawler
      ∧ (run true healthyEnv (World.fresh busyCrawler)).2.calls = [] :=
  ⟨rfl, (run_rejected_when_running true healthyEnv (World.fresh busyCrawler) rfl).1,
    (run_rejected_when_running true healthyEnv (World.fresh busyCrawler) rfl).2.1,
    (run_rejected_when_running true healthyEnv (World.fresh busyCrawler) rfl).2.2.1⟩

/-- C6. For every `run()` that was admitted (`isRunning` false at the call), whatever
storage and the routines do (return, return `false`, raise), `isRunning` is false
when `run()` returns, and `run()` does not raise: it returns a boolean. -/
theorem run_always_releases (force : Bool) (env : RunEnv) (w : World)
    (h : w.crawler.isRunning = false) :
    (run force env w).2.crawler.isRunning = false
      ∧ ∃ b, (run force env w).1 = .ok b :=
  run_releases force env w h

/-- Witness for C6: an idle crawler whose historical `saveData` answers `false`. -/
theorem run_always_releases_witness :
    (World.fresh idleCrawler).crawler.isRunning = false
      ∧ (run false failingSaveEnv (World.fresh idleCrawler)).2.crawler.isRunning = false
      ∧ ∃ b, (run false failingSaveEnv (World.fresh idleCrawler)).1 = .ok b :=
  ⟨rfl, run_always_releases false failingSaveEnv (World.fresh idleCrawler) rfl⟩

/-- The run fails when the storage check raises. -/
theorem run_fails_when_check_raises (force : Bool) (env : RunEnv) (c : BaseCrawler)
    (e : JsError) (h : c.isRunning = false)
    (hb : env.hasHistoricalData c.name = .error e) :
    (run force env (World.fresh c)).1 = .ok false := by
  have hfresh : (World.fresh c).crawler.isRunning = false := h
  rw [run_admitted_eq force env _ hfresh, runBody_eq]
  have hname : (c.enter env.startTime).name = c.name := rfl
  simp only [World.fresh, hname, hb]

/-- C8. After every successful `run()`, whatever the counters were before the run,
`totalRecords` is the number of records the historical routine returned, counted
only if the historical phase executed, plus the number of records the incremental
routine returned. -/
theorem successful_run_totalRecords (force : Bool) (env : RunEnv) (c : BaseCrawler)
    (hok : (run force env (World.fresh c)).1 = .ok true) :
    ∃ b, env.hasHistoricalData c.name = .ok b
      ∧ (run force env (World.fresh c)).2.crawler.stats.totalRecords
          = (if b = false ∨ force = true then env.historical.records else 0)
            + env.daily.records := by
  cases h : c.isRunning with
  | true =>
    have hfresh : (World.fresh c).crawler.isRunning = true := h
    rw [run_rejected_eq force env _ hfresh] at hok
    cases hok
  | false =>
    rcases hb : env.hasHistoricalData c.name with e | b
    · rw [run_fails_when_check_raises force env c e h hb] at hok
      cases hok
    · refine ⟨b, rfl, ?_⟩
      obtain ⟨_, _, s3⟩ := run_summary force env c b h hb
      rw [s3 hok]
      cases b <;> cases force <;> simp

/-- Witness for C8: the healthy environment on a crawler whose counters show 40
records from an earlier run; 3 historical and 1 incremental record give 4. -/
theorem successful_run_totalRecords_witness :
    (run false healthyEnv (World.fresh idleCrawler)).1 = .ok true
      ∧ idleCrawler.stats.totalRecords = 40
      ∧ (run false healthyEnv (World.fresh idleCrawler)).2.crawler.stats.totalRecords = 4
      ∧ ∃ b, healthyEnv.hasHistoricalData idleCrawler.name = .ok b
          ∧ (run false healthyEnv (World.fresh idleCrawler)).2.crawler.stats.totalRecords
              = (if b = false ∨ false = true then healthyEnv.historical.records else 0)
                + healthyEnv.daily.records :=
  ⟨rfl, rfl, rfl, successful_run_totalRecords false healthyEnv idleCrawler rfl⟩

/-- C7 (amended). If `storage.saveData` returns `false` while persisting a non-empty
historical result of an admitted run whose historical phase executes, the run
fails: `run()` returns `false` (it does not raise), `crawlDailyData` is never
invoked, `totalRecords` is not increased (it is `0`, as the reset left it), the run
slot is released, and the persistence error raised by `runHistoricalCrawl` is
logged by `runHistoricalCrawl` and by `run()`; what the caller of `run()` receives
is the boolean alone. -/
theorem historical_save_failure_fails_run (force : Bool) (env : RunEnv) (c : BaseCrawler)
    (b : Bool) (data : List Record)
    (h : c.isRunning = false) (hb : env.hasHistoricalData c.name = .ok b)
    (hphase : b = false ∨ force = true)
    (hdata : env.historical.result = .ok (some data)) (hlen : 0 < data.length)
    (hsave : env.saveData c.name data "historical" = .ok false) :
    (run force env (World.fresh c)).1 = .ok false
      ∧ Invocation.crawlDailyData ∉ (run force env (World.fresh c)).2.calls
      ∧ (run force env (World.fresh c)).2.crawler.stats.totalRecords = 0
      ∧ (run force env (World.fresh c)).2.crawler.isRunning = false
      ∧ ({ level := "error", message := "历史数据爬取失败", error := some "历史数据保存失败" }
            : LogEntry) ∈ (run force env (World.fresh c)).2.log
      ∧ ({ level := "error", message := "爬虫运行失败", error := some "历史数据保存失败" }
            : LogEntry) ∈ (run force env (World.fresh c)).2.log := by
  have hfresh : (World.fresh c).crawler.isRunning = false := h
  have hc : (!b || force) = true := by
    rcases hphase with hx | hx <;> subst hx <;> simp
  obtain ⟨_, f2, f3⟩ := foldl_countFetch_frame env.historical.fetched (c.enter env.startTime)
  have hname : (c.enter env.startTime).name = c.name := rfl
  rw [hname] at f2
  have hzero : (c.enter env.startTime).stats.totalRecords = 0 := rfl
  rw [hzero] at f3
  rw [run_admitted_eq force env _ hfresh, runBody_eq]
  simp only [World.fresh, hname, hb, hc, if_true, historicalClosed, phaseClosed,
    afterRoutine, World.logged, hdata, hlen, gt_iff_lt, f2, hsave]
  simp [BaseCrawler.release, f3, Invocation.isRoutine]

/-- Witness for C7 (amended): an idle crawler, no historical data in storage, three
historical records, and a `saveData` that answers `false` for them. -/
theorem historical_save_failure_fails_run_witness :
    idleCrawler.isRunning = false
      ∧ failingSaveEnv.hasHistoricalData idleCrawler.name = .ok false
      ∧ failingSaveEnv.historical.result = .ok (some ["r1", "r2", "r3"])
      ∧ failingSaveEnv.saveData idleCrawler.name ["r1", "r2", "r3"] "historical" = .ok false
      ∧ (run false failingSaveEnv (World.fresh idleCrawler)).1 = .ok false
      ∧ Invocation.crawlDailyData ∉ (run false failingSaveEnv (World.fresh idleCrawler)).2.calls :=
  ⟨rfl, rfl, rfl, rfl,
    (historical_save_failure_fails_run false failingSaveEnv idleCrawler false
      ["r1", "r2", "r3"] rfl rfl (Or.inl rfl) rfl (by decide) rfl).1,
    (historical_save_failure_fails_run false failingSaveEnv idleCrawler false
      ["r1", "r2", "r3"] rfl rfl (Or.inl rfl) rfl (by decide) rfl).2.1⟩

/-- C7 (counterexample). With a `saveData` that answers `false` for the historical
records, `run()` does not hand the persistence error to its caller: it does not
raise it, and the value it returns, `false`, is the value it also returns when the
incremental routine raises an unrelated error and when the call is rejected
because a run is active. -/
theorem save_failure_reaches_caller_as_false :
    (run false failingSaveEnv (World.fresh idleCrawler)).1 = .ok false
      ∧ (run false failingSaveEnv (World.fresh idleCrawler)).1
          ≠ .error { message := "历史数据保存失败" }
      ∧ (run false failingSaveEnv (World.fresh idleCrawler)).1
          = (run false dailyRaisesEnv (World.fresh idleCrawler)).1
      ∧ (run false failingSaveEnv (World.fresh idleCrawler)).1
          = (run false failingSaveEnv (World.fresh busyCrawler)).1 :=
  ⟨rfl,
    (fun h => by
      have h2 : (Except.ok false : Except JsError Bool)
          = .error { message := "历史数据保存失败" } := h
      cases h2),
    rfl, rfl⟩

/-! ## Interleavings and counters -/

/-- While only `run` is called and returns (no `stop()`, no `cleanup()`), the flag
`isRunning` tells exactly whether a run is in flight, and at most one is. -/
theorem run_pieces_exclusive (ops : List LifecycleOp)
    (hops : ∀ op ∈ ops, op.isRunPiece = true) :
    ∀ s : Lifecycle, s.inFlight = (if s.crawler.isRunning then 1 else 0) →
      (s.exec ops).inFlight = (if (s.exec ops).crawler.isRunning then 1 else 0) := by
  induction ops with
  | nil => intro s hs; simpa [Lifecycle.exec] using hs
  | cons op rest ih =>
    intro s hs
    have hrest : ∀ o ∈ rest, o.isRunPiece = true :=
      fun o ho => hops o (List.mem_cons_of_mem _ ho)
    have hop : op.isRunPiece = true := hops op (List.mem_cons_self _ _)
    have hstep : (s.step op).inFlight = (if (s.step op).crawler.isRunning then 1 else 0) := by
      cases op with
      | runCall t =>
        cases hr : s.crawler.isRunning <;>
          simp [Lifecycle.step, hr, hs, BaseCrawler.enter, BaseCrawler.resetStats]
      | runReturn =>
        cases hr : s.crawler.isRunning <;>
          simp [Lifecycle.step, hr, hs, BaseCrawler.release] at *
      | stop => simp [LifecycleOp.isRunPiece] at hop
      | cleanup => simp [LifecycleOp.isRunPiece] at hop
    have := ih hrest (s.step op) hstep
    simpa [Lifecycle.exec] using this

/-- C5 (the code at the failing input). A run is admitted and suspended, `stop()`
is called, and `run()` is called again: `stop()` cleared `isRunning` while the
first run was still in flight, so the second call is admitted too and two runs are
in flight. -/
theorem stop_admits_second_run :
    (idleLifecycle.exec [LifecycleOp.runCall 20000]).inFlight = 1
      ∧ (idleLifecycle.exec [LifecycleOp.runCall 20000, LifecycleOp.stop]).inFlight = 1
      ∧ (idleLifecycle.exec
            [LifecycleOp.runCall 20000, LifecycleOp.stop]).crawler.isRunning = false
      ∧ (idleLifecycle.exec
            [LifecycleOp.runCall 20000, LifecycleOp.stop,
             LifecycleOp.runCall 20500]).inFlight = 2 := by
  decide

/-- C9 (amended). In every crawler state, so also once `run()` has returned:
`stop()` and `cleanup()` leave the four counters unchanged; `fetchPage` and
`fetchPageWithBrowser`, which do not look at `isRunning`, add one to
`totalRequests` and one to `successfulRequests` or to `failedRequests` according to
the success flag of the record they return, and leave `totalRecords` unchanged;
`resetStats()` sets all four to zero. -/
theorem counters_after_operations (c : BaseCrawler) (url : String)
    (served : Except JsError FetchResult) :
    c.stop.counters = c.counters
      ∧ c.cleanup.counters = c.counters
      ∧ (c.fetchPage url served).2.counters
          = (c.stats.totalRequests + 1,
             c.stats.successfulRequests + (if (c.fetchPage url served).1.success then 1 else 0),
             c.stats.failedRequests + (if (c.fetchPage url served).1.success then 0 else 1),
             c.stats.totalRecords)
      ∧ (c.fetchPageWithBrowser url served).2.counters
          = (c.stats.totalRequests + 1,
             c.stats.successfulRequests
               + (if (c.fetchPageWithBrowser url served).1.success then 1 else 0),
             c.stats.failedRequests
               + (if (c.fetchPageWithBrowser url served).1.success then 0 else 1),
             c.stats.totalRecords)
      ∧ c.resetStats.counters = (0, 0, 0, 0) := by
  refine ⟨?_, ?_, ?_, ?_, rfl⟩
  · unfold BaseCrawler.stop; split <;> rfl
  · unfold BaseCrawler.cleanup BaseCrawler.stop; split <;> rfl
  · rcases served with e | r
    · simp [BaseCrawler.fetchPage, BaseCrawler.countFetch, BaseCrawler.counters]
    · cases hr : r.success <;>
        simp [BaseCrawler.fetchPage, BaseCrawler.countFetch, BaseCrawler.counters, hr]
  · rcases served with e | r
    · simp [BaseCrawler.fetchPageWithBrowser, BaseCrawler.countFetch, BaseCrawler.counters]
    · cases hr : r.success <;>
        simp [BaseCrawler.fetchPageWithBrowser, BaseCrawler.countFetch,
          BaseCrawler.counters, hr]

/-- C9 (counterexample). The healthy run has returned and `isRunning` is false; a
`fetchPage` call then raises `totalRequests` from 3 to 4 and `successfulRequests`
from 2 to 3. -/
theorem fetchPage_counts_after_run :
    (run false healthyEnv (World.fresh idleCrawler)).1 = .ok true
      ∧ (run false healthyEnv (World.fresh idleCrawler)).2.crawler.isRunning = false
      ∧ (run false healthyEnv (World.fresh idleCrawler)).2.crawler.counters = (3, 2, 1, 4)
      ∧ ((run false healthyEnv (World.fresh idleCrawler)).2.crawler.fetchPage farsideUrl
            (.ok pageFetched)).2.counters = (4, 3, 1, 4)
      ∧ ((run false healthyEnv (World.fresh idleCrawler)).2.crawler.fetchPageWithBrowser
            farsideUrl (.ok pageFetched)).2.counters = (4, 3, 1, 4)
      ∧ ((run false healthyEnv (World.fresh idleCrawler)).2.crawler.fetchPage farsideUrl
            (.ok pageFetched)).2.counters
          ≠ (run false healthyEnv (World.fresh idleCrawler)).2.crawler.counters :=
  ⟨rfl, rfl, rfl, rfl, rfl, by decide⟩

/-! ## Registration -/

/-- Writing a key that is present keeps the keys and their order. -/
theorem mapSet_keys_of_has {α : Type} (m : List (String × α)) (k : String) (v : α)
    (h : mapHas m k = true) : (mapSet m k v).map Prod.fst = m.map Prod.fst := by
  induction m with
  | nil => simp [mapHas, mapGet] at h
  | cons p rest ih =>
    obtain ⟨k1, w⟩ := p
    by_cases hk : k1 = k
    · simp [mapSet, hk]
    · have hrest : mapHas rest k = true := by
        simpa [mapHas, mapGet, hk] using h
      simp [mapSet, hk, ih hrest]

/-- C10 (amended). `registerCrawler(crawler)` rejects every malformed registration,
a `null` crawler or a missing or empty name: it returns `false` and leaves the
registry unchanged. Every other registration is accepted, a duplicate included: it
returns `true`, the crawler, with the manager's services injected, is registered
under its name, and every other name keeps its crawler; for a name that was already
registered a warning is logged, the set and order of names is unchanged, and the
new crawler replaces the previous one. -/
theorem registerCrawler_spec (m : CrawlerManager) :
    ((m.registerCrawler none).1 = false
        ∧ (m.registerCrawler none).2.crawlers = m.crawlers)
    ∧ (∀ c : BaseCrawler, (c.name = none ∨ c.name = some "") →
        (m.registerCrawler (some c)).1 = false
          ∧ (m.registerCrawler (some c)).2.crawlers = m.crawlers)
    ∧ (∀ (c : BaseCrawler) (name : String), c.name = some name → name ≠ "" →
        (m.registerCrawler (some c)).1 = true
          ∧ (m.registerCrawler (some c)).2.getCrawler name
              = some { c with requestService := some m.requestService,
                              storageService := some m.storageService }
          ∧ (∀ other, other ≠ name →
              (m.registerCrawler (some c)).2.getCrawler other = m.getCrawler other)
          ∧ (mapHas m.crawlers name = true →
              (m.registerCrawler (some c)).2.getCrawlerNames = m.getCrawlerNames
                ∧ ({ level := "warn", message := "爬虫已存在，将覆盖", error := none } : LogEntry)
                    ∈ (m.registerCrawler (some c)).2.log)) := by
  refine ⟨⟨rfl, rfl⟩, ?_, ?_⟩
  · intro c hc
    rcases hc with hc | hc <;>
      simp [CrawlerManager.registerCrawler, CrawlerManager.registerFailed, hc]
  · intro c name hc hne
    simp only [CrawlerManager.registerCrawler, hc, hne, if_false,
      CrawlerManager.getCrawler, CrawlerManager.getCrawlerNames]
    refine ⟨trivial, mapGet_mapSet_self _ _ _, ?_, ?_⟩
    · intro other ho
      exact mapGet_mapSet_other _ _ _ _ (Ne.symm ho)
    · intro hhas
      exact ⟨mapSet_keys_of_has _ _ _ hhas, by simp [hhas]⟩

/-- Witness for C10 (amended): on the manager that has `FarsideCrawler` registered,
a crawler with an empty name is rejected and a second crawler named
`FarsideCrawler` is accepted. -/
theorem registerCrawler_spec_witness :
    ((farsideManager.registerCrawler (some namelessCrawler)).1 = false
        ∧ (farsideManager.registerCrawler (some namelessCrawler)).2.crawlers
            = farsideManager.crawlers)
      ∧ (mapHas farsideManager.crawlers "FarsideCrawler" = true
          ∧ (farsideManager.registerCrawler (some rivalCrawler)).1 = true) :=
  ⟨(registerCrawler_spec farsideManager).2.1 namelessCrawler (Or.inr rfl),
    by decide,
    ((registerCrawler_spec farsideManager).2.2 rivalCrawler "FarsideCrawler" rfl
      (by decide)).1⟩

/-- C10 (counterexample). `FarsideCrawler` is registered; registering a second
crawler of that name is not rejected: the call returns `true`, the registry has
changed, and the name now yields the second crawler instead of the first. -/
theorem duplicate_registration_overwrites :
    farsideManager.getCrawler "FarsideCrawler" = some idleCrawler
      ∧ rivalCrawler.name = some "FarsideCrawler"
      ∧ (farsideManager.registerCrawler (some rivalCrawler)).1 = true
      ∧ (farsideManager.registerCrawler (some rivalCrawler)).2.crawlers
          ≠ farsideManager.crawlers
      ∧ (farsideManager.registerCrawler (some rivalCrawler)).2.getCrawler "FarsideCrawler"
          = some { rivalCrawler with requestService := some 1, storageService := some 2 }
      ∧ (farsideManager.registerCrawler (some rivalCrawler)).2.getCrawler "FarsideCrawler"
          ≠ some idleCrawler := by
  decide

/-! ## Failure record, backoff schedule and delay window -/

/-- The backoff waits the loop requests on a transport that fails every remaining
attempt: one after each failed attempt but the last, of `1000 * attempt` ms. -/
theorem attemptLoop_backoffs_all_fail (retries : Int) (net : Nat → Attempt) (fuel : Nat) :
    ∀ (attempt : Nat) (st : LoopState),
      (attempt : Int) + fuel = retries + 1 →
      (∀ k : Nat, attempt ≤ k → (k : Int) ≤ retries → ∃ e, (net k).outcome = .error e) →
      (attemptLoop retries net fuel attempt st).2.backoffs
        = st.backoffs ++ (List.range' attempt (fuel - 1)).map (fun k : Nat => 1000 * (k : Int)) := by
  induction fuel with
  | zero => intro attempt st _ _; simp [attemptLoop]
  | succ fuel ih =>
    intro attempt st hsum hfail
    have hle : (attempt : Int) ≤ retries := by push_cast at hsum; omega
    obtain ⟨e, he⟩ := hfail attempt (le_refl _) hle
    unfold attemptLoop
    simp only [hle, if_true, he]
    by_cases hlt : (attempt : Int) < retries
    · simp only [hlt, if_true]
      rw [ih (attempt + 1) _ (by push_cast at hsum ⊢; omega)
        (fun k hk hkr => hfail k (by omega) hkr)]
      obtain ⟨f, hf⟩ : ∃ f, fuel = f + 1 := ⟨fuel - 1, by push_cast at hsum; omega⟩
      subst hf
      simp [List.range'_succ]
    · simp only [hlt, if_false]
      have hf : fuel = 0 := by push_cast at hsum; omega
      subst hf
      simp [attemptLoop]

/-- The backoff waits the loop requests when attempt `k` is the first remaining one
to succeed: one after each failed attempt before `k`, none after `k`. -/
theorem attemptLoop_backoffs_first_success (retries : Int) (net : Nat → Attempt)
    (fuel : Nat) :
    ∀ (attempt : Nat) (st : LoopState) (k : Nat) (resp : HttpResponse),
      (attempt : Int) + fuel = retries + 1 →
      attempt ≤ k → (k : Int) ≤ retries →
      (∀ j : Nat, attempt ≤ j → j < k → ∃ e, (net j).outcome = .error e) →
      (net k).outcome = .ok resp →
      (attemptLoop retries net fuel attempt st).2.backoffs
        = st.backoffs ++ (List.range' attempt (k - attempt)).map (fun j : Nat => 1000 * (j : Int)) := by
  induction fuel with
  | zero =>
    intro attempt st k resp hsum hk hkr _ _
    exfalso; push_cast at hsum; omega
  | succ fuel ih =>
    intro attempt st k resp hsum hk hkr hfail hok
    have hle : (attempt : Int) ≤ retries := by omega
    unfold attemptLoop
    simp only [hle, if_true]
    by_cases hka : k = attempt
    · subst hka
      simp [hok]
    · obtain ⟨e, he⟩ := hfail attempt (le_refl _) (by omega)
      have hlt : (attempt : Int) < retries := by omega
      simp only [he, hlt, if_true]
      rw [ih (attempt + 1) _ k resp (by push_cast at hsum ⊢; omega) (by omega) hkr
        (fun j hj hjk => hfail j (by omega) hjk) hok]
      obtain ⟨f, hf⟩ : ∃ f, k - attempt = f + 1 := ⟨k - attempt - 1, by omega⟩
      have hf2 : k - (attempt + 1) = f := by omega
      rw [hf, hf2]
      simp [List.range'_succ]

/-- Twice the sum of the waits `1000 * s, ..., 1000 * (s + n - 1)`. -/
theorem backoff_sum_double (n : Nat) :
    ∀ s : Nat, 2 * ((List.range' s n).map (fun k : Nat => 1000 * (k : Int))).sum
      = 1000 * (n : Int) * (2 * (s : Int) + (n : Int) - 1) := by
  induction n with
  | zero => intro s; simp
  | succ n ih =>
    intro s
    simp only [List.range'_succ, List.map_cons, List.sum_cons]
    rw [mul_add, ih (s + 1)]
    push_cast
    ring

/-- A direct fetch of a well-formed url reports the attempt starts and the backoff
waits of its retry loop. -/
theorem request_loop_trace (svc : RequestService) (hostname : String → Option String)
    (url : String) (env : CallEnv) (d : String) (hd : hostname url = some d) :
    (svc.request hostname url env).starts
        = (attemptLoop svc.retries env.net svc.retries.toNat 1
            { clock := (svc.rateLimiter.waitForRate d env.now env.sample env.lag).2,
              starts := [], backoffs := [], lastError := none }).2.starts
      ∧ (svc.request hostname url env).backoffs
        = (attemptLoop svc.retries env.net svc.retries.toNat 1
            { clock := (svc.rateLimiter.waitForRate d env.now env.sample env.lag).2,
              starts := [], backoffs := [], lastError := none }).2.backoffs := by
  simp only [RequestService.request, hd]
  split
  · exact ⟨rfl, rfl⟩
  · split <;> exact ⟨rfl, rfl⟩

/-- C14. When every attempt of a direct fetch (of a url the parser accepts, with
`R ≥ 1`) fails, the call returns the failure record built from the error of the
last, `R`-th, attempt: `error` is that attempt's message, `status` that attempt's
HTTP status (absent for a transport error), `url` the url requested; the record
does not depend on the errors of the earlier attempts. -/
theorem failure_carries_last_error (svc : RequestService)
    (hostname : String → Option String) (url : String) (env : CallEnv) (d : String)
    (hd : hostname url = some d) (hR : 1 ≤ svc.retries)
    (hfail : ∀ k : Nat, 1 ≤ k → (k : Int) ≤ svc.retries →
      ∃ e, (env.net k).outcome = .error e) :
    (∃ e, (env.net svc.retries.toNat).outcome = .error e
        ∧ (svc.request hostname url env).outcome
            = .ok { success := false, data := none, status := e.status, headers := none,
                    url := url, error := some e.message, parsed := false })
      ∧ ∀ env2 : CallEnv,
          (∀ k : Nat, 1 ≤ k → (k : Int) ≤ svc.retries →
            ∃ e, (env2.net k).outcome = .error e) →
          (env2.net svc.retries.toNat).outcome = (env.net svc.retries.toNat).outcome →
          (svc.request hostname url env2).outcome = (svc.request hostname url env).outcome := by
  have hnn : (0 : Int) ≤ svc.retries := by omega
  have hfuel : ((1 : Nat) : Int) + (svc.retries.toNat : Nat) = svc.retries + 1 := by
    have := Int.toNat_of_nonneg hnn
    push_cast; omega
  have hpos : 0 < svc.retries.toNat := by
    have := Int.toNat_of_nonneg hnn
    omega
  have key : ∀ envx : CallEnv,
      (∀ k : Nat, 1 ≤ k → (k : Int) ≤ svc.retries →
        ∃ e, (envx.net k).outcome = .error e) →
      ∃ e, (envx.net svc.retries.toNat).outcome = .error e
        ∧ (svc.request hostname url envx).outcome = .ok (failureResult e url) := by
    intro envx hx
    obtain ⟨h1, _, h3⟩ := attemptLoop_all_fail svc.retries envx.net svc.retries.toNat 1
      { clock := (svc.rateLimiter.waitForRate d envx.now envx.sample envx.lag).2,
        starts := [], backoffs := [], lastError := none } hfuel
      (fun k hk hkr => hx k hk hkr)
    obtain ⟨e, he1, he2⟩ := h3 hpos
    refine ⟨e, he1, ?_⟩
    simp only [RequestService.request, hd, h1, he2]
  obtain ⟨e, he1, he2⟩ := key env hfail
  refine ⟨⟨e, he1, he2⟩, ?_⟩
  intro env2 hfail2 hsame
  obtain ⟨e2, h21, h22⟩ := key env2 hfail2
  rw [h21, he1] at hsame
  cases hsame
  rw [h22, he2]

/-- Witness for C14: with `R = 3` on the transport on which every attempt times
out. -/
theorem failure_carries_last_error_witness :
    farsideHostname farsideUrl = some "farside.co.uk"
      ∧ (1 : Int) ≤ defaultService.retries
      ∧ ∃ e, (firstCall.net defaultService.retries.toNat).outcome = .error e
          ∧ (defaultService.request farsideHostname farsideUrl firstCall).outcome
              = .ok { success := false, data := none, status := e.status, headers := none,
                      url := farsideUrl, error := some e.message, parsed := false } :=
  ⟨by decide, by decide,
    (failure_carries_last_error defaultService farsideHostname farsideUrl firstCall
      "farside.co.uk" (by decide) (by decide) (fun _ _ _ => ⟨_, rfl⟩)).1⟩

/-- C15. In a direct fetch (of a url the parser accepts) with retry limit `R ≥ 1`
the waits requested are `1000 * k` ms after each failed attempt `k < R` and nothing
else: when all `R` attempts fail they are `1000, 2000, ..., 1000 * (R - 1)`, none
after attempt `R`, with total `1000 * (R * (R - 1) / 2)`; when attempt `k` is the
first to succeed they are `1000, ..., 1000 * (k - 1)`, none after attempt `k`. -/
theorem backoff_schedule (svc : RequestService) (hostname : String → Option String)
    (url : String) (env : CallEnv) (d : String)
    (hd : hostname url = some d) (hR : 1 ≤ svc.retries) :
    ((∀ k : Nat, 1 ≤ k → (k : Int) ≤ svc.retries → ∃ e, (env.net k).outcome = .error e) →
        (svc.request hostname url env).backoffs
            = (List.range' 1 (svc.retries.toNat - 1)).map (fun k : Nat => 1000 * (k : Int))
          ∧ (svc.request hostname url env).backoffs.sum
            = 1000 * (svc.retries * (svc.retries - 1) / 2))
      ∧ ∀ (k : Nat) (resp : HttpResponse), 1 ≤ k → (k : Int) ≤ svc.retries →
          (∀ j : Nat, 1 ≤ j → j < k → ∃ e, (env.net j).outcome = .error e) →
          (env.net k).outcome = .ok resp →
          (svc.request hostname url env).backoffs
            = (List.range' 1 (k - 1)).map (fun j : Nat => 1000 * (j : Int)) := by
  have hnn : (0 : Int) ≤ svc.retries := by omega
  have htn := Int.toNat_of_nonneg hnn
  have hfuel : ((1 : Nat) : Int) + (svc.retries.toNat : Nat) = svc.retries + 1 := by
    push_cast; omega
  obtain ⟨_, hback⟩ := request_loop_trace svc hostname url env d hd
  refine ⟨?_, ?_⟩
  · intro hfail
    have hb := attemptLoop_backoffs_all_fail svc.retries env.net svc.retries.toNat 1
      { clock := (svc.rateLimiter.waitForRate d env.now env.sample env.lag).2,
        starts := [], backoffs := [], lastError := none } hfuel
      (fun k hk hkr => hfail k hk hkr)
    simp only [List.nil_append] at hb
    rw [hback, hb]
    refine ⟨rfl, ?_⟩
    have hsum := backoff_sum_double (svc.retries.toNat - 1) 1
    have hcast : ((svc.retries.toNat - 1 : Nat) : Int) = svc.retries - 1 := by omega
    rw [hcast] at hsum
    have hprod : (1000 : Int) * (svc.retries - 1) * (2 * ((1 : Nat) : Int) + (svc.retries - 1) - 1)
        = 1000 * (svc.retries * (svc.retries - 1)) := by push_cast; ring
    rw [hprod] at hsum
    obtain ⟨m, hm⟩ : ∃ m : Int, svc.retries * (svc.retries - 1) = 2 * m := by
      obtain ⟨m, hm⟩ := Int.even_mul_pred_self svc.retries
      exact ⟨m, by rw [hm]; ring⟩
    rw [hm] at hsum ⊢
    omega
  · intro k resp hk hkr hfail hok
    have hb := attemptLoop_backoffs_first_success svc.retries env.net svc.retries.toNat 1
      { clock := (svc.rateLimiter.waitForRate d env.now env.sample env.lag).2,
        starts := [], backoffs := [], lastError := none } k resp hfuel hk hkr
      (fun j hj hjk => hfail j hj hjk) hok
    simp only [List.nil_append] at hb
    rw [hback, hb]

/-- Witness for C15: with `R = 3`, three failures wait 1000 and 2000 ms, 3000 ms in
all, and a success at the second attempt waits 1000 ms only. -/
theorem backoff_schedule_witness :
    farsideHostname farsideUrl = some "farside.co.uk"
      ∧ (1 : Int) ≤ defaultService.retries
      ∧ ((defaultService.request farsideHostname farsideUrl firstCall).backoffs
            = (List.range' 1 (defaultService.retries.toNat - 1)).map
                (fun k : Nat => 1000 * (k : Int))
          ∧ (defaultService.request farsideHostname farsideUrl firstCall).backoffs.sum
            = 1000 * (defaultService.retries * (defaultService.retries - 1) / 2))
      ∧ (defaultService.request farsideHostname farsideUrl firstCall).backoffs = [1000, 2000]
      ∧ (defaultService.request farsideHostname farsideUrl recoveringCall).backoffs = [1000] :=
  ⟨by decide, by decide,
    (backoff_schedule defaultService farsideHostname farsideUrl firstCall
      "farside.co.uk" (by decide) (by decide)).1 (fun _ _ _ => ⟨_, rfl⟩),
    by decide, by decide⟩

/-- With `minDelay ≤ maxDelay` the drawn delay is at most `maxDelay`. -/
theorem getRandomDelay_le (rl : RateLimiter) (u : UnitSample)
    (h : rl.minDelay ≤ rl.maxDelay) : rl.getRandomDelay u ≤ rl.maxDelay := by
  unfold RateLimiter.getRandomDelay
  have hden : (0 : Int) < (u.den : Int) := by
    have := u.lt
    omega
  have hlt : (u.num : Int) * (rl.maxDelay - rl.minDelay + 1)
      < (rl.maxDelay - rl.minDelay + 1) * (u.den : Int) := by
    have hnum : (u.num : Int) < (u.den : Int) := by exact_mod_cast u.lt
    have hpos : (0 : Int) < rl.maxDelay - rl.minDelay + 1 := by omega
    nlinarith
  have := Int.ediv_lt_of_lt_mul hden hlt
  omega

/-- C16. For all integers `minDelay ≤ maxDelay` and every draw `r = num / den` in
`[0, 1)`, `getRandomDelay()` is an integer of the closed interval
`[minDelay, maxDelay]`, and every integer of that interval is the delay of some
draw. -/
theorem getRandomDelay_range (rl : RateLimiter) (h : rl.minDelay ≤ rl.maxDelay) :
    (∀ u : UnitSample,
        rl.minDelay ≤ rl.getRandomDelay u ∧ rl.getRandomDelay u ≤ rl.maxDelay)
      ∧ ∀ t : Int, rl.minDelay ≤ t → t ≤ rl.maxDelay →
          ∃ u : UnitSample, rl.getRandomDelay u = t := by
  refine ⟨fun u => ⟨getRandomDelay_ge rl u h, getRandomDelay_le rl u h⟩, ?_⟩
  intro t ht1 ht2
  refine ⟨{ num := (t - rl.minDelay).toNat, den := (rl.maxDelay - rl.minDelay + 1).toNat,
            lt := by omega }, ?_⟩
  unfold RateLimiter.getRandomDelay
  have h1 : (((t - rl.minDelay).toNat : Nat) : Int) = t - rl.minDelay :=
    Int.toNat_of_nonneg (by omega)
  have h2 : (((rl.maxDelay - rl.minDelay + 1).toNat : Nat) : Int)
      = rl.maxDelay - rl.minDelay + 1 := Int.toNat_of_nonneg (by omega)
  simp only [h1, h2]
  rw [Int.mul_ediv_cancel _ (by omega)]
  omega

/-- Witness for C16: the default window, 1000 to 3000 ms; the draw `1/2` gives 2000
and the delay 3000 is attained. -/
theorem getRandomDelay_range_witness :
    pacedLimiter.minDelay ≤ pacedLimiter.maxDelay
      ∧ ((1000 : Int) ≤ pacedLimiter.getRandomDelay { num := 1, den := 2, lt := by decide }
          ∧ pacedLimiter.getRandomDelay { num := 1, den := 2, lt := by decide } ≤ 3000)
      ∧ pacedLimiter.getRandomDelay { num := 1, den := 2, lt := by decide } = 2000
      ∧ ∃ u : UnitSample, pacedLimiter.getRandomDelay u = 3000 :=
  ⟨by decide, (getRandomDelay_range pacedLimiter (by decide)).1 _, by decide,
    (getRandomDelay_range pacedLimiter (by decide)).2 3000 (by decide) (by decide)⟩

/-! ## Batch runs -/

/-- A registered name is found in the registry. -/
theorem mapGet_of_mem_keys {α : Type} (m : List (String × α)) (key : String)
    (h : key ∈ m.map Prod.fst) : ∃ v, mapGet m key = some v := by
  induction m with
  | nil => simp at h
  | cons p rest ih =>
    obtain ⟨k, w⟩ := p
    by_cases hk : k = key
    · exact ⟨w, by simp [mapGet, hk]⟩
    · have hrest : key ∈ rest.map Prod.fst := by
        simp only [List.map_cons, List.mem_cons] at h
        rcases h with h | h
        · exact absurd h.symm hk
        · exact h
      obtain ⟨v, hv⟩ := ih hrest
      exact ⟨v, by simp [mapGet, hk, hv]⟩

/-- `runCrawler` on a registered name never raises: it returns `true` exactly when
the crawler initializes and runs to `true`. -/
theorem runCrawler_registered (m : CrawlerManager) (conduct : String → Conduct)
    (name : String) (force : Bool) (h : name ∈ m.crawlers.map Prod.fst) :
    m.runCrawler conduct name force = .ok ((conduct name).succeeds force) := by
  obtain ⟨c, hc⟩ := mapGet_of_mem_keys m.crawlers name h
  unfold CrawlerManager.runCrawler Conduct.succeeds
  simp only [hc]
  rcases hi : (conduct name).init with e | (_ | _)
  · simp
  · simp
  · rcases hr : (conduct name).run force with e | (_ | _) <;> simp

/-- The entries of a batch, in either mode: one per registered name, in order, with
the name, the success flag, and no error. -/
theorem batch_entries (m : CrawlerManager) (conduct : String → Conduct)
    (force : Bool) :
    (m.crawlers.map Prod.fst).map (fun name =>
        namedEntry name (m.runCrawler conduct name force))
      = (m.crawlers.map Prod.fst).map (fun name =>
          ({ name := some name, success := (conduct name).succeeds force,
             error := none } : RunEntry)) := by
  apply List.map_congr_left
  intro name hname
  rw [runCrawler_registered m conduct name force hname]
  rfl

/-- The `results` array of parallel mode, as the code builds it. On an initialized
manager, whatever the crawlers do (raise, fail or succeed),
`runAllCrawlers(force, true)` returns a `results` array with
exactly one entry per registered crawler, in registration order, each carrying that
crawler's name; the entry of a crawler that initializes and runs to `true` is
`(name, success: true)`, and the entry of every other crawler, a raising one
included, is `(name, success: false)` without an `error` property. -/
theorem parallel_results (m : CrawlerManager) (conduct : String → Conduct)
    (force : Bool) (startTime endTime : Int) (hinit : m.isInitialized = true) :
    (m.runAllCrawlers conduct force true startTime endTime).result.results
      = some (m.getCrawlerNames.map (fun name =>
          ({ name := some name, success := (conduct name).succeeds force,
             error := none } : RunEntry))) := by
  unfold CrawlerManager.runAllCrawlers CrawlerManager.getCrawlerNames
  simp only [hinit, Bool.not_true, Bool.false_eq_true, if_false, if_true]
  split
  · rename_i h
    have : m.crawlers = [] := by
      cases hm : m.crawlers with
      | nil => rfl
      | cons p rest => rw [hm] at h; simp at h
    simp [this]
  · simp only [settledEntry]
    rw [batch_entries]

/-- The `results` array of parallel mode on the initialized manager with `A` and
`B`. -/
theorem parallel_results_witness :
    pairManager.isInitialized = true
      ∧ (pairManager.runAllCrawlers pairConduct false true 0 10).result.results
          = some (pairManager.getCrawlerNames.map (fun name =>
              ({ name := some name, success := (pairConduct name).succeeds false,
                 error := none } : RunEntry))) :=
  ⟨rfl, parallel_results pairManager pairConduct false 0 10 rfl⟩

/-- C11 (failing input). Crawler `A` raises and crawler `B` succeeds, in parallel
mode. `runCrawler` turns the error of `A` into `false`, so the promise of `A` is
fulfilled, and the handlers of `runAllCrawlers`, which for a rejected promise build
`(name: A, success: false, error: boom)`, are never entered: the entry of `A` is
`(name: A, success: false)` and has no `error` property. -/
theorem raising_entry_has_no_error :
    (pairConduct "A").run false = .error { message := "boom" }
      ∧ pairManager.runCrawler pairConduct "A" false = .ok false
      ∧ namedEntry "A" (.error { message := "boom" })
          = { name := some "A", success := false, error := some "boom" }
      ∧ (pairManager.runAllCrawlers pairConduct false true 0 10).result.results
          = some [{ name := some "A", success := false, error := none },
                  { name := some "B", success := true, error := none }] :=
  ⟨rfl, rfl, rfl, rfl⟩

/-- C12 (amended). On an initialized manager with at least one registered crawler,
`runAllCrawlers(force, false)` starts and finishes one `runCrawler` call per
registered crawler, one at a time in registration order, whatever the crawlers do;
the object returned has `success = true`, one entry per crawler, and `stats` with
`total` the number of registered crawlers, `success` the number of entries with
`success` true and `failed = total - success`. -/
theorem serial_batch (m : CrawlerManager) (conduct : String → Conduct)
    (force : Bool) (startTime endTime : Int)
    (hinit : m.isInitialized = true) (hne : m.crawlers ≠ []) :
    (m.runAllCrawlers conduct force false startTime endTime).events
        = m.getCrawlerNames.flatMap (fun name =>
            [BatchEvent.started name, BatchEvent.finished name])
      ∧ (m.runAllCrawlers conduct force false startTime endTime).result.success = true
      ∧ (m.runAllCrawlers conduct force false startTime endTime).result.results
          = some (m.getCrawlerNames.map (fun name =>
              ({ name := some name, success := (conduct name).succeeds force,
                 error := none } : RunEntry)))
      ∧ (m.runAllCrawlers conduct force false startTime endTime).result.stats
          = some
              { total := m.getCrawlerNames.length,
                success := ((m.getCrawlerNames.map (fun name =>
                    ({ name := some name, success := (conduct name).succeeds force,
                       error := none } : RunEntry))).filter (fun r => r.success)).length,
                failed := m.getCrawlerNames.length
                  - ((m.getCrawlerNames.map (fun name =>
                    ({ name := some name, success := (conduct name).succeeds force,
                       error := none } : RunEntry))).filter (fun r => r.success)).length,
                duration := endTime - startTime } := by
  have hlen : ¬ (m.crawlers.map Prod.fst).length = 0 := by
    cases hm : m.crawlers with
    | nil => exact absurd hm hne
    | cons p rest => simp
  unfold CrawlerManager.runAllCrawlers CrawlerManager.getCrawlerNames
  simp only [hinit, Bool.not_true, Bool.false_eq_true, if_false, hlen]
  rw [batch_entries]
  simp

/-- Witness for C12 (amended): the initialized manager with `A` and `B`; `A` raises,
`B` is still run, and the statistics are 2, 1 and 1. -/
theorem serial_batch_witness :
    pairManager.isInitialized = true ∧ pairManager.crawlers ≠ []
      ∧ (pairManager.runAllCrawlers pairConduct false false 0 10).events
          = [BatchEvent.started "A", BatchEvent.finished "A",
             BatchEvent.started "B", BatchEvent.finished "B"]
      ∧ (pairManager.runAllCrawlers pairConduct false false 0 10).result.stats
          = some { total := 2, success := 1, failed := 1, duration := 10 }
      ∧ (pairManager.runAllCrawlers pairConduct false false 0 10).result.success = true :=
  ⟨rfl, by decide, rfl, rfl,
    (serial_batch pairManager pairConduct false 0 10 rfl (by decide)).2.1⟩

/-- C12 (counterexample). On the manager that was not initialized the serial batch
starts no crawler and returns `success = false`; on the initialized manager without
crawlers the object returned has no `stats`. -/
theorem serial_batch_guards :
    (rawManager.crawlers.length = 2
        ∧ (rawManager.runAllCrawlers pairConduct false false 0 10).events = []
        ∧ (rawManager.runAllCrawlers pairConduct false false 0 10).result.success = false)
      ∧ ((emptyManager.runAllCrawlers pairConduct false false 0 10).result.success = true
        ∧ (emptyManager.runAllCrawlers pairConduct false false 0 10).result.stats = none) :=
  ⟨⟨rfl, rfl, rfl⟩, rfl, rfl⟩

/-! ## Teardown -/

/-- After `stop()` the crawler is not running. -/
theorem stop_not_running (c : BaseCrawler) : c.stop.isRunning = false := by
  unfold BaseCrawler.stop
  cases h : c.isRunning <;> simp [h]

/-- When every cleanup hook returns, the cleanup loop completes and leaves every
crawler stopped. -/
theorem cleanupAll_ok (env : TeardownEnv) (cs : List (String × BaseCrawler))
    (h : ∀ name ∈ cs.map Prod.fst, env.onCleanup name = .ok ()) :
    cleanupAll env cs = (.ok (), cs.map (fun p => (p.1, p.2.stop))) := by
  induction cs with
  | nil => rfl
  | cons p rest ih =>
    obtain ⟨name, crawler⟩ := p
    have h1 : env.onCleanup name = .ok () := h name (by simp)
    have h2 := ih (fun n hn => h n (by simp [hn]))
    simp [cleanupAll, h1, h2]

/-- When every cleanup hook returns and the browser, if open, closes, `destroy()`
returns and leaves the torn-down state and the crawlers stopped. -/
theorem destroy_eq (d : Deployment) (env : TeardownEnv)
    (hhooks : ∀ name ∈ d.manager.crawlers.map Prod.fst, env.onCleanup name = .ok ())
    (hclose : d.requestService.browserOpen = true → env.closeBrowser = .ok ()) :
    (d.destroy env).outcome = .ok ()
      ∧ (d.destroy env).state = d.torndown
      ∧ (d.destroy env).crawlerObjects
          = d.manager.crawlers.map (fun p => (p.1, p.2.stop)) := by
  have hstop : ∀ c : BaseCrawler, (if c.isRunning then c.stop else c) = c.stop := by
    intro c
    unfold BaseCrawler.stop
    cases h : c.isRunning <;> simp [h]
  have hcl := cleanupAll_ok env (d.manager.stopAllCrawlers).crawlers
    (by
      intro name hn
      apply hhooks name
      simpa [CrawlerManager.stopAllCrawlers] using hn)
  have hsvc : destroyServices d.requestService d.userAgentManager env
      = (.ok (), d.torndown.requestService, d.userAgentManager.reset) := by
    unfold destroyServices RequestService.closeBrowser Deployment.torndown
    cases hb : d.requestService.browserOpen with
    | true =>
      simp [hclose hb, RequestService.reset]
    | false =>
      simp only [Bool.false_eq_true, if_false, RequestService.reset]
      congr 2
      cases hreq : d.requestService
      simp [hreq] at hb
      simp [hb]
  unfold Deployment.destroy
  simp only [hcl, hsvc]
  refine ⟨trivial, ?_, ?_⟩
  · simp [Deployment.torndown, CrawlerManager.stopAllCrawlers, ScheduleService.destroy,
      ScheduleService.stopAll]
  · simp only [CrawlerManager.stopAllCrawlers, hstop, List.map_map]
    apply List.map_congr_left
    intro p _
    simp only [Function.comp]
    have hidem : p.2.stop.stop = p.2.stop := by
      unfold BaseCrawler.stop
      cases h : p.2.isRunning <;> simp [h]
    rw [hidem]

/-- When the cleanup hook of a registered crawler raises, the cleanup loop raises the
error of a hook. -/
theorem cleanupAll_raises (env : TeardownEnv) (crawlers : List (String × BaseCrawler))
    (h : ∃ p ∈ crawlers, ∃ e, env.onCleanup p.1 = .error e) :
    ∃ e, (cleanupAll env crawlers).1 = .error e
      ∧ ∃ p ∈ crawlers, env.onCleanup p.1 = .error e := by
  induction crawlers with
  | nil => obtain ⟨p, hp, _⟩ := h; cases hp
  | cons c rest ih =>
    obtain ⟨name, crawler⟩ := c
    cases hhook : env.onCleanup name with
    | error e =>
      exact ⟨e, by simp [cleanupAll, hhook], (name, crawler), List.mem_cons_self _ _, hhook⟩
    | ok u =>
      obtain ⟨p, hp, e, he⟩ := h
      rcases List.mem_cons.mp hp with hp | hp
      · subst hp; rw [hhook] at he; cases he
      · obtain ⟨e', h1, q, hq, hqe⟩ := ih ⟨p, hp, e, he⟩
        exact ⟨e', by simp [cleanupAll, hhook, h1], q, List.mem_cons_of_mem _ hq, hqe⟩

/-- `destroy()` propagates what its collaborators raise: when the cleanup hook of a
registered crawler raises, `destroy()` raises the error of a hook; when every hook
returns, the browser is open and `browser.close()` raises, `destroy()` raises that
error. -/
theorem destroy_propagates (d : Deployment) (env : TeardownEnv) :
    ((∃ p ∈ d.manager.crawlers, ∃ e, env.onCleanup p.1 = .error e) →
        ∃ e, (d.destroy env).outcome = .error e
          ∧ ∃ p ∈ d.manager.crawlers, env.onCleanup p.1 = .error e)
      ∧ (∀ e, (∀ p ∈ d.manager.crawlers, env.onCleanup p.1 = .ok ()) →
          d.requestService.browserOpen = true → env.closeBrowser = .error e →
          (d.destroy env).outcome = .error e) := by
  constructor
  · intro h
    have h' : ∃ p ∈ d.manager.stopAllCrawlers.crawlers, ∃ e, env.onCleanup p.1 = .error e := by
      obtain ⟨p, hp, e, he⟩ := h
      exact ⟨(p.1, if p.2.isRunning then p.2.stop else p.2),
        by simpa [CrawlerManager.stopAllCrawlers] using ⟨p.1, p.2, hp, rfl, rfl⟩, e, he⟩
    obtain ⟨e, h1, q, hq, hqe⟩ := cleanupAll_raises env _ h'
    refine ⟨e, by simp [Deployment.destroy, h1], ?_⟩
    simp only [CrawlerManager.stopAllCrawlers, List.mem_map] at hq
    obtain ⟨p, hp, hpq⟩ := hq
    exact ⟨p, hp, by rw [← hpq] at hqe; exact hqe⟩
  · intro e hhooks hopen hclose
    have hok : (cleanupAll env d.manager.stopAllCrawlers.crawlers).1 = .ok () := by
      rw [cleanupAll_ok env d.manager.stopAllCrawlers.crawlers]
      intro name hname
      simp only [CrawlerManager.stopAllCrawlers, List.map_map, List.mem_map] at hname
      obtain ⟨q, hq, hqn⟩ := hname
      rw [← hqn]; exact hhooks q hq
    simp [Deployment.destroy, hok, destroyServices, RequestService.closeBrowser, hopen, hclose]

/-- C13 (amended). From every manager state (initialized or not, with or without
crawlers, with or without an open browser), if the cleanup hook of every registered
crawler returns and `browser.close()`, when a browser is open, returns, then
`destroy()` does not raise and ends with no registered crawlers, every formerly
registered crawler having `isRunning = false`, `isInitialized = false`, manager
`isRunning = false`, no scheduled tasks, no pacing entries and no browser; a second
`destroy()`, whatever the collaborators then do, does not raise and leaves that
state unchanged. -/
theorem destroy_clean_and_idempotent (d : Deployment) (env : TeardownEnv)
    (hhooks : ∀ name ∈ d.manager.crawlers.map Prod.fst, env.onCleanup name = .ok ())
    (hclose : d.requestService.browserOpen = true → env.closeBrowser = .ok ()) :
    (d.destroy env).outcome = .ok ()
      ∧ (d.destroy env).state.manager.crawlers = []
      ∧ (d.destroy env).crawlerObjects.map Prod.fst = d.manager.crawlers.map Prod.fst
      ∧ (∀ p ∈ (d.destroy env).crawlerObjects, p.2.isRunning = false)
      ∧ (d.destroy env).state.manager.isInitialized = false
      ∧ (d.destroy env).state.manager.isRunning = false
      ∧ (d.destroy env).state.scheduleService.tasks = []
      ∧ (d.destroy env).state.requestService.rateLimiter.requestTimes = []
      ∧ (d.destroy env).state.requestService.browserOpen = false
      ∧ ∀ env2 : TeardownEnv,
          ((d.destroy env).state.destroy env2).outcome = .ok ()
            ∧ ((d.destroy env).state.destroy env2).state = (d.destroy env).state := by
  obtain ⟨h1, h2, h3⟩ := destroy_eq d env hhooks hclose
  rw [h1, h2, h3]
  refine ⟨rfl, rfl, ?_, ?_, rfl, rfl, rfl, rfl, rfl, ?_⟩
  · simp [List.map_map, Function.comp]
  · intro p hp
    obtain ⟨q, _, hq⟩ := List.mem_map.mp hp
    rw [← hq]
    exact stop_not_running q.2
  · intro env2
    obtain ⟨k1, k2, _⟩ := destroy_eq d.torndown env2
      (by intro name hn; simp [Deployment.torndown] at hn)
      (by intro hb; simp [Deployment.torndown] at hb)
    exact ⟨k1, by rw [k2]; rfl⟩

/-- Witness for C13 (amended): the running system, torn down with collaborators
that return, then torn down again with collaborators that all raise. -/
theorem destroy_clean_and_idempotent_witness :
    (∀ name ∈ liveDeployment.manager.crawlers.map Prod.fst,
        calmTeardown.onCleanup name = .ok ())
      ∧ (liveDeployment.requestService.browserOpen = true → calmTeardown.closeBrowser = .ok ())
      ∧ (liveDeployment.destroy calmTeardown).outcome = .ok ()
      ∧ (liveDeployment.destroy calmTeardown).state.manager.crawlers = []
      ∧ (((liveDeployment.destroy calmTeardown).state.destroy roughTeardown).outcome = .ok ()
          ∧ ((liveDeployment.destroy calmTeardown).state.destroy roughTeardown).state
              = (liveDeployment.destroy calmTeardown).state) :=
  ⟨fun _ _ => rfl, fun _ => rfl,
    (destroy_clean_and_idempotent liveDeployment calmTeardown (fun _ _ => rfl)
      (fun _ => rfl)).1,
    (destroy_clean_and_idempotent liveDeployment calmTeardown (fun _ _ => rfl)
      (fun _ => rfl)).2.1,
    (destroy_clean_and_idempotent liveDeployment calmTeardown (fun _ _ => rfl)
      (fun _ => rfl)).2.2.2.2.2.2.2.2.2 roughTeardown⟩

/-- C13 (counterexample). The running system has the browser open and
`browser.close()` raises: `destroy()` raises that error, and the manager is still
initialized, the browser still set and the pacing entry still there. -/
theorem destroy_raises_when_close_raises :
    liveDeployment.requestService.browserOpen = true
      ∧ (liveDeployment.destroy stuckBrowserTeardown).outcome
          = .error { message := "Protocol error: Target closed" }
      ∧ (liveDeployment.destroy stuckBrowserTeardown).state.manager.isInitialized = true
      ∧ (liveDeployment.destroy stuckBrowserTeardown).state.requestService.browserOpen = true
      ∧ (liveDeployment.destroy stuckBrowserTeardown).state.requestService.rateLimiter.requestTimes
          = [("farside.co.uk", 9500)] :=
  ⟨rfl, rfl, rfl, rfl, rfl⟩

/-! ## Fallback between the fetch modes -/

/-- C17 (amended). The fallback composition of the crawler layer is
rendered-first-then-direct: for every site `crawlSiteWithPuppeteer` first attempts
the rendered (browser) fetch, attempts the direct (HTTP) fetch if and only if the
rendered fetch did not yield a parsed document (it returned a failure, or it or the
parsing of its document raised), and returns a failure only after both modes were
attempted. -/
theorem rendered_first_fallback (site : Site) (env : SiteEnv) :
    (crawlSiteWithPuppeteer site env).attempts.head? = some FetchMode.rendered
      ∧ (FetchMode.direct ∈ (crawlSiteWithPuppeteer site env).attempts
          ↔ env.renderedYields = false)
      ∧ ((crawlSiteWithPuppeteer site env).result.success = false →
          (crawlSiteWithPuppeteer site env).attempts = [FetchMode.rendered, FetchMode.direct])
      ∧ (env.renderedYields = true →
          (crawlSiteWithPuppeteer site env).attempts = [FetchMode.rendered]
            ∧ (crawlSiteWithPuppeteer site env).result.success = true) := by
  unfold crawlSiteWithPuppeteer SiteEnv.renderedYields
  rcases hr : env.rendered with e | response
  · simp [crawlSiteWithHttp]
  · cases hs : response.success
    · simp only [crawlSiteWithHttp, hs]
      refine ⟨by simp, ?_, by simp, ?_⟩
      · constructor
        · intro _
          split <;> simp_all
        · intro _; simp
      · intro h
        split at h <;> simp_all
    · rcases hp : env.renderedParse with e | page
      · simp [crawlSiteWithHttp, hs]
      · simp [hs, siteSuccess]

/-- C17 (counterexample). On a site that both modes can fetch, the only fetch
attempted is the rendered one: the direct fetch is not first, it is not attempted
at all. -/
theorem rendered_fetch_comes_first :
    openSiteEnv.direct = .ok pageFetched
      ∧ (crawlSiteWithPuppeteer bitcoinSite openSiteEnv).attempts = [FetchMode.rendered]
      ∧ (crawlSiteWithPuppeteer bitcoinSite openSiteEnv).attempts.head?
          ≠ some FetchMode.direct
      ∧ (crawlSiteWithPuppeteer bitcoinSite openSiteEnv).result.success = true :=
  ⟨rfl, rfl, by decide, rfl⟩

/-! ## Readiness polls -/

/-- A Bitcoin poll that arms the timer again saw the condition false, before the
maximum wait. -/
theorem checkReadyStep_again (elapsed : Nat) (p : PageState)
    (h : checkReadyStep elapsed p = PollStep.again) :
    bitcoinReady p = false ∧ elapsed < 15000 := by
  unfold checkReadyStep at h
  unfold bitcoinReady
  cases hc : isChallengeTitle p.title <;> by_cases ht : p.tables > 0 <;>
    by_cases he : elapsed < 15000 <;> simp_all

/-- A Bitcoin poll that resolves saw the condition true or the maximum wait
elapsed. -/
theorem checkReadyStep_resolve (elapsed : Nat) (p : PageState)
    (h : checkReadyStep elapsed p = PollStep.resolve) :
    bitcoinReady p = true ∨ 15000 ≤ elapsed := by
  unfold checkReadyStep at h
  unfold bitcoinReady
  cases hc : isChallengeTitle p.title <;> by_cases ht : p.tables > 0 <;>
    by_cases he : elapsed < 15000 <;> simp_all

/-- A Bitcoin poll that sees the condition true resolves. -/
theorem checkReadyStep_ready (elapsed : Nat) (p : PageState)
    (h : bitcoinReady p = true) : checkReadyStep elapsed p = PollStep.resolve := by
  unfold bitcoinReady at h
  unfold checkReadyStep
  cases hc : isChallengeTitle p.title <;> by_cases ht : p.tables > 0 <;> simp_all

/-- The chain of Bitcoin polls entered at poll `index`, at that poll's time, with
enough polls left to reach the maximum wait: it resolves, every poll before the
resolving one armed the timer again, and the resolving poll resolved at its
time. -/
theorem checkReadyLoop_spec (states : Nat → PageState) (lags : Nat → Nat) (fuel : Nat) :
    ∀ index : Nat, 15000 ≤ bitcoinPollTime lags index + 1000 * fuel →
      ∃ run, checkReadyLoop states lags (fuel + 1) index (bitcoinPollTime lags index) = some run
        ∧ index + 1 ≤ run.polls
        ∧ run.polls ≤ index + 1 + fuel
        ∧ run.resolvedAt = bitcoinPollTime lags (run.polls - 1)
        ∧ checkReadyStep (bitcoinPollTime lags (run.polls - 1)) (states (run.polls - 1))
            = PollStep.resolve
        ∧ ∀ i, index ≤ i → i + 1 < run.polls →
            checkReadyStep (bitcoinPollTime lags i) (states i) = PollStep.again := by
  induction fuel with
  | zero =>
    intro index hfuel
    have hres : checkReadyStep (bitcoinPollTime lags index) (states index)
        = PollStep.resolve := by
      cases hs : checkReadyStep (bitcoinPollTime lags index) (states index) with
      | resolve => rfl
      | again =>
        have := (checkReadyStep_again _ _ hs).2
        omega
    refine ⟨{ polls := index + 1, resolvedAt := bitcoinPollTime lags index }, ?_, ?_, ?_, ?_, ?_, ?_⟩
    · simp [checkReadyLoop, hres]
    · simp
    · simp
    · simp
    · simpa using hres
    · intro i h1 h2; simp at h2; omega
  | succ fuel ih =>
    intro index hfuel
    cases hs : checkReadyStep (bitcoinPollTime lags index) (states index) with
    | resolve =>
      refine ⟨{ polls := index + 1, resolvedAt := bitcoinPollTime lags index }, ?_, ?_, ?_, ?_, ?_, ?_⟩
      · simp [checkReadyLoop, hs]
      · simp
      · simp
      · simp
      · simpa using hs
      · intro i h1 h2; simp at h2; omega
    | again =>
      obtain ⟨run, h1, h2, h3, h4, h5, h6⟩ := ih (index + 1)
        (by simp only [bitcoinPollTime]; omega)
      refine ⟨run, ?_, by omega, by omega, h4, h5, ?_⟩
      · rw [checkReadyLoop, hs]
        simpa [bitcoinPollTime] using h1
      · intro i hi1 hi2
        by_cases hii : i = index
        · subst hii; exact hs
        · exact h6 i (by omega) hi2

/-- The Bitcoin script always resolves, within fourteen polls. -/
theorem bitcoinPoll_spec (states : Nat → PageState) (lags : Nat → Nat) :
    ∃ run, bitcoinPoll states lags = some run
      ∧ 1 ≤ run.polls ∧ run.polls ≤ 14
      ∧ run.resolvedAt = bitcoinPollTime lags (run.polls - 1)
      ∧ checkReadyStep (bitcoinPollTime lags (run.polls - 1)) (states (run.polls - 1))
          = PollStep.resolve
      ∧ ∀ i, i + 1 < run.polls →
          checkReadyStep (bitcoinPollTime lags i) (states i) = PollStep.again := by
  obtain ⟨run, h1, h2, h3, h4, h5, h6⟩ := checkReadyLoop_spec states lags 13 0
    (by simp only [bitcoinPollTime]; omega)
  exact ⟨run, h1, by omega, by omega, h4, h5, fun i hi => h6 i (by omega) hi⟩

/-- An Ethereum poll that arms the timer again saw the condition false, before the
last check. -/
theorem checkPageStatusStep_again (checkCount : Nat) (p : PageState)
    (h : checkPageStatusStep checkCount p = PollStep.again) :
    ethereumReady p = false ∧ checkCount < 120 := by
  unfold checkPageStatusStep at h
  unfold ethereumReady
  cases h1 : (includes p.title "ETF" && !includes p.title "稍候") <;>
    by_cases h2 : p.tables > 0 <;> cases h3 : (p.challengeError || p.turnstile) <;>
    by_cases h4 : checkCount ≥ 120 <;> simp_all

/-- An Ethereum poll that resolves saw the condition true or was the last check. -/
theorem checkPageStatusStep_resolve (checkCount : Nat) (p : PageState)
    (h : checkPageStatusStep checkCount p = PollStep.resolve) :
    ethereumReady p = true ∨ 120 ≤ checkCount := by
  unfold checkPageStatusStep at h
  unfold ethereumReady
  cases h1 : (includes p.title "ETF" && !includes p.title "稍候") <;>
    by_cases h2 : p.tables > 0 <;> cases h3 : (p.challengeError || p.turnstile) <;>
    by_cases h4 : checkCount ≥ 120 <;> simp_all

/-- An Ethereum poll that sees the condition true resolves. -/
theorem checkPageStatusStep_ready (checkCount : Nat) (p : PageState)
    (h : ethereumReady p = true) : checkPageStatusStep checkCount p = PollStep.resolve := by
  unfold ethereumReady at h
  unfold checkPageStatusStep
  cases h1 : (includes p.title "ETF" && !includes p.title "稍候") <;>
    by_cases h2 : p.tables > 0 <;> cases h3 : (p.challengeError || p.turnstile) <;>
    simp_all

/-- The chain of Ethereum polls entered with `count` checks done and enough polls
left to reach the 120th: it resolves, every poll before the resolving one armed the
timer again. -/
theorem checkPageStatusLoop_spec (states : Nat → PageState) (lags : Nat → Nat)
    (fuel : Nat) :
    ∀ (count elapsed : Nat), 120 ≤ count + 1 + fuel →
      ∃ run, checkPageStatusLoop states lags (fuel + 1) count elapsed = some run
        ∧ count + 1 ≤ run.polls
        ∧ run.polls ≤ count + 1 + fuel
        ∧ checkPageStatusStep run.polls (states (run.polls - 1)) = PollStep.resolve
        ∧ ∀ i, count ≤ i → i + 1 < run.polls →
            checkPageStatusStep (i + 1) (states i) = PollStep.again := by
  induction fuel with
  | zero =>
    intro count elapsed hfuel
    have hres : checkPageStatusStep (count + 1) (states count) = PollStep.resolve := by
      cases hs : checkPageStatusStep (count + 1) (states count) with
      | resolve => rfl
      | again =>
        have := (checkPageStatusStep_again _ _ hs).2
        omega
    refine ⟨{ polls := count + 1, resolvedAt := elapsed }, ?_, ?_, ?_, ?_, ?_⟩
    · simp [checkPageStatusLoop, hres]
    · simp
    · simp
    · simpa using hres
    · intro i h1 h2; simp at h2; omega
  | succ fuel ih =>
    intro count elapsed hfuel
    cases hs : checkPageStatusStep (count + 1) (states count) with
    | resolve =>
      refine ⟨{ polls := count + 1, resolvedAt := elapsed }, ?_, ?_, ?_, ?_, ?_⟩
      · simp [checkPageStatusLoop, hs]
      · simp
      · simp
      · simpa using hs
      · intro i h1 h2; simp at h2; omega
    | again =>
      obtain ⟨run, h1, h2, h3, h4, h5⟩ := ih (count + 1)
        (elapsed + 1000 + lags (count + 1)) (by omega)
      refine ⟨run, ?_, by omega, by omega, h4, ?_⟩
      · rw [checkPageStatusLoop, hs]
        simpa using h1
      · intro i hi1 hi2
        by_cases hii : i = count
        · subst hii; exact hs
        · exact h5 i (by omega) hi2

/-- The Ethereum script always resolves, within 120 polls. -/
theorem ethereumPoll_spec (states : Nat → PageState) (lags : Nat → Nat) :
    ∃ run, ethereumPoll states lags = some run
      ∧ 1 ≤ run.polls ∧ run.polls ≤ 120
      ∧ checkPageStatusStep run.polls (states (run.polls - 1)) = PollStep.resolve
      ∧ ∀ i, i + 1 < run.polls →
          checkPageStatusStep (i + 1) (states i) = PollStep.again := by
  obtain ⟨run, h1, h2, h3, h4, h5⟩ := checkPageStatusLoop_spec states lags 119 0
    (3000 + lags 0) (by omega)
  exact ⟨run, h1, by omega, by omega, h4, fun i hi => h5 i (by omega) hi⟩

/-- With timers that fire on time, Bitcoin poll `i` takes place at
`2000 + 1000 * i` ms. -/
theorem bitcoinPollTime_punctual (lags : Nat → Nat) (h : ∀ i, lags i = 0) (i : Nat) :
    bitcoinPollTime lags i = 2000 + 1000 * i := by
  induction i with
  | zero => simp [bitcoinPollTime, h]
  | succ i ih => simp only [bitcoinPollTime, ih, h]; omega

/-- C18. For every sequence of page states and every timer overshoot, each
readiness script resolves, and it resolves at the first poll at which its readiness
condition holds: every poll before the resolving one saw the condition false, a
poll that sees the condition true is the resolving one and no poll follows it, and
when the condition first holds at poll `i`, reached before the time-out (Bitcoin:
every earlier poll took place before 15000 ms; Ethereum: `i` is among the first 120
polls), exactly `i + 1` polls are performed and the Bitcoin script resolves at the
time of poll `i`. -/
theorem poll_resolves_at_first_ready (states : Nat → PageState) (lags : Nat → Nat) :
    (∃ run, bitcoinPoll states lags = some run
        ∧ (∀ i, i + 1 < run.polls → bitcoinReady (states i) = false)
        ∧ (∀ i, i < run.polls → bitcoinReady (states i) = true →
            run.polls = i + 1 ∧ run.resolvedAt = bitcoinPollTime lags i)
        ∧ (∀ i, bitcoinReady (states i) = true →
            (∀ j, j < i → bitcoinReady (states j) = false) →
            (∀ j, j < i → bitcoinPollTime lags j < 15000) →
            run = { polls := i + 1, resolvedAt := bitcoinPollTime lags i }))
      ∧ (∃ run, ethereumPoll states lags = some run
        ∧ (∀ i, i + 1 < run.polls → ethereumReady (states i) = false)
        ∧ (∀ i, i < run.polls → ethereumReady (states i) = true → run.polls = i + 1)
        ∧ (∀ i, ethereumReady (states i) = true →
            (∀ j, j < i → ethereumReady (states j) = false) → i < 120 →
            run.polls = i + 1)) := by
  constructor
  · obtain ⟨run, h1, h2, h3, h4, h5, h6⟩ := bitcoinPoll_spec states lags
    have hbefore : ∀ i, i + 1 < run.polls → bitcoinReady (states i) = false :=
      fun i hi => (checkReadyStep_again _ _ (h6 i hi)).1
    have hlast : ∀ i, i < run.polls → bitcoinReady (states i) = true → run.polls = i + 1 := by
      intro i hi hr
      by_contra hne
      have := hbefore i (by omega)
      rw [hr] at this
      cases this
    refine ⟨run, h1, hbefore, ?_, ?_⟩
    · intro i hi hr
      have hp := hlast i hi hr
      refine ⟨hp, ?_⟩
      rw [h4, hp]; simp
    · intro i hr hfalse htime
      have hp : run.polls = i + 1 := by
        by_contra hne
        rcases Nat.lt_or_gt_of_ne hne with hlt | hgt
        · have hj : run.polls - 1 < i := by omega
          rcases checkReadyStep_resolve _ _ h5 with hready | hout
          · rw [hfalse _ hj] at hready; cases hready
          · have := htime _ hj
            omega
        · have := hbefore i (by omega)
          rw [hr] at this
          cases this
      cases run with
      | mk polls resolvedAt =>
        simp only at hp h4
        subst hp
        simp [h4]
  · obtain ⟨run, h1, h2, h3, h5, h6⟩ := ethereumPoll_spec states lags
    have hbefore : ∀ i, i + 1 < run.polls → ethereumReady (states i) = false :=
      fun i hi => (checkPageStatusStep_again _ _ (h6 i hi)).1
    refine ⟨run, h1, hbefore, ?_, ?_⟩
    · intro i hi hr
      by_contra hne
      have := hbefore i (by omega)
      rw [hr] at this
      cases this
    · intro i hr hfalse hi
      by_contra hne
      rcases Nat.lt_or_gt_of_ne hne with hlt | hgt
      · have hj : run.polls - 1 < i := by omega
        rcases checkPageStatusStep_resolve _ _ h5 with hready | hout
        · rw [hfalse _ hj] at hready; cases hready
        · omega
      · have := hbefore i (by omega)
        rw [hr] at this
        cases this

/-- Witness for C18: the challenge clears before the third poll; with timers on
time the Bitcoin script performs three polls and resolves at 4000 ms, far from the
15000 ms of the maximum wait. -/
theorem poll_resolves_at_first_ready_witness :
    bitcoinReady (clearingStates 2) = true
      ∧ (∀ j, j < 2 → bitcoinReady (clearingStates j) = false)
      ∧ (∀ j, j < 2 → bitcoinPollTime punctual j < 15000)
      ∧ bitcoinPoll clearingStates punctual = some { polls := 3, resolvedAt := 4000 }
      ∧ ∃ run, bitcoinPoll clearingStates punctual = some run
          ∧ ∀ i, i + 1 < run.polls → bitcoinReady (clearingStates i) = false :=
  ⟨by decide, by decide, by decide, by decide,
    (poll_resolves_at_first_ready clearingStates punctual).1.elim
      (fun run h => ⟨run, h.1, h.2.1⟩)⟩

/-- C19. When the readiness condition never becomes true the script still
resolves. Bitcoin variant: at the first poll taking place at or after 15000 ms, the
polls being 2000 ms after the start and then 1000 ms apart plus timer overshoot
(with timers on time: the 14th poll, at 15000 ms). Ethereum variant: at the 120th
poll. And a rendered fetch whose page session navigates and runs either script
returns a success result holding the document of the page at the resolving poll,
whether or not the condition ever held. -/
theorem poll_times_out (states : Nat → PageState) (lags : Nat → Nat) :
    ((∀ i, bitcoinReady (states i) = false) →
        ∃ run, bitcoinPoll states lags = some run
          ∧ 15000 ≤ run.resolvedAt
          ∧ run.resolvedAt = bitcoinPollTime lags (run.polls - 1)
          ∧ (∀ i, i + 1 < run.polls → bitcoinPollTime lags i < 15000)
          ∧ ((∀ i, lags i = 0) → run = { polls := 14, resolvedAt := 15000 }))
      ∧ ((∀ i, ethereumReady (states i) = false) →
        ∃ run, ethereumPoll states lags = some run ∧ run.polls = 120)
      ∧ ∀ (svc : RequestService) (hostname : String → Option String) (url d : String)
          (env : RenderEnv) (status : Nat) (finalUrl : String) (script : Option PollRun),
          (script = bitcoinPoll states lags ∨ script = ethereumPoll states lags) →
          hostname url = some d →
          (svc.browserOpen = true ∨ env.launch = .ok ()) →
          env.page = pageSession (.ok status) script states finalUrl →
          ∃ run r, script = some run
            ∧ (svc.fetchWithPuppeteer hostname url env).outcome = .ok r
            ∧ r.success = true
            ∧ r.data = some (states (run.polls - 1)).content := by
  refine ⟨?_, ?_, ?_⟩
  · intro hnever
    obtain ⟨run, h1, h2, h3, h4, h5, h6⟩ := bitcoinPoll_spec states lags
    have hout : 15000 ≤ bitcoinPollTime lags (run.polls - 1) := by
      rcases checkReadyStep_resolve _ _ h5 with hready | hout
      · rw [hnever] at hready; cases hready
      · exact hout
    have hearly : ∀ i, i + 1 < run.polls → bitcoinPollTime lags i < 15000 :=
      fun i hi => (checkReadyStep_again _ _ (h6 i hi)).2
    refine ⟨run, h1, by rw [h4]; exact hout, h4, hearly, ?_⟩
    intro hlags
    have hp : run.polls = 14 := by
      have t1 := bitcoinPollTime_punctual lags hlags (run.polls - 1)
      by_cases h2p : run.polls < 2
      · omega
      · have t2 := bitcoinPollTime_punctual lags hlags (run.polls - 2)
        have := hearly (run.polls - 2) (by omega)
        omega
    cases run with
    | mk polls resolvedAt =>
      simp only at hp h4
      subst hp
      rw [h4, bitcoinPollTime_punctual lags hlags]
  · intro hnever
    obtain ⟨run, h1, h2, h3, h5, h6⟩ := ethereumPoll_spec states lags
    refine ⟨run, h1, ?_⟩
    rcases checkPageStatusStep_resolve _ _ h5 with hready | hout
    · rw [hnever] at hready; cases hready
    · omega
  · intro svc hostname url d env status finalUrl script hscript hd hbrowser hpage
    have hrun : ∃ run, script = some run := by
      rcases hscript with h | h
      · obtain ⟨run, h1, _⟩ := bitcoinPoll_spec states lags
        exact ⟨run, by rw [h, h1]⟩
      · obtain ⟨run, h1, _⟩ := ethereumPoll_spec states lags
        exact ⟨run, by rw [h, h1]⟩
    obtain ⟨run, hrun⟩ := hrun
    refine ⟨run, ?_⟩
    subst hrun
    simp only [pageSession] at hpage
    unfold RequestService.fetchWithPuppeteer
    simp only [hd, hpage]
    cases hb : svc.browserOpen with
    | true => exact ⟨_, trivial, rfl, rfl, rfl⟩
    | false =>
      have hl : env.launch = .ok () := by
        rcases hbrowser with h | h
        · rw [hb] at h; cases h
        · exact h
      simp only [hl]
      exact ⟨_, trivial, rfl, rfl, rfl⟩

/-- Witness for C19: the challenge never clears and the timers fire on time; the
Bitcoin script resolves at the 14th poll, at 15000 ms, the Ethereum script at the
120th, and the rendered fetch returns the challenge page as a success. -/
theorem poll_times_out_witness :
    (∀ i, bitcoinReady (stuckStates i) = false)
      ∧ (∀ i, ethereumReady (stuckStates i) = false)
      ∧ (∃ run, bitcoinPoll stuckStates punctual = some run
          ∧ 15000 ≤ run.resolvedAt
          ∧ run.resolvedAt = bitcoinPollTime punctual (run.polls - 1)
          ∧ (∀ i, i + 1 < run.polls → bitcoinPollTime punctual i < 15000)
          ∧ ((∀ i, punctual i = 0) → run = { polls := 14, resolvedAt := 15000 }))
      ∧ (∃ run, ethereumPoll stuckStates punctual = some run ∧ run.polls = 120)
      ∧ ∃ run r, bitcoinPoll stuckStates punctual = some run
          ∧ (defaultService.fetchWithPuppeteer farsideHostname farsideUrl
                stuckRenderCall).outcome = .ok r
          ∧ r.success = true
          ∧ r.data = some (stuckStates (run.polls - 1)).content :=
  ⟨fun _ => rfl, fun _ => rfl,
    (poll_times_out stuckStates punctual).1 (fun _ => rfl),
    (poll_times_out stuckStates punctual).2.1 (fun _ => rfl),
    (poll_times_out stuckStates punctual).2.2 defaultService farsideHostname farsideUrl
      "farside.co.uk" stuckRenderCall 200 farsideUrl (bitcoinPoll stuckStates punctual)
      (Or.inl rfl) (by decide) (Or.inr rfl) rfl⟩

/-! ## Dispatch slots -/

/-- Under the limiter of the module a step keeps the fetch bodies in flight within
the limit. -/
theorem step_keeps_bound (c : Nat) (s : Dispatcher) (e : DispatchEvent)
    (hl : s.limiter = Limiter.pLimit c) (hb : s.active ≤ c) :
    (s.step e).limiter = Limiter.pLimit c ∧ (s.step e).active ≤ c := by
  cases e with
  | call =>
    unfold Dispatcher.step
    by_cases h : s.active < c
    · simp [Limiter.admits, pLimitAdmits, hl, h]; omega
    · simp [Limiter.admits, pLimitAdmits, hl, h]; omega
  | complete =>
    unfold Dispatcher.step
    by_cases h0 : s.active = 0
    · simp [h0, hl]
    · by_cases hq : 0 < s.queued <;> by_cases ha : s.active - 1 < c <;>
        simp [Limiter.admits, pLimitAdmits, hl, h0, hq, ha] <;> omega

/-- Under the limiter of the module every sequence of events keeps the fetch bodies
in flight within the limit. -/
theorem exec_keeps_bound (c : Nat) (events : List DispatchEvent) :
    ∀ s : Dispatcher, s.limiter = Limiter.pLimit c → s.active ≤ c →
      (s.exec events).active ≤ c := by
  induction events with
  | nil => intro s _ hb; simpa [Dispatcher.exec] using hb
  | cons e rest ih =>
    intro s hl hb
    obtain ⟨h1, h2⟩ := step_keeps_bound c s e hl hb
    have := ih (s.step e) h1 h2
    simpa [Dispatcher.exec] using this

/-- The bound on the path where the limiter of the module is in use. When the
`p-limit` module loads and the configured limit `C` is at least 1, then after every
sequence of calls and completions, so at every moment
and for every number of concurrent callers, the number of fetch bodies (direct or
rendered) admitted and not yet completed is at most `C`. -/
theorem dispatch_bound (concurrentLimit : Int) (events : List DispatchEvent)
    (hC : 1 ≤ concurrentLimit) :
    (((Dispatcher.fresh (.ok ()) concurrentLimit).exec events).active : Int)
      ≤ concurrentLimit := by
  have hl : (Dispatcher.fresh (.ok ()) concurrentLimit).limiter
      = Limiter.pLimit concurrentLimit.toNat := by
    simp [Dispatcher.fresh, initializePLimit, hC]
  have := exec_keeps_bound concurrentLimit.toNat events _ hl (by simp [Dispatcher.fresh])
  have hn := Int.toNat_of_nonneg (show (0 : Int) ≤ concurrentLimit by omega)
  omega

/-- The bound with the limiter of the module: the default limit 3 and five callers,
one of which completes. -/
theorem dispatch_bound_witness :
    (1 : Int) ≤ 3
      ∧ (((Dispatcher.fresh (.ok ()) 3).exec
            [DispatchEvent.call, DispatchEvent.call, DispatchEvent.call, DispatchEvent.call,
             DispatchEvent.call, DispatchEvent.complete]).active : Int) ≤ 3 :=
  ⟨by decide,
    dispatch_bound 3
      [DispatchEvent.call, DispatchEvent.call, DispatchEvent.call, DispatchEvent.call,
       DispatchEvent.call, DispatchEvent.complete] (by decide)⟩

/-- C20 (failing input). The `p-limit` module fails to load and the configured
limit is 3: the fallback `(fn) => fn()`, which the comment above it calls a simple
concurrency control, admits each of four concurrent callers at once, so four fetch
bodies are in flight. -/
theorem fallback_admits_beyond_limit :
    (Dispatcher.fresh moduleMissing 3).limiter = Limiter.passThrough
      ∧ ((Dispatcher.fresh moduleMissing 3).exec
            [DispatchEvent.call, DispatchEvent.call, DispatchEvent.call,
             DispatchEvent.call]).active = 4
      ∧ ¬ ((((Dispatcher.fresh moduleMissing 3).exec
            [DispatchEvent.call, DispatchEvent.call, DispatchEvent.call,
             DispatchEvent.call]).active : Int) ≤ 3) := by
  decide

/-! ## The page of a rendered fetch -/

/-- The events of one rendered fetch: the page is created and closed, or there is no
page at all. -/
theorem fetchWithPuppeteerBody_events (browserOpen : Bool) (url : String) (s : PageScript) :
    (RequestService.fetchWithPuppeteerBody browserOpen url s).events
      = if s.createsPage browserOpen then [PageEvent.created, PageEvent.closed] else [] := by
  unfold RequestService.fetchWithPuppeteerBody PageScript.createsPage
  cases browserOpen <;> simp only [Bool.false_eq_true, if_false, if_true]
  · cases s.initBrowser <;> cases s.newPage <;> simp
    cases s.close <;> simp
  · cases s.newPage <;> simp
    cases s.close <;> simp

/-- One completed rendered fetch leaves the number of open page contexts as it
found it. -/
theorem openPages_fetch (n : Int) (browserOpen : Bool) (url : String) (s : PageScript)
    (rest : List PageEvent) :
    openPages n ((RequestService.fetchWithPuppeteerBody browserOpen url s).events ++ rest)
      = openPages n rest := by
  rw [fetchWithPuppeteerBody_events]
  split <;> simp [openPages]

/-- Completed rendered fetches leave the number of open page contexts as they found
it. -/
theorem openPages_pageEventsOf (calls : List (String × PageScript)) :
    ∀ (n : Int) (browserOpen : Bool), openPages n (pageEventsOf browserOpen calls) = n := by
  induction calls with
  | nil => intro n b; rfl
  | cons c rest ih =>
    intro n b
    obtain ⟨url, s⟩ := c
    simp only [pageEventsOf]
    rw [openPages_fetch, ih]

/-- With a `page.close()` that returns, the body agrees with the pacing model of the
rendered fetch: same record for the same page session. -/
theorem fetchWithPuppeteerBody_outcome (svc : RequestService)
    (hostname : String → Option String) (url : String) (env : RenderEnv) (s : PageScript)
    (d : String) (hd : hostname url = some d) (hclose : s.close = .ok ())
    (hlaunch : env.launch = s.initBrowser) (hpage : env.page = s.page) :
    (RequestService.fetchWithPuppeteerBody svc.browserOpen url s).outcome
      = (svc.fetchWithPuppeteer hostname url env).outcome := by
  unfold RequestService.fetchWithPuppeteerBody RequestService.fetchWithPuppeteer
  simp only [hd, hlaunch, hpage, hclose]
  unfold PageScript.page PageScript.session
  cases svc.browserOpen <;> cases s.initBrowser <;> simp <;>
    cases s.newPage <;> simp [bind, Except.bind] <;>
    cases s.prepare <;> simp <;>
    cases s.goto <;> simp <;>
    cases optionalStep s.waitForSelector <;> simp <;>
    cases optionalStep s.evaluate <;> simp <;>
    cases s.content <;> simp <;>
    cases s.load <;> simp [pure, Except.pure]

/-- C21. In every rendered fetch, whatever each call on the browser and the page
does (return or raise: success, navigation error, selector timeout, readiness-script
error), `page.close()` is called exactly once, after the page was created, when
`browser.newPage()` returned a page, and neither event occurs otherwise; so after
any sequence of completed rendered fetches, starting with no page open, the number
of open page contexts is zero. -/
theorem page_closed_exactly_once (browserOpen : Bool) (url : String) (s : PageScript)
    (calls : List (String × PageScript)) :
    ((RequestService.fetchWithPuppeteerBody browserOpen url s).events.count PageEvent.created
        = if s.createsPage browserOpen then 1 else 0)
      ∧ ((RequestService.fetchWithPuppeteerBody browserOpen url s).events.count PageEvent.closed
        = if s.createsPage browserOpen then 1 else 0)
      ∧ ((RequestService.fetchWithPuppeteerBody browserOpen url s).events
        = if s.createsPage browserOpen then [PageEvent.created, PageEvent.closed] else [])
      ∧ openPages 0 (pageEventsOf browserOpen calls) = 0 := by
  refine ⟨?_, ?_, fetchWithPuppeteerBody_events browserOpen url s,
    openPages_pageEventsOf calls 0 browserOpen⟩
  · rw [fetchWithPuppeteerBody_events]; split <;> decide
  · rw [fetchWithPuppeteerBody_events]; split <;> decide

/-- The four outcomes the page session can have, and a fetch that gets no page:
the page, when there is one, is created and closed once, and five fetches in a row
leave no page open. -/
theorem page_events_of_outcomes :
    (RequestService.fetchWithPuppeteerBody false farsideUrl smoothScript).events
        = [PageEvent.created, PageEvent.closed]
      ∧ (RequestService.fetchWithPuppeteerBody true farsideUrl navigationTimeout).events
        = [PageEvent.created, PageEvent.closed]
      ∧ (RequestService.fetchWithPuppeteerBody true farsideUrl selectorTimeout).events
        = [PageEvent.created, PageEvent.closed]
      ∧ (RequestService.fetchWithPuppeteerBody true farsideUrl scriptError).events
        = [PageEvent.created, PageEvent.closed]
      ∧ (RequestService.fetchWithPuppeteerBody true farsideUrl noPage).events = []
      ∧ openPages 0 (pageEventsOf false
          [(farsideUrl, smoothScript), (farsideUrl, navigationTimeout),
           (farsideUrl, selectorTimeout), (farsideUrl, scriptError), (farsideUrl, noPage)]) = 0 := by
  decide

/-! ## The fetch helpers never raise -/

/-- Closed form of `fetchPage`: it returns the record, and leaves the counters, that
the function on crawler states gives. -/
theorem fetchPage_closed (url : String) (served : Except JsError FetchResult) (w : World) :
    (fetchPage url served w).1 = .ok (w.crawler.fetchPage url served).1
      ∧ (fetchPage url served w).2.crawler = (w.crawler.fetchPage url served).2 := by
  cases served with
  | error e =>
    simp [fetchPage, BaseCrawler.fetchPage, BaseCrawler.countFetch, awaitService, Eff.tryCatch,
      Eff.throw, Eff.pure, modifyCrawler, logLine, bind, Eff.bind, fetchFailure]
  | ok result =>
    cases hs : result.success <;>
      simp [fetchPage, BaseCrawler.fetchPage, BaseCrawler.countFetch, awaitService,
        Eff.tryCatch, Eff.throw, Eff.pure, modifyCrawler, logLine, bind, Eff.bind, hs]

/-- Closed form of `fetchPageWithBrowser`. -/
theorem fetchPageWithBrowser_closed (url : String) (served : Except JsError FetchResult)
    (w : World) :
    (fetchPageWithBrowser url served w).1 = .ok (w.crawler.fetchPageWithBrowser url served).1
      ∧ (fetchPageWithBrowser url served w).2.crawler
          = (w.crawler.fetchPageWithBrowser url served).2 := by
  cases served with
  | error e =>
    simp [fetchPageWithBrowser, BaseCrawler.fetchPageWithBrowser, BaseCrawler.countFetch,
      awaitService, Eff.tryCatch, Eff.throw, Eff.pure, modifyCrawler, logLine, bind, Eff.bind,
      fetchFailure]
  | ok result =>
    cases hs : result.success <;>
      simp [fetchPageWithBrowser, BaseCrawler.fetchPageWithBrowser, BaseCrawler.countFetch,
        awaitService, Eff.tryCatch, Eff.throw, Eff.pure, modifyCrawler, logLine, bind,
        Eff.bind, hs]

/-- The direct fetch of a url that `new URL` rejects raises, and so does
`fetchAndParse`. -/
theorem fetchAndParse_malformed (svc : RequestService) (hostname : String → Option String)
    (url : String) (env : CallEnv) (load : Option String → Except JsError Unit)
    (h : hostname url = none) :
    svc.fetchAndParse hostname url env load = .error { message := "Invalid URL" } := by
  simp [RequestService.fetchAndParse, RequestService.request, h]

/-- C22. `fetchPage` and `fetchPageWithBrowser` never raise: for every url, every
crawler state and every behaviour of the request service (a success record, a
failure record, or an error raised) they return a record; it is the record of the
request service when that returned one, and the failure record with the raised
message and the url when the request service raised. So for a malformed url, where
`fetchAndParse` and `fetchWithPuppeteer` raise, the record returned is the failure
record with their error. -/
theorem fetch_helpers_never_raise (url : String) (served : Except JsError FetchResult)
    (w : World) (svc : RequestService) (hostname : String → Option String)
    (env : CallEnv) (renv : RenderEnv) (load : Option String → Except JsError Unit) :
    (∃ record, (fetchPage url served w).1 = .ok record
        ∧ (∀ result, served = .ok result → record = result)
        ∧ (∀ e, served = .error e → record = fetchFailure e url))
      ∧ (∃ record, (fetchPageWithBrowser url served w).1 = .ok record
        ∧ (∀ result, served = .ok result → record = result)
        ∧ (∀ e, served = .error e → record = fetchFailure e url))
      ∧ (hostname url = none →
          (fetchPage url (svc.fetchAndParse hostname url env load) w).1
            = .ok (fetchFailure { message := "Invalid URL" } url)
          ∧ (fetchPageWithBrowser url (svc.fetchWithPuppeteer hostname url renv).outcome w).1
            = .ok (fetchFailure { message := "Invalid URL" } url)) := by
  refine ⟨⟨_, (fetchPage_closed url served w).1, ?_, ?_⟩,
    ⟨_, (fetchPageWithBrowser_closed url served w).1, ?_, ?_⟩, ?_⟩
  · intro result h; subst h; rfl
  · intro e h; subst h; rfl
  · intro result h; subst h; rfl
  · intro e h; subst h; rfl
  · intro h
    constructor
    · rw [(fetchPage_closed _ _ _).1, fetchAndParse_malformed svc hostname url env load h]; rfl
    · rw [(fetchPageWithBrowser_closed _ _ _).1]
      simp [RequestService.fetchWithPuppeteer, h, BaseCrawler.fetchPageWithBrowser, fetchFailure]

/-- The three behaviours of the request service, and a malformed url, on the idle
crawler: a record comes back each time. -/
theorem fetch_helpers_on_examples :
    (fetchPage farsideUrl (.ok pageFetched) (World.fresh idleCrawler)).1 = .ok pageFetched
      ∧ (fetchPage farsideUrl servedRaise (World.fresh idleCrawler)).1
        = .ok (fetchFailure { message := "socket hang up" } farsideUrl)
      ∧ (fetchPageWithBrowser farsideUrl servedFailure (World.fresh idleCrawler)).1
        = servedFailure
      ∧ farsideHostname malformedUrl = none
      ∧ (fetchPage malformedUrl
          (defaultService.fetchAndParse farsideHostname malformedUrl firstCall loadsFine)
          (World.fresh idleCrawler)).1
        = .ok (fetchFailure { message := "Invalid URL" } malformedUrl) :=
  ⟨rfl, rfl, rfl, by decide, rfl⟩

/-! ## The request counters add up -/

/-- One completed fetch call: one more request, and one more success or one more
failure according to the record returned. -/
theorem countFetch_balanced (c : BaseCrawler) (success : Bool) :
    (c.countFetch success).stats.totalRequests = c.stats.totalRequests + 1
      ∧ (c.countFetch success).stats.successfulRequests
          = c.stats.successfulRequests + (if success then 1 else 0)
      ∧ (c.countFetch success).stats.failedRequests
          = c.stats.failedRequests + (if success then 0 else 1) := by
  cases success <;> simp [BaseCrawler.countFetch]

/-- The counters of the crawler after `fetchPage` are those of `countFetch` at the
success flag of the record returned. -/
theorem fetchPage_counts (c : BaseCrawler) (url : String)
    (served : Except JsError FetchResult) :
    (c.fetchPage url served).2 = c.countFetch (c.fetchPage url served).1.success := by
  cases served <;> rfl

/-- The same for `fetchPageWithBrowser`. -/
theorem fetchPageWithBrowser_counts (c : BaseCrawler) (url : String)
    (served : Except JsError FetchResult) :
    (c.fetchPageWithBrowser url served).2
      = c.countFetch (c.fetchPageWithBrowser url served).1.success := by
  cases served <;> rfl

/-- Each of the three calls keeps the counters balanced. -/
theorem apply_balanced (w : World) (op : StatsOp) (h : w.crawler.stats.balanced) :
    (op.apply w).crawler.stats.balanced := by
  unfold Stats.balanced at *
  cases op with
  | fetchPage url served =>
    simp only [StatsOp.apply]
    rw [(fetchPage_closed url served w).2, fetchPage_counts]
    obtain ⟨h1, h2, h3⟩ := countFetch_balanced w.crawler (w.crawler.fetchPage url served).1.success
    rw [h1, h2, h3]; split <;> omega
  | fetchPageWithBrowser url served =>
    simp only [StatsOp.apply]
    rw [(fetchPageWithBrowser_closed url served w).2, fetchPageWithBrowser_counts]
    obtain ⟨h1, h2, h3⟩ :=
      countFetch_balanced w.crawler (w.crawler.fetchPageWithBrowser url served).1.success
    rw [h1, h2, h3]; split <;> omega
  | resetStats => simp [StatsOp.apply, BaseCrawler.resetStats]

/-- Any sequence of the three calls keeps the counters balanced. -/
theorem execStats_balanced (ops : List StatsOp) :
    ∀ w : World, w.crawler.stats.balanced → (execStats w ops).crawler.stats.balanced := by
  induction ops with
  | nil => intro w h; exact h
  | cons op rest ih =>
    intro w h
    exact ih (op.apply w) (apply_balanced w op h)

/-- C27. For every crawler whose request counters add up (as they do in the crawler
the constructor builds, where all are zero) and every sequence of completed
`fetchPage`, `fetchPageWithBrowser` and `resetStats` calls,
`successfulRequests + failedRequests = totalRequests` afterwards; each completed fetch
call adds exactly 1 to `totalRequests` and exactly 1 to one of `successfulRequests`
and `failedRequests`, to `successfulRequests` exactly when the record it returns has
`success` true. -/
theorem request_counters_balance (w : World) (ops : List StatsOp) (url : String)
    (served : Except JsError FetchResult) (h : w.crawler.stats.balanced) :
    (execStats w ops).crawler.stats.balanced
      ∧ emptyStats.balanced
      ∧ (∃ record, (fetchPage url served w).1 = .ok record
          ∧ (fetchPage url served w).2.crawler.stats.totalRequests
              = w.crawler.stats.totalRequests + 1
          ∧ (fetchPage url served w).2.crawler.stats.successfulRequests
              = w.crawler.stats.successfulRequests + (if record.success then 1 else 0)
          ∧ (fetchPage url served w).2.crawler.stats.failedRequests
              = w.crawler.stats.failedRequests + (if record.success then 0 else 1))
      ∧ (∃ record, (fetchPageWithBrowser url served w).1 = .ok record
          ∧ (fetchPageWithBrowser url served w).2.crawler.stats.totalRequests
              = w.crawler.stats.totalRequests + 1
          ∧ (fetchPageWithBrowser url served w).2.crawler.stats.successfulRequests
              = w.crawler.stats.successfulRequests + (if record.success then 1 else 0)
          ∧ (fetchPageWithBrowser url served w).2.crawler.stats.failedRequests
              = w.crawler.stats.failedRequests + (if record.success then 0 else 1)) := by
  refine ⟨execStats_balanced ops w h, by decide, ?_, ?_⟩
  · refine ⟨_, (fetchPage_closed url served w).1, ?_⟩
    rw [(fetchPage_closed url served w).2, fetchPage_counts]
    exact countFetch_balanced _ _
  · refine ⟨_, (fetchPageWithBrowser_closed url served w).1, ?_⟩
    rw [(fetchPageWithBrowser_closed url served w).2, fetchPageWithBrowser_counts]
    exact countFetch_balanced _ _

/-- On the idle crawler: a success, a raising request service, a reset and a failure
record leave the counters at 1 request, 0 successes, 1 failure. -/
theorem request_counters_balance_witness :
    (World.fresh idleCrawler).crawler.stats.balanced
      ∧ (execStats (World.fresh idleCrawler)
          [StatsOp.fetchPage farsideUrl (.ok pageFetched),
           StatsOp.fetchPageWithBrowser farsideUrl servedRaise,
           StatsOp.resetStats,
           StatsOp.fetchPage farsideUrl servedFailure]).crawler.stats.balanced
      ∧ (execStats (World.fresh idleCrawler)
          [StatsOp.fetchPage farsideUrl (.ok pageFetched),
           StatsOp.fetchPageWithBrowser farsideUrl servedRaise,
           StatsOp.resetStats,
           StatsOp.fetchPage farsideUrl servedFailure]).crawler.counters = (1, 0, 1, 0) :=
  ⟨by decide,
   (request_counters_balance (World.fresh idleCrawler)
      [StatsOp.fetchPage farsideUrl (.ok pageFetched),
       StatsOp.fetchPageWithBrowser farsideUrl servedRaise,
       StatsOp.resetStats,
       StatsOp.fetchPage farsideUrl servedFailure] farsideUrl servedRaise (by decide)).1,
   rfl⟩

/-! ## Choosing an identity -/

/-- The manager the constructor builds is well formed. -/
theorem create_wellFormed (rotateEnabled : Bool) :
    (UserAgentManager.create rotateEnabled).wellFormed := by
  cases rotateEnabled <;> decide

/-- On a well-formed manager `getCommonUserAgent` returns an entry of the pool and
leaves the manager well formed. -/
theorem getCommonUserAgent_wellFormed (u : UserAgentManager) (h : u.wellFormed) :
    (∃ ua, u.getCommonUserAgent.1 = some ua ∧ ua ∈ u.commonUserAgents)
      ∧ u.getCommonUserAgent.2.wellFormed := by
  obtain ⟨hne, hidx⟩ := h
  have hpos : 0 < u.commonUserAgents.length := by omega
  unfold UserAgentManager.getCommonUserAgent
  cases u.rotateEnabled with
  | false =>
    simp only [Bool.not_false, if_true]
    exact ⟨⟨u.commonUserAgents[0], List.getElem?_eq_getElem hpos, List.getElem_mem _⟩,
      hne, hidx⟩
  | true =>
    simp only [Bool.not_true, Bool.false_eq_true, if_false]
    exact ⟨⟨u.commonUserAgents[u.currentIndex], List.getElem?_eq_getElem hidx,
      List.getElem_mem _⟩, hne, Nat.mod_lt _ hpos⟩

/-- C23. `getRandomUserAgent` never raises and, on a manager built by the
constructor and used through its methods (a pool of non-empty strings, the index
inside it) with a generator whose strings are non-empty, returns a non-empty
identity string: in static mode every call returns `commonUserAgents[0]` and leaves
the manager as it is; in rotating mode, when the generator raises, the call returns
the pool entry at `currentIndex` instead of propagating the error. The manager stays
well formed, and the one the constructor builds is. -/
theorem getRandomUserAgent_total (u : UserAgentManager) (generated : Except JsError String)
    (h : u.wellFormed) (hgen : ∀ s, generated = .ok s → s ≠ "") :
    (∃ ua, (u.getRandomUserAgent generated).1 = some ua ∧ ua ≠ ""
        ∧ (u.rotateEnabled = false →
            u.commonUserAgents[0]? = some ua ∧ (u.getRandomUserAgent generated).2 = u)
        ∧ (u.rotateEnabled = true → ∀ e, generated = .error e →
            u.commonUserAgents[u.currentIndex]? = some ua ∧ ua ∈ u.commonUserAgents))
      ∧ (u.getRandomUserAgent generated).2.wellFormed
      ∧ (∀ rotateEnabled, (UserAgentManager.create rotateEnabled).wellFormed) := by
  have hcommon := getCommonUserAgent_wellFormed u h
  obtain ⟨hne, hidx⟩ := h
  have hpos : 0 < u.commonUserAgents.length := by omega
  refine ⟨?_, ?_, create_wellFormed⟩
  · unfold UserAgentManager.getRandomUserAgent
    cases hr : u.rotateEnabled with
    | false =>
      refine ⟨u.commonUserAgents[0], ?_, hne _ (List.getElem_mem _), ?_, ?_⟩
      · simp [List.getElem?_eq_getElem hpos]
      · intro _; simp [List.getElem?_eq_getElem hpos]
      · intro hc; cases hc
    | true =>
      cases generated with
      | ok s =>
        refine ⟨s, by simp, hgen s rfl, ?_, ?_⟩
        · intro hc; cases hc
        · intro _ e he; cases he
      | error e =>
        refine ⟨u.commonUserAgents[u.currentIndex], ?_, hne _ (List.getElem_mem _), ?_, ?_⟩
        · simp [UserAgentManager.getCommonUserAgent, hr, List.getElem?_eq_getElem hidx]
        · intro hc; cases hc
        · intro _ _ _; exact ⟨List.getElem?_eq_getElem hidx, List.getElem_mem _⟩
  · unfold UserAgentManager.getRandomUserAgent
    cases hr : u.rotateEnabled with
    | false => simpa using ⟨hne, hidx⟩
    | true =>
      simp only [Bool.not_true, Bool.false_eq_true, if_false]
      cases generated with
      | ok s => exact ⟨hne, hidx⟩
      | error e => exact hcommon.2

/-- The rotating manager of the constructor with a generator that raises: the first
entry of the pool comes back and the index advances. -/
theorem getRandomUserAgent_total_witness :
    (UserAgentManager.create true).wellFormed
      ∧ ((UserAgentManager.create true).getRandomUserAgent brokenGenerator).1
          = predefinedUserAgents[0]?
      ∧ ((UserAgentManager.create true).getRandomUserAgent brokenGenerator).2.currentIndex = 1
      ∧ ((UserAgentManager.create true).getRandomUserAgent brokenGenerator).2.wellFormed :=
  ⟨by decide, rfl, rfl,
   (getRandomUserAgent_total (UserAgentManager.create true) brokenGenerator (by decide)
      (fun s hs => by cases hs)).2.1⟩

/-! ## Merging records -/

/-- The filter keeps a sublist, its keys are distinct and none of them is in
`seen`. -/
theorem dedupFilter_keys {α : Type} (stringify : α → String) (data : List α) :
    ∀ seen : List String,
      (dedupFilter stringify seen data).Sublist data
        ∧ ((dedupFilter stringify seen data).map stringify).Nodup
        ∧ (∀ r ∈ dedupFilter stringify seen data, stringify r ∉ seen) := by
  induction data with
  | nil => intro seen; simp [dedupFilter]
  | cons item rest ih =>
    intro seen
    unfold dedupFilter
    split
    · obtain ⟨h1, h2, h3⟩ := ih seen
      exact ⟨h1.cons _, h2, h3⟩
    · rename_i hnot
      obtain ⟨h1, h2, h3⟩ := ih (stringify item :: seen)
      refine ⟨h1.cons₂ _, ?_, ?_⟩
      · rw [List.map_cons, List.nodup_cons]
        refine ⟨?_, h2⟩
        intro hmem
        obtain ⟨r, hr, hk⟩ := List.mem_map.mp hmem
        exact h3 r hr (by rw [hk]; exact List.mem_cons_self _ _)
      · intro r hr
        rcases List.mem_cons.mp hr with rfl | hr
        · exact hnot
        · exact fun hs => h3 r hr (List.mem_cons_of_mem _ hs)

/-- Every item is represented: its key is in `seen` or is the key of a kept item. -/
theorem dedupFilter_covers {α : Type} (stringify : α → String) (data : List α) :
    ∀ seen : List String, ∀ r ∈ data,
      stringify r ∈ seen ∨ ∃ k ∈ dedupFilter stringify seen data, stringify k = stringify r := by
  induction data with
  | nil => intro seen r hr; cases hr
  | cons item rest ih =>
    intro seen r hr
    unfold dedupFilter
    rcases List.mem_cons.mp hr with rfl | hr
    · split
      · rename_i h; exact Or.inl h
      · exact Or.inr ⟨r, List.mem_cons_self _ _, rfl⟩
    · split
      · exact ih seen r hr
      · rcases ih (stringify item :: seen) r hr with h | ⟨k, hk, hkr⟩
        · rcases List.mem_cons.mp h with h | h
          · exact Or.inr ⟨item, List.mem_cons_self _ _, h.symm⟩
          · exact Or.inl h
        · exact Or.inr ⟨k, List.mem_cons_of_mem _ hk, hkr⟩

/-- A kept item is the first item of the input with its key. -/
theorem dedupFilter_first {α : Type} (stringify : α → String) (data : List α) :
    ∀ seen : List String, ∀ r ∈ dedupFilter stringify seen data,
      data.find? (fun x => stringify x = stringify r) = some r := by
  induction data with
  | nil => intro seen r hr; simp [dedupFilter] at hr
  | cons item rest ih =>
    intro seen r hr
    unfold dedupFilter at hr
    split at hr
    · rename_i hseen
      have hk : stringify r ∉ seen := (dedupFilter_keys stringify rest seen).2.2 r hr
      have hne : stringify item ≠ stringify r := fun h => hk (h ▸ hseen)
      rw [List.find?_cons_of_neg _ (by simpa using hne)]
      exact ih seen r hr
    · rcases List.mem_cons.mp hr with rfl | hr
      · simp
      · have hk : stringify r ∉ stringify item :: seen :=
          (dedupFilter_keys stringify rest _).2.2 r hr
        have hne : stringify item ≠ stringify r :=
          fun h => hk (h ▸ List.mem_cons_self _ _)
        rw [List.find?_cons_of_neg _ (by simpa using hne)]
        exact ih _ r hr

/-- A list with distinct keys, none of them in `seen`, passes the filter
unchanged. -/
theorem dedupFilter_fixed {α : Type} (stringify : α → String) (data : List α) :
    ∀ seen : List String, (data.map stringify).Nodup → (∀ r ∈ data, stringify r ∉ seen) →
      dedupFilter stringify seen data = data := by
  induction data with
  | nil => intro seen _ _; rfl
  | cons item rest ih =>
    intro seen hnd hseen
    rw [List.map_cons, List.nodup_cons] at hnd
    unfold dedupFilter
    rw [if_neg (hseen item (List.mem_cons_self _ _))]
    congr 1
    apply ih _ hnd.2
    intro r hr hmem
    rcases List.mem_cons.mp hmem with h | h
    · exact hnd.1 (h ▸ List.mem_map_of_mem _ hr)
    · exact hseen r (List.mem_cons_of_mem _ hr) h

/-- C24. Storage merging deduplicates: for all record lists,
`mergeData(existing, new) = deduplicateData(existing ++ new)`; the result is a
sublist of `existing ++ new` (the records kept are in their original order) in which
every record of `existing ++ new` is present up to its JSON serialisation (present
itself where the serialisation tells records apart), no two records have the same
serialisation, each record kept is the first of the input with its serialisation, and
deduplicating an already deduplicated list returns it unchanged. -/
theorem mergeData_deduplicates {α : Type} (stringify : α → String)
    (existingData newData : List α) :
    mergeData stringify existingData newData
        = deduplicateData stringify (existingData ++ newData)
      ∧ (mergeData stringify existingData newData).Sublist (existingData ++ newData)
      ∧ (∀ r ∈ existingData ++ newData,
          ∃ k ∈ mergeData stringify existingData newData, stringify k = stringify r)
      ∧ (Function.Injective stringify →
          ∀ r ∈ existingData ++ newData, r ∈ mergeData stringify existingData newData)
      ∧ ((mergeData stringify existingData newData).map stringify).Nodup
      ∧ (∀ r ∈ mergeData stringify existingData newData,
          (existingData ++ newData).find? (fun x => stringify x = stringify r) = some r)
      ∧ deduplicateData stringify (deduplicateData stringify (existingData ++ newData))
          = deduplicateData stringify (existingData ++ newData) := by
  have hkeys := dedupFilter_keys stringify (existingData ++ newData) []
  have hcov : ∀ r ∈ existingData ++ newData,
      ∃ k ∈ mergeData stringify existingData newData, stringify k = stringify r := by
    intro r hr
    rcases dedupFilter_covers stringify (existingData ++ newData) [] r hr with h | h
    · cases h
    · exact h
  refine ⟨rfl, hkeys.1, hcov, ?_, hkeys.2.1, dedupFilter_first stringify _ [], ?_⟩
  · intro hinj r hr
    obtain ⟨k, hk, hkr⟩ := hcov r hr
    exact hinj hkr ▸ hk
  · exact dedupFilter_fixed stringify _ [] hkeys.2.1 (fun _ _ h => by cases h)

/-- Two stored records and three new ones, two of which repeat: the four distinct
records remain, in order of first occurrence. -/
theorem mergeData_on_example :
    mergeData quoteRecord ["2024-01-10", "2024-01-11"] ["2024-01-11", "2024-01-12", "2024-01-10", "2024-01-13"]
      = ["2024-01-10", "2024-01-11", "2024-01-12", "2024-01-13"] := by
  decide

/-! ## Parallel and serial batches -/

/-- C29. Parallel and serial fan-out are equivalent on outcomes: for every manager
(initialized or not) whose crawlers' individual outcomes are fixed per crawler, and
whatever the clocks of the two batches, `runAllCrawlers(force, true)` and
`runAllCrawlers(force, false)` return the same `success` flag and `error`, the same
`results` array (same names, same success flags, same order, no `error` property) and
the same `stats.total`, `stats.success` and `stats.failed`. -/
theorem parallel_serial_equivalent (m : CrawlerManager) (conduct : String → Conduct)
    (forceHistorical : Bool) (start1 end1 start2 end2 : Int) :
    (m.runAllCrawlers conduct forceHistorical true start1 end1).result.results
        = (m.runAllCrawlers conduct forceHistorical false start2 end2).result.results
      ∧ (m.runAllCrawlers conduct forceHistorical true start1 end1).result.success
        = (m.runAllCrawlers conduct forceHistorical false start2 end2).result.success
      ∧ (m.runAllCrawlers conduct forceHistorical true start1 end1).result.error
        = (m.runAllCrawlers conduct forceHistorical false start2 end2).result.error
      ∧ (m.runAllCrawlers conduct forceHistorical true start1 end1).result.stats.map
          (fun s => (s.total, s.success, s.failed))
        = (m.runAllCrawlers conduct forceHistorical false start2 end2).result.stats.map
          (fun s => (s.total, s.success, s.failed)) := by
  unfold CrawlerManager.runAllCrawlers
  cases m.isInitialized with
  | false => simp
  | true =>
    by_cases hnil : m.crawlers = []
    · simp [hnil]
    · simp [hnil, settledEntry]

/-- The batch of `A` (raising) and `B` (succeeding) in both modes: the same two
entries and the same counts. -/
theorem parallel_serial_on_pair :
    (pairManager.runAllCrawlers pairConduct false true 0 10).result.results
        = some [{ name := some "A", success := false, error := none },
                { name := some "B", success := true, error := none }]
      ∧ (pairManager.runAllCrawlers pairConduct false false 20 50).result.results
        = some [{ name := some "A", success := false, error := none },
                { name := some "B", success := true, error := none }]
      ∧ (pairManager.runAllCrawlers pairConduct false true 0 10).result.stats
        = some { total := 2, success := 1, failed := 1, duration := 10 }
      ∧ (pairManager.runAllCrawlers pairConduct false false 20 50).result.stats
        = some { total := 2, success := 1, failed := 1, duration := 30 } := by
  decide

/-! ## The contract routines of `FarsideCrawler` -/

/-- The object `crawl()` returns has exactly the site keys as properties. -/
theorem crawl_properties (env : CrawlEnv) :
    (FarsideCrawler.crawl farsideSites env).results.map Prod.fst = ["bitcoin", "ethereum"] := by
  simp [FarsideCrawler.crawl, crawlLoop, farsideSites, mapSet]

/-- Whatever the sites and storage do, the value of either routine has no `length`
for the lifecycle to test. -/
theorem farside_routines_have_no_length (env : CrawlEnv) :
    (FarsideCrawler.crawlHistoricalData env).asRecords = none
      ∧ (FarsideCrawler.crawlDailyData env).asRecords = none := by
  simp [FarsideCrawler.crawlHistoricalData, FarsideCrawler.crawlDailyData, crawl_properties,
    Acquired.asRecords]

/-- C25 (failing input). Both sites are fetched and parsed, so `crawl()` obtains a
table for each and stores it under the table name of the site; the run of the
lifecycle returns `true`, yet its test for a non-empty array fails in both phases:
no `saveData` call is made by the lifecycle under the name of the crawler, the warning
for missing data is logged for each phase, and `totalRecords` stays 0. -/
theorem farside_records_never_counted :
    (FarsideCrawler.crawl farsideSites openCrawlEnv).results.map (fun p => (p.1, p.2.success))
        = [("bitcoin", true), ("ethereum", true)]
      ∧ (FarsideCrawler.crawl farsideSites openCrawlEnv).saved
        = [("bitcoin_etf_data", some flowPage.tableData),
           ("ethereum_etf_data", some flowPage.tableData)]
      ∧ (run false farsideRunEnv (World.fresh idleCrawler)).1 = .ok true
      ∧ (run false farsideRunEnv (World.fresh idleCrawler)).2.calls
        = [Invocation.hasHistoricalData (some "FarsideCrawler"),
           Invocation.crawlHistoricalData, Invocation.crawlDailyData]
      ∧ (run false farsideRunEnv (World.fresh idleCrawler)).2.calls.filter Invocation.isSave = []
      ∧ (run false farsideRunEnv (World.fresh idleCrawler)).2.crawler.stats.totalRecords = 0
      ∧ ({ level := "warn", message := "未获取到历史数据", error := none } : LogEntry)
          ∈ (run false farsideRunEnv (World.fresh idleCrawler)).2.log
      ∧ ({ level := "warn", message := "未获取到每日数据", error := none } : LogEntry)
          ∈ (run false farsideRunEnv (World.fresh idleCrawler)).2.log := by
  refine ⟨by decide, by decide, rfl, by decide, by decide, by decide, by decide, by decide⟩

/-! ## Batches of urls -/

/-- The loop of `processBatch` from the index `i` on, for a batch size of at least 1
and enough iterations allowed: it ends, having invoked the function on the urls from
`i` on, in `k` batches of `batchSize` consecutive urls (the last one may be shorter),
where `k` is the number of urls left divided by `batchSize`, rounded up, and having
waited `k - 1` times. -/
theorem processBatchLoop_spec (urls : List String) (f : String → Settled) (b : Nat)
    (hb : 1 ≤ b) :
    ∀ (fuel i : Nat) (acc : BatchLoop), urls.length - i ≤ fuel * b →
      ∃ out k, processBatchLoop urls f b fuel i acc = some out
        ∧ out.results = acc.results ++ ((urls.drop i).map f).filterMap Settled.value
        ∧ out.failures = acc.failures ++ ((urls.drop i).map f).filterMap Settled.failure
        ∧ out.invoked = acc.invoked ++ urls.drop i
        ∧ out.batches
            = acc.batches ++ (List.range k).map (fun j => (urls.drop (i + j * b)).take b)
        ∧ urls.length - i ≤ k * b ∧ k * b < urls.length - i + b
        ∧ out.delays = acc.delays + (k - 1) := by
  intro fuel
  induction fuel with
  | zero =>
    intro i acc h
    have hi : ¬ i < urls.length := by omega
    have hdrop : urls.drop i = [] := List.drop_eq_nil_of_le (by omega)
    refine ⟨acc, 0, ?_, ?_, ?_, ?_, ?_, ?_, ?_, ?_⟩ <;>
      simp [processBatchLoop, hi, hdrop]
    all_goals omega
  | succ fuel ih =>
    intro i acc h
    by_cases hi : i < urls.length
    · have hfuel : urls.length - (i + b) ≤ fuel * b := by
        rw [Nat.succ_mul] at h; omega
      have hsplit : urls.drop i = (urls.drop i).take b ++ urls.drop (i + b) := by
        rw [← List.drop_drop, List.take_append_drop]
      rw [processBatchLoop, if_pos hi]
      by_cases hd : i + b < urls.length
      · obtain ⟨out, k, heq, hres, hfail, hinv, hbat, hk1, hk2, hdel⟩ :=
          ih (i + b)
            { results := acc.results ++ (((urls.drop i).take b).map f).filterMap Settled.value,
              invoked := acc.invoked ++ (urls.drop i).take b,
              batches := acc.batches ++ [(urls.drop i).take b],
              delays := acc.delays + 1,
              failures := acc.failures
                ++ (((urls.drop i).take b).map f).filterMap Settled.failure } hfuel
        have hkpos : 1 ≤ k := by
          rcases Nat.eq_zero_or_pos k with h0 | h0
          · subst h0; simp at hk1; omega
          · exact h0
        refine ⟨out, k + 1, ?_, ?_, ?_, ?_, ?_, ?_, ?_, ?_⟩
        · simpa [hd] using heq
        · rw [hres]; simp only [List.append_assoc]
          rw [← List.filterMap_append, ← List.map_append, ← hsplit]
        · rw [hfail]; simp only [List.append_assoc]
          rw [← List.filterMap_append, ← List.map_append, ← hsplit]
        · rw [hinv]; simp only [List.append_assoc]
          rw [← hsplit]
        · rw [hbat, List.range_succ_eq_map]
          simp only [List.append_assoc, List.map_cons, List.map_map, List.singleton_append,
            Nat.zero_mul, Nat.add_zero]
          congr 2
          apply List.map_congr_left
          intro j _
          simp only [Function.comp, Nat.succ_eq_add_one, Nat.succ_mul]
          congr 2
          omega
        · rw [Nat.succ_mul]; omega
        · rw [Nat.succ_mul]; omega
        · rw [hdel]; dsimp only; omega
      · obtain ⟨out, k, heq, hres, hfail, hinv, hbat, hk1, hk2, hdel⟩ :=
          ih (i + b)
            { results := acc.results ++ (((urls.drop i).take b).map f).filterMap Settled.value,
              invoked := acc.invoked ++ (urls.drop i).take b,
              batches := acc.batches ++ [(urls.drop i).take b],
              delays := acc.delays,
              failures := acc.failures
                ++ (((urls.drop i).take b).map f).filterMap Settled.failure } hfuel
        have hk0 : k = 0 := by
          have hlt : k * b < 1 * b := by omega
          have := Nat.lt_of_mul_lt_mul_right hlt
          omega
        subst hk0
        refine ⟨out, 1, ?_, ?_, ?_, ?_, ?_, ?_, ?_, ?_⟩
        · simpa [hd] using heq
        · rw [hres]; simp only [List.append_assoc]
          rw [← List.filterMap_append, ← List.map_append, ← hsplit]
        · rw [hfail]; simp only [List.append_assoc]
          rw [← List.filterMap_append, ← List.map_append, ← hsplit]
        · rw [hinv]; simp only [List.append_assoc]
          rw [← hsplit]
        · rw [hbat]; simp [List.range_succ_eq_map]
        · omega
        · omega
        · rw [hdel]
    · have hdrop : urls.drop i = [] := List.drop_eq_nil_of_le (by omega)
      refine ⟨acc, 0, ?_, ?_, ?_, ?_, ?_, ?_, ?_, ?_⟩ <;>
        simp [processBatchLoop, hi, hdrop]
      all_goals omega

/-- The batches of a loop that ends are non-empty, hold at most `batchSize` urls and,
laid end to end, give the urls from `i` on. -/
theorem processBatchLoop_batches (urls : List String) (f : String → Settled) (b : Nat)
    (hb : 1 ≤ b) :
    ∀ (fuel i : Nat) (acc out : BatchLoop), processBatchLoop urls f b fuel i acc = some out →
      out.batches.flatten = acc.batches.flatten ++ urls.drop i
        ∧ (∀ batch ∈ out.batches, batch ∈ acc.batches ∨ (batch ≠ [] ∧ batch.length ≤ b)) := by
  intro fuel
  induction fuel with
  | zero =>
    intro i acc out h
    by_cases hi : i < urls.length
    · simp [processBatchLoop, hi] at h
    · simp only [processBatchLoop, hi, if_false, Option.some.injEq] at h
      subst h
      exact ⟨by simp [List.drop_eq_nil_of_le (Nat.le_of_not_lt hi)], fun _ hin => Or.inl hin⟩
  | succ fuel ih =>
    intro i acc out h
    by_cases hi : i < urls.length
    · rw [processBatchLoop, if_pos hi] at h
      have hsplit : urls.drop i = (urls.drop i).take b ++ urls.drop (i + b) := by
        rw [← List.drop_drop, List.take_append_drop]
      have hne : (urls.drop i).take b ≠ [] := by
        intro hnil
        have hlen := congrArg List.length hnil
        simp only [List.length_take, List.length_drop, List.length_nil] at hlen
        omega
      obtain ⟨h1, h2⟩ := ih _ _ _ h
      constructor
      · rw [h1]
        by_cases hd : i + b < urls.length <;>
          simp only [hd, if_true, if_false, List.flatten_append, List.flatten_cons,
            List.flatten_nil, List.append_nil, List.append_assoc] <;>
          rw [← hsplit]
      · intro batch hbatch
        rcases h2 batch hbatch with hin | hnew
        · have hin2 : batch ∈ acc.batches ++ [(urls.drop i).take b] := by
            by_cases hd : i + b < urls.length <;> simpa [hd] using hin
          rcases List.mem_append.mp hin2 with hacc | hlast
          · exact Or.inl hacc
          · rw [List.mem_singleton.mp hlast]
            exact Or.inr ⟨hne, List.length_take_le _ _⟩
        · exact Or.inr hnew
    · simp only [processBatchLoop, hi, if_false, Option.some.injEq] at h
      subst h
      exact ⟨by simp [List.drop_eq_nil_of_le (Nat.le_of_not_lt hi)], fun _ hin => Or.inl hin⟩

/-- With a batch size of 0 and a url to process the loop never ends, however many
iterations are allowed. -/
theorem processBatchLoop_zero_size (urls : List String) (f : String → Settled)
    (hurls : urls ≠ []) :
    ∀ (fuel : Nat) (acc : BatchLoop), processBatchLoop urls f 0 fuel 0 acc = none := by
  have hpos : 0 < urls.length := List.length_pos.mpr hurls
  intro fuel
  induction fuel with
  | zero => intro acc; simp [processBatchLoop, hpos]
  | succ fuel ih =>
    intro acc
    rw [processBatchLoop, if_pos hpos]
    exact ih _

/-- C28. For every URL list, every process function and every `batchSize >= 1`,
`processBatch` terminates; it invokes the function exactly once per URL, in order;
the batches are the `ceil(n / batchSize)` runs of `batchSize` consecutive URLs (the
last one may be shorter, none is empty, together they are the list); there are
`ceil(n / batchSize) - 1` inter-batch delays, none for an empty list; and the array
returned holds the values of the fulfilled invocations in URL order, flattened one
level, with the falsy entries removed. A rejected invocation contributes only a log
line. -/
theorem processBatch_spec (urls : List String) (processFunction : String → Settled)
    (batchSize : Nat) (hsize : 1 ≤ batchSize) :
    ∃ run, processBatch urls processFunction batchSize = some run
      ∧ run.invoked = urls
      ∧ run.batches
          = (List.range ((urls.length + batchSize - 1) / batchSize)).map
              (fun j => (urls.drop (j * batchSize)).take batchSize)
      ∧ run.batches.length = (urls.length + batchSize - 1) / batchSize
      ∧ run.batches.flatten = urls
      ∧ (∀ batch ∈ run.batches, batch ≠ [] ∧ batch.length ≤ batchSize)
      ∧ run.delays = (urls.length + batchSize - 1) / batchSize - 1
      ∧ run.returned
          = (((urls.map processFunction).filterMap Settled.value).flatMap JsValue.flat).filter
              JsAtom.truthy
      ∧ run.failures = (urls.map processFunction).filterMap Settled.failure := by
  obtain ⟨out, k, heq, hres, hfail, hinv, hbat, hk1, hk2, hdel⟩ :=
    processBatchLoop_spec urls processFunction batchSize hsize urls.length 0
      { results := [], invoked := [], batches := [], delays := 0, failures := [] }
      (by simpa using Nat.le_mul_of_pos_right _ hsize)
  obtain ⟨hflat, hbound⟩ :=
    processBatchLoop_batches urls processFunction batchSize hsize _ _ _ _ heq
  have hk : (urls.length + batchSize - 1) / batchSize = k := by
    apply Nat.div_eq_of_lt_le
    · simp only [Nat.sub_zero] at hk2; omega
    · rw [Nat.succ_mul]; simp only [Nat.sub_zero] at hk1; omega
  refine ⟨_, by rw [processBatch, heq]; rfl, ?_, ?_, ?_, ?_, ?_, ?_, ?_, ?_⟩
  · simpa using hinv
  · rw [hk]; simpa using hbat
  · rw [hk]; simp [hbat]
  · simpa using hflat
  · intro batch hbatch
    rcases hbound batch hbatch with hin | hnew
    · simp at hin
    · exact hnew
  · rw [hk]; simpa using hdel
  · simp [hres]
  · simpa using hfail

/-- Seven urls in batches of three: three batches, two delays, and the values of the
six fulfilled invocations without the two falsy ones. -/
theorem processBatch_spec_witness :
    1 ≤ 3
      ∧ ∃ run, processBatch sevenUrls sampleProcess 3 = some run
        ∧ run.invoked = sevenUrls
        ∧ run.batches
            = (List.range ((sevenUrls.length + 3 - 1) / 3)).map
                (fun j => (sevenUrls.drop (j * 3)).take 3)
        ∧ run.batches.length = (sevenUrls.length + 3 - 1) / 3
        ∧ run.batches.flatten = sevenUrls
        ∧ (∀ batch ∈ run.batches, batch ≠ [] ∧ batch.length ≤ 3)
        ∧ run.delays = (sevenUrls.length + 3 - 1) / 3 - 1
        ∧ run.returned
            = (((sevenUrls.map sampleProcess).filterMap Settled.value).flatMap
                JsValue.flat).filter JsAtom.truthy
        ∧ run.failures = (sevenUrls.map sampleProcess).filterMap Settled.failure :=
  ⟨by decide, processBatch_spec sevenUrls sampleProcess 3 (by decide)⟩

/-- The run of the seven urls, evaluated. -/
theorem processBatch_on_example :
    processBatch sevenUrls sampleProcess 3
      = some { returned := [JsAtom.string "u1", JsAtom.string "a", JsAtom.object 1,
                            JsAtom.string "u4", JsAtom.string "u6", JsAtom.string "u7"],
               invoked := sevenUrls,
               batches := [["u1", "u2", "u3"], ["u4", "u5", "u6"], ["u7"]],
               delays := 2,
               failures := ["boom"] } := by
  decide

/-! ## The latest date of a table -/

/-- The index `findRowByKeyword` returns is `-1` or that of a row. -/
theorem findRowByKeywordLoop_bounds (keywords : List String) (columnIndex : Nat) :
    ∀ (rows : List JsValue) (i : Nat),
      findRowByKeywordLoop keywords columnIndex rows i = -1
        ∨ ((i : Int) ≤ findRowByKeywordLoop keywords columnIndex rows i
            ∧ findRowByKeywordLoop keywords columnIndex rows i < i + rows.length) := by
  intro rows
  induction rows with
  | nil => intro i; left; rfl
  | cons row rest ih =>
    intro i
    have hrest := ih (i + 1)
    have hstep : findRowByKeywordLoop keywords columnIndex rest (i + 1) = -1
        ∨ ((i : Int) ≤ findRowByKeywordLoop keywords columnIndex rest (i + 1)
            ∧ findRowByKeywordLoop keywords columnIndex rest (i + 1)
                < i + (row :: rest).length) := by
      rcases hrest with h | ⟨h1, h2⟩
      · exact Or.inl h
      · right; simp only [List.length_cons]; push_cast at h1 h2 ⊢; omega
    unfold findRowByKeywordLoop
    split
    · split
      · split
        · right; simp only [List.length_cons]; push_cast; omega
        · exact hstep
      · exact hstep
    · exact hstep

/-- What the scan from row `n - 1` down finds: the dated row of highest index below
`n`, or nothing when no row below `n` is dated. -/
theorem reverseScan_spec (cal : Calendar) (tableRows : List JsValue) (col : Nat) :
    ∀ n : Nat,
      match reverseScan cal tableRows col n with
      | none => ∀ (j : Nat) (row : JsValue), j < n → tableRows[j]? = some row → dateOfRow cal col row = none
      | some r =>
        r.index < n ∧ tableRows[r.index]? = some r.row
          ∧ dateOfRow cal col r.row = some (r.dateString, r.parsedDate)
          ∧ r.formattedDate = r.parsedDate.formatted
          ∧ r.method = "reverse_scan"
          ∧ ∀ (j : Nat) (row : JsValue), r.index < j → j < n → tableRows[j]? = some row →
              dateOfRow cal col row = none := by
  intro n
  induction n with
  | zero => simp [reverseScan]
  | succ i ih =>
    have hskip : dateOfRow cal col (tableRows[i]?.getD (JsValue.atom JsAtom.undefined)) = none →
        reverseScan cal tableRows col (i + 1) = reverseScan cal tableRows col i →
        match reverseScan cal tableRows col (i + 1) with
        | none => ∀ (j : Nat) (row : JsValue), j < i + 1 → tableRows[j]? = some row → dateOfRow cal col row = none
        | some r =>
          r.index < i + 1 ∧ tableRows[r.index]? = some r.row
            ∧ dateOfRow cal col r.row = some (r.dateString, r.parsedDate)
            ∧ r.formattedDate = r.parsedDate.formatted
            ∧ r.method = "reverse_scan"
            ∧ ∀ (j : Nat) (row : JsValue), r.index < j → j < i + 1 → tableRows[j]? = some row →
                dateOfRow cal col row = none := by
      intro hnone heq
      rw [heq]
      cases hr : reverseScan cal tableRows col i with
      | none =>
        rw [hr] at ih
        intro j row hj hrow
        rcases Nat.lt_succ_iff_lt_or_eq.mp hj with h | h
        · exact ih j row h hrow
        · subst h; simpa [hrow] using hnone
      | some r =>
        rw [hr] at ih
        obtain ⟨h1, h2, h3, h4, h5, h6⟩ := ih
        refine ⟨by omega, h2, h3, h4, h5, ?_⟩
        intro j row hj hji hrow
        rcases Nat.lt_succ_iff_lt_or_eq.mp hji with h | h
        · exact h6 j row hj h hrow
        · subst h; simpa [hrow] using hnone
    cases hrow : tableRows[i]? with
    | none => exact hskip (by simp [hrow, dateOfRow]) (by simp [reverseScan, hrow])
    | some row =>
      cases row with
      | atom a => exact hskip (by simp [hrow, dateOfRow]) (by simp [reverseScan, hrow])
      | array items =>
        cases hcell : items[col]? with
        | none =>
          exact hskip (by simp [hrow, dateOfRow, hcell]) (by simp [reverseScan, hrow, hcell])
        | some cell =>
          cases hdate : dateOfCell cal cell with
          | none =>
            exact hskip (by simp [hrow, dateOfRow, hcell, hdate])
              (by simp [reverseScan, hrow, hcell, hdate])
          | some d =>
            obtain ⟨dateStr, parsed⟩ := d
            have hval : reverseScan cal tableRows col (i + 1)
                = some { dateString := dateStr, row := JsValue.array items, index := i,
                         parsedDate := parsed, formattedDate := parsed.formatted,
                         method := "reverse_scan" } := by
              simp [reverseScan, hrow, hcell, hdate]
            rw [hval]
            exact ⟨Nat.lt_succ_self i, hrow, by simp [dateOfRow, hcell, hdate], rfl, rfl,
              fun j row hj hji => by dsimp only at hj; omega⟩

/-- On a table whose rows are arrays the first strategy does not raise, and what it
finds is the dated row right before the first `Total` row. -/
theorem beforeTotal_spec (cal : Calendar) (tableRows : List JsValue) (col : Nat)
    (hrows : ∀ row ∈ tableRows, row.isArray = true) :
    ∃ res, beforeTotal cal tableRows col = .ok res
      ∧ ∀ r, res = some r →
          tableRows[r.index]? = some r.row
            ∧ dateOfRow cal col r.row = some (r.dateString, r.parsedDate)
            ∧ r.formattedDate = r.parsedDate.formatted
            ∧ r.method = "before_total"
            ∧ findRowByKeyword tableRows ["Total", "总计", "Sum"] col = r.index + 1 := by
  unfold beforeTotal
  by_cases hk : findRowByKeyword tableRows ["Total", "总计", "Sum"] col > 0
  · have hbound := findRowByKeywordLoop_bounds ["Total", "总计", "Sum"] col tableRows 0
    have hlt : (findRowByKeyword tableRows ["Total", "总计", "Sum"] col - 1).toNat
        < tableRows.length := by
      unfold findRowByKeyword at hk ⊢
      rcases hbound with h | ⟨_, h2⟩
      · omega
      · push_cast at h2; omega
    have hidx : ((findRowByKeyword tableRows ["Total", "总计", "Sum"] col - 1).toNat : Int) + 1
        = findRowByKeyword tableRows ["Total", "总计", "Sum"] col := by omega
    have hget := List.getElem?_eq_getElem hlt
    have harr := hrows _ (List.getElem_mem hlt)
    simp only [hk, if_true, hget]
    cases hrow : tableRows[(findRowByKeyword tableRows ["Total", "总计", "Sum"] col - 1).toNat] with
    | atom a => rw [hrow] at harr; cases harr
    | array items =>
      cases hcell : items[col]? with
      | none =>
        refine ⟨none, by simp [JsValue.index, hcell, dateOfCell], fun r hr => by cases hr⟩
      | some cell =>
        cases hdate : dateOfCell cal cell with
        | none =>
          refine ⟨none, by simp [JsValue.index, hcell, hdate], fun r hr => by cases hr⟩
        | some d =>
          obtain ⟨dateStr, parsed⟩ := d
          refine ⟨some { dateString := dateStr, row := JsValue.array items,
                         index := (findRowByKeyword tableRows ["Total", "总计", "Sum"] col
                                    - 1).toNat,
                         parsedDate := parsed, formattedDate := parsed.formatted,
                         method := "before_total" }, ?_, ?_⟩
          · simp only [JsValue.index, hcell, hdate]
          · intro r hr
            cases hr
            exact ⟨by rw [hget, hrow], by simp [dateOfRow, hcell, hdate], rfl, rfl, hidx.symm⟩
  · exact ⟨none, by simp [hk], fun r hr => by cases hr⟩

/-- With the dated rows in ascending order and none after the row of index `k`, the
date of that row is the latest of the table. -/
theorem latest_of_ascending (cal : Calendar) (tableRows : List JsValue) (col k : Nat)
    (found : JsValue) (date : String × Moment)
    (hfound : tableRows[k]? = some found) (hdate : dateOfRow cal col found = some date)
    (hasc : ∀ (i j : Nat) (ri rj : JsValue) (a b : String × Moment), i < j → tableRows[i]? = some ri → tableRows[j]? = some rj →
      dateOfRow cal col ri = some a → dateOfRow cal col rj = some b →
      a.2.valueOf ≤ b.2.valueOf)
    (hlast : ∀ (j : Nat) (row : JsValue), k < j → tableRows[j]? = some row → dateOfRow cal col row = none) :
    ∀ row ∈ tableRows, ∀ d, dateOfRow cal col row = some d → d.2.valueOf ≤ date.2.valueOf := by
  intro row hmem d hd
  obtain ⟨j, hj⟩ := List.mem_iff_getElem?.mp hmem
  rcases Nat.lt_trichotomy j k with h | h | h
  · exact hasc j k row found d date h hj hfound hd hdate
  · subst h
    rw [hfound] at hj
    cases hj
    rw [hdate] at hd
    cases hd
    exact le_refl _
  · rw [hlast j row h hj] at hd
    cases hd

/-- The row `findLatestDate` picks, as the code picks it. For every table whose rows
are arrays, `findLatestDate` returns the last dated row in row order: the row right before the first `Total` row when the
date cell of that row is a valid date (method `before_total`), otherwise the row of
highest index whose date cell is a valid date (method `reverse_scan`). The `index`
field is the position of the row returned, and the result is `null` exactly when no
row has a valid date. The date returned is the latest of the table when the dated
rows are in ascending order and no dated row follows the one returned. -/
theorem findLatestDate_positional (cal : Calendar) (tableRows : List JsValue) (col : Nat)
    (hrows : ∀ row ∈ tableRows, row.isArray = true) :
    ∃ res, findLatestDate cal tableRows col = .ok res
      ∧ (res = none ↔ ∀ row ∈ tableRows, dateOfRow cal col row = none)
      ∧ ∀ r, res = some r →
          tableRows[r.index]? = some r.row
            ∧ dateOfRow cal col r.row = some (r.dateString, r.parsedDate)
            ∧ r.formattedDate = r.parsedDate.formatted
            ∧ ((r.method = "before_total"
                ∧ findRowByKeyword tableRows ["Total", "总计", "Sum"] col = r.index + 1)
              ∨ (r.method = "reverse_scan"
                ∧ ∀ (j : Nat) (row : JsValue), r.index < j → tableRows[j]? = some row →
                    dateOfRow cal col row = none))
            ∧ ((∀ (i j : Nat) (ri rj : JsValue) (a b : String × Moment), i < j → tableRows[i]? = some ri → tableRows[j]? = some rj →
                  dateOfRow cal col ri = some a → dateOfRow cal col rj = some b →
                  a.2.valueOf ≤ b.2.valueOf) →
                (∀ (j : Nat) (row : JsValue), r.index < j → tableRows[j]? = some row →
                  dateOfRow cal col row = none) →
                ∀ row ∈ tableRows, ∀ d, dateOfRow cal col row = some d →
                  d.2.valueOf ≤ r.parsedDate.valueOf) := by
  obtain ⟨first, hfirst, hfirstSpec⟩ := beforeTotal_spec cal tableRows col hrows
  have hscan := reverseScan_spec cal tableRows col tableRows.length
  by_cases hlen : tableRows.length = 0
  · have hnil : tableRows = [] := List.length_eq_zero.mp hlen
    subst hnil
    exact ⟨none, by simp [findLatestDate], by simp, fun r hr => by cases hr⟩
  · cases first with
    | some found =>
      obtain ⟨h1, h2, h3, h4, h5⟩ := hfirstSpec found rfl
      refine ⟨some found, by simp [findLatestDate, hlen, hfirst], ?_, ?_⟩
      · constructor
        · intro h; cases h
        · intro hall
          have hnone := hall found.row (List.mem_iff_getElem?.mpr ⟨_, h1⟩)
          rw [h2] at hnone
          cases hnone
      · intro r hr
        cases hr
        exact ⟨h1, h2, h3, Or.inl ⟨h4, h5⟩,
          fun hasc hlast => latest_of_ascending cal tableRows col _ _ _ h1 h2 hasc hlast⟩
    | none =>
      cases hr : reverseScan cal tableRows col tableRows.length with
      | none =>
        rw [hr] at hscan
        refine ⟨none, by simp [findLatestDate, hlen, hfirst, hr], ?_, fun r h => by cases h⟩
        constructor
        · intro _ row hmem
          obtain ⟨j, hj⟩ := List.mem_iff_getElem?.mp hmem
          have hjlt : j < tableRows.length := by
            by_contra hge
            rw [List.getElem?_eq_none (Nat.le_of_not_lt hge)] at hj
            cases hj
          exact hscan j row hjlt hj
        · intro _; rfl
      | some found =>
        rw [hr] at hscan
        obtain ⟨h0, h1, h2, h3, h4, h5⟩ := hscan
        have hafter : ∀ (j : Nat) (row : JsValue), found.index < j → tableRows[j]? = some row →
            dateOfRow cal col row = none := by
          intro j row hj hrow
          have hjlt : j < tableRows.length := by
            by_contra hge
            rw [List.getElem?_eq_none (Nat.le_of_not_lt hge)] at hrow
            cases hrow
          exact h5 j row hj hjlt hrow
        refine ⟨some found, by simp [findLatestDate, hlen, hfirst, hr], ?_, ?_⟩
        · constructor
          · intro h; cases h
          · intro hall
            have hnone := hall found.row (List.mem_iff_getElem?.mpr ⟨_, h1⟩)
            rw [h2] at hnone
            cases hnone
        · intro r hr2
          cases hr2
          exact ⟨h1, h2, h3, Or.inr ⟨h4, hafter⟩,
            fun hasc hlast => latest_of_ascending cal tableRows col _ _ _ h1 h2 hasc hlast⟩

/-- The table of the test: its rows are arrays, and the row `3 Jan 2024` at index 3,
right before the `Total` row, is returned. -/
theorem findLatestDate_positional_witness :
    (∀ row ∈ mockData, row.isArray = true)
      ∧ (∃ res, findLatestDate januaryCalendar mockData 0 = .ok res
          ∧ (res = none ↔ ∀ row ∈ mockData, dateOfRow januaryCalendar 0 row = none))
      ∧ findLatestDate januaryCalendar mockData 0
          = .ok (some { dateString := "3 Jan 2024",
                        row := textRow ["3 Jan 2024", "120", "230", "350"], index := 3,
                        parsedDate := { valueOf := 1704240000000, formatted := "2024-01-03" },
                        formattedDate := "2024-01-03", method := "before_total" }) :=
  ⟨by decide,
   (findLatestDate_positional januaryCalendar mockData 0 (by decide)).imp
     (fun _ h => ⟨h.1, h.2.1⟩),
   rfl⟩

/-- C26 (failing input). In a table with the newest day first the row returned is
the one right before the `Total` row, `1 Jan 2024` at index 3, the oldest date of the
table, although the row at index 1 holds the later date `3 Jan 2024`; on the same
table `getDateRange`, which sorts the dated rows, gives `3 Jan 2024` as the latest. -/
theorem newest_first_returns_oldest :
    (∃ r, findLatestDate januaryCalendar newestFirst 0 = .ok (some r)
      ∧ r.dateString = "1 Jan 2024" ∧ r.index = 3 ∧ r.method = "before_total"
      ∧ ∃ row ∈ newestFirst, ∃ d, dateOfRow januaryCalendar 0 row = some d
          ∧ r.parsedDate.valueOf < d.2.valueOf)
      ∧ ∃ range, getDateRange januaryCalendar newestFirst 0 = .ok (some range)
          ∧ range.latest.dateString = "3 Jan 2024"
          ∧ range.earliest.dateString = "1 Jan 2024" :=
  ⟨⟨_, rfl, rfl, rfl, rfl, textRow ["3 Jan 2024", "120"], by decide, _, rfl, by decide⟩,
   ⟨_, rfl, rfl, rfl⟩⟩

/-! ## Rows and cells the parser does not guard against -/

/-- The loop of `extractTimeSeries` raises at a date cell that is `null`, whatever
the calendar. -/
theorem extractLoop_nullDateCell (cal : Calendar) :
    extractLoop cal 0 nullDateCell 0
      = .error { message := "Cannot read properties of null (reading 'trim')" } := by
  have hnd : isNonDateText "1 Jan 2024" = false := by decide
  cases h : parseDate cal "1 Jan 2024" <;>
    simp [extractLoop, nullDateCell, textRow, isNonDateContent, hnd, h, Except.map]

/-- C30 (failing inputs). Whatever the calendar: `findLatestDate` raises on a table
whose row before the `Total` row is `null`; `extractTimeSeries` raises on a date cell
that is `null` and on one that is a number, and so do `getDateRange` and
`validateDataIntegrity`, which call it. The scan of `findLatestDate`, which tests the
type of the cell first, skips the same `null` cell and returns the dated row. -/
theorem parser_raises_on_unguarded_values (cal : Calendar) :
    findLatestDate cal nullBeforeTotal 0
        = .error { message := "Cannot read properties of null (reading '0')" }
      ∧ extractTimeSeries cal nullDateCell 0
        = .error { message := "Cannot read properties of null (reading 'trim')" }
      ∧ extractTimeSeries cal numberDateCell 0
        = .error { message := "str.trim is not a function" }
      ∧ getDateRange cal nullDateCell 0
        = .error { message := "Cannot read properties of null (reading 'trim')" }
      ∧ validateDataIntegrity cal nullDateCell 0
        = .error { message := "Cannot read properties of null (reading 'trim')" }
      ∧ (findLatestDate januaryCalendar nullDateCell 0).toOption.map (Option.map (fun r => r.index))
        = some (some 0) := by
  have hseries : extractTimeSeries cal nullDateCell 0
      = .error { message := "Cannot read properties of null (reading 'trim')" } := by
    rw [extractTimeSeries, extractLoop_nullDateCell]; rfl
  refine ⟨rfl, hseries, rfl, ?_, ?_, by decide⟩
  · rw [getDateRange, hseries]
  · rw [validateDataIntegrity, hseries]

end ETFWebCrawler
